import Mathlib

/-!
# Space habitat designer: furniture placement, drag and settling

A shallow embedding of `js/modules/furniture.js` (class `FurnitureManager`) together with the
parts of the designer it reads (`floorsManager`, `plannerManager`, `currentRadius`).

Modelling conventions

* JavaScript numbers are exact: every function that only adds, multiplies, divides, compares
  and rounds is written over an arbitrary linearly ordered field `α` (so it runs over `ℚ` and
  is also available over `ℝ`).  `NaN`, infinities and rounding error are outside the model.
* `Math.sqrt(a) < d` and `Math.sqrt(a) > r` are decided by `sqrtLt` / `sqrtGt` on the squares;
  `sqrtLt_iff_real` and `sqrtGt_iff_real` show that over `ℝ` this is the comparison with
  `Real.sqrt`.
* `validateAndFixDragPosition` and `endDrag` produce `Math.cos(Math.atan2(..))` values and are
  therefore written over `ℝ`.
* Objects are referred to by `id` (reference identity of the `THREE.Object3D`).  An object
  that has been removed from `floorObjectsGroup` but is still referenced (by `activeDrops` or
  `selectedObject`) lives in `detached`.
* `Date.now()` and `clock.getDelta()` are arguments of the functions that read them.
-/

namespace Space

/-! ## Data model -/

/-- THREE.Vector3. -/
structure Vector3 (α : Type) where
  x : α
  y : α
  z : α
deriving DecidableEq

/-- The furniture key `furniture_<counter>_floor_<floor>` written by `placeObjectAt` and
`duplicateObject`, kept as its two numeric components. -/
structure FurnitureKey where
  counter : Nat
  floor : Int
deriving DecidableEq

/-- The `userData` record of a furniture object (only the fields the furniture module reads). -/
structure UserData (α : Type) where
  floorIndex : Option Int
  lockedFloor : Option Int
  furnitureKey : Option FurnitureKey
  furnitureType : Option String
  isStable : Bool
  lastStablePosition : Option (Vector3 α)
  lastStableFloorY : Option α
deriving DecidableEq

/-- A furniture object (a `THREE.Group`).  `height` is the vertical extent of its bounding box
(`bbox.max.y - bbox.min.y`, children such as attachment points included), which does not depend
on where the object stands. -/
structure Object3D (α : Type) where
  id : Nat
  position : Vector3 α
  rotationY : α
  height : α
  visible : Bool
  userData : UserData α
deriving DecidableEq

/-- A floor slab mesh of `floorsManager.floorGroup`: its elevation `position.y`, and the
`floorIndex` and `baseY` of its `userData` (`baseY` is unset until the first floor selection).
The one-slab examples write only the elevation of their slab 0. -/
structure Floor (α : Type) where
  positionY : α
  floorIndex : Int := 0
  baseY : Option α := none
deriving DecidableEq

/-- An entry of `activeDrops`: `{ obj, vy }`. -/
structure Drop (α : Type) where
  obj : Nat
  vy : α
deriving DecidableEq

/-- The mutable state read and written by the furniture module. -/
structure Designer (α : Type) where
  /-- designer.currentRadius -/
  currentRadius : α
  /-- floorsManager.floorGroup.children -/
  floors : List (Floor α)
  /-- floorsManager.floorObjectsGroup.children -/
  children : List (Object3D α)
  /-- objects outside floorObjectsGroup that are still referenced -/
  detached : List (Object3D α)
  /-- plannerManager.snapEnabled -/
  snapEnabled : Bool
  isDragging : Bool
  selectedObject : Option Nat
  dragStartPosition : Vector3 α
  dragStartMousePosition : Option (α × α)
  pointer : α × α
  activeDrops : List (Drop α)
  furnitureKeyCounter : Nat
  layoutLocked : Bool
  lastPlacementTime : Int
  /-- the time of the last accepted `startDrag` -/
  lastDragTime : Int := 0
  placementObjectType : String
  /-- ids of objects with a pending `setTimeout` that clears `isStable` -/
  stableTimers : List Nat
  /-- next fresh object identity -/
  nextId : Nat
deriving DecidableEq

/-- What the user is shown after a placement request. -/
inductive Feedback where
  | none
  | placementError (message : String)
  | placementSuccess
deriving DecidableEq

/-- The line written to the console by a failing `validatePlacementPosition`. -/
inductive Reason where
  | layoutLocked
  | cooldown
  | invalidFloor
  | outOfBounds
  | floorFull
  | tooClose
deriving DecidableEq

/-- The console text of each reason. -/
def Reason.message : Reason → String
  | .layoutLocked => "Layout is locked, cannot place objects"
  | .cooldown => "Placement cooldown active, please wait"
  | .invalidFloor => "Invalid floor index"
  | .outOfBounds => "Position outside floor bounds"
  | .floorFull => "Floor has reached maximum object limit"
  | .tooClose => "Position too close to existing objects"

section Generic

variable {α : Type} [LinearOrderedField α]

/-! ## Constants set by the constructors -/

/-- `this.placementCooldown = 500` (milliseconds between placements). -/
def placementCooldown : Int := 500

/-- `this.maxObjectsPerFloor = 50`. -/
def maxObjectsPerFloor : Nat := 50

/-- `this.minObjectDistance = 0.5`. -/
def minObjectDistance : α := 0.5

/-- `floorsManager.floorThickness = 0.3`. -/
def floorThickness : α := 0.3

/-! ## Numeric helpers -/

/-- `Math.sqrt(a) < d` for a sum of squares `a`. -/
def sqrtLt (a d : α) : Prop := 0 < d ∧ a < d * d

/-- `Math.sqrt(a) > r` for a sum of squares `a`. -/
def sqrtGt (a r : α) : Prop := r < 0 ∨ r * r < a

instance sqrtLt.instDecidable (a d : α) : Decidable (sqrtLt a d) := by
  unfold sqrtLt; infer_instance

instance sqrtGt.instDecidable (a r : α) : Decidable (sqrtGt a r) := by
  unfold sqrtGt; infer_instance

/-- `Math.pow(v, 2)`. -/
def pow2 (v : α) : α := v * v

/-- `floorGroup.children[i]` for a numeric index. -/
def floorAt (floors : List (Floor α)) (i : Int) : Option (Floor α) :=
  if 0 ≤ i then floors[i.toNat]? else none

/-- The expression `userData.lockedFloor != null ? userData.lockedFloor :
(userData.floorIndex != null ? userData.floorIndex : dflt)`. -/
def lockedFloorOr (o : Object3D α) (dflt : Int) : Int :=
  match o.userData.lockedFloor with
  | some l => l
  | none =>
    match o.userData.floorIndex with
    | some i => i
    | none => dflt

/-! ## Placement validation -/

/-- `getObjectsOnFloor(floorIndex)`. -/
def getObjectsOnFloor (s : Designer α) (floorIndex : Int) : List (Object3D α) :=
  s.children.filter (fun obj => decide (lockedFloorOr obj (-1) = floorIndex))

/-- `checkMinimumDistance(position, floorIndex)`. -/
def checkMinimumDistance (s : Designer α) (position : Vector3 α) (floorIndex : Int) : Bool :=
  (getObjectsOnFloor s floorIndex).all (fun obj =>
    !decide (sqrtLt (pow2 (position.x - obj.position.x) + pow2 (position.z - obj.position.z))
      minObjectDistance))

/-- `validatePlacementPosition(position, floorIndex)` at time `now = Date.now()`:
`none` is `return true`, `some r` is `return false` after logging `r.message`. -/
def validatePlacementLog (s : Designer α) (now : Int) (position : Vector3 α)
    (floorIndex : Int) : Option Reason :=
  if s.layoutLocked then some .layoutLocked
  else if now - s.lastPlacementTime < placementCooldown then some .cooldown
  else
    match floorAt s.floors floorIndex with
    | none => some .invalidFloor
    | some _ =>
      let radius := s.currentRadius * 0.8
      if sqrtGt (position.x * position.x + position.z * position.z) radius then some .outOfBounds
      else if maxObjectsPerFloor ≤ (getObjectsOnFloor s floorIndex).length then some .floorFull
      else if !checkMinimumDistance s position floorIndex then some .tooClose
      else none

/-- The boolean returned by `validatePlacementPosition(position, floorIndex)`. -/
def validatePlacementPosition (s : Designer α) (now : Int) (position : Vector3 α)
    (floorIndex : Int) : Bool :=
  (validatePlacementLog s now position floorIndex).isNone

/-- Vertical extent of a prefab as `createFurniturePrefab` returns it, relative to the prefab's
own origin: `bbox.min.y` and `bbox.max.y` of `new THREE.Box3().setFromObject(prefab)` taken
before the prefab is lifted. -/
structure PrefabBox (α : Type) where
  minY : α
  maxY : α

/-- The `height` that `placeObjectAt` measures, `bbox.max.y - bbox.min.y`, taken before the
attachment points exist. -/
def PrefabBox.height (b : PrefabBox α) : α :=
  b.maxY - b.minY

/-- The bounding-box height once `createAttachmentPoints` has added its six spheres as
children: `SphereGeometry(0.1, 8, 6)` at `(0, 1, 0)` and `(0, -1, 0)` (the other four sit at
height 0), so the box reaches at least from `-1.1` to `1.1`.  This is the height every later
measurement (`updateGravity`, the drag handlers) sees. -/
def PrefabBox.attachedHeight (b : PrefabBox α) : α :=
  max b.maxY (1 + 0.1) - min b.minY (-1 - 0.1)

/-- The `'bed'` prefab of `createFurniturePrefab`: frame `BoxGeometry(2.1, 0.2, 1.1)` centred at
height 0.1 (bottom at 0), headboard `BoxGeometry(0.08, 0.9, 1.1)` centred at height 0.55 (top
at 1); mattress and pillows lie in between. -/
def bedBox : PrefabBox α :=
  { minY := 0, maxY := 1 }

/-- The `'cylinder'` prefab of `createFurniturePrefab`: one mesh
`CylinderGeometry(0.9, 0.9, 2.25, 24)` centred on the prefab's origin. -/
def cylinderBox : PrefabBox α :=
  { minY := -1.125, maxY := 1.125 }

/-- The prefab that `placeObjectAt` adds: built by `createFurniturePrefab` with vertical extent
`box`, positioned at `worldPoint` but 2 units above the resting height computed from the height
measured before the attachment points are added, keyed with the current counter and locked to
`floorIdx`.  The object stored carries its attachment points, hence `box.attachedHeight`. -/
def newFurniture (s : Designer α) (box : PrefabBox α) (worldPoint : Vector3 α) (floorIdx : Int)
    (floor : Floor α) : Object3D α :=
  let floorY := floor.positionY
  let height := box.height
  let yOffset := height / 2
  let floorTop := floorY + floorThickness / 2
  { id := s.nextId
    position := { x := worldPoint.x, y := floorTop + yOffset + 2, z := worldPoint.z }
    rotationY := 0
    height := box.attachedHeight
    visible := true
    userData :=
      { floorIndex := some floorIdx
        lockedFloor := some floorIdx
        furnitureKey := some { counter := s.furnitureKeyCounter, floor := floorIdx }
        furnitureType := some s.placementObjectType
        isStable := false
        lastStablePosition := none
        lastStableFloorY := none } }

/-- `placeObjectAt(worldPoint, floorIdx)` at time `now`; `box` is the vertical extent of the
prefab built by `createFurniturePrefab(this.placementObjectType, theme)`.  Returns the
new state and the feedback shown (`showPlacementError` / `showPlacementSuccess`). -/
def placeObjectAt (s : Designer α) (now : Int) (box : PrefabBox α) (worldPoint : Vector3 α)
    (floorIdx : Int) : Designer α × Feedback :=
  if s.isDragging then (s, Feedback.none)
  else if !validatePlacementPosition s now worldPoint floorIdx then
    (s, Feedback.placementError "Cannot place object at this location")
  else
    match floorAt s.floors floorIdx with
    | none => ({ s with lastPlacementTime := now }, Feedback.none)
    | some floor =>
      let prefab := newFurniture s box worldPoint floorIdx floor
      ({ s with
          lastPlacementTime := now
          furnitureKeyCounter := s.furnitureKeyCounter + 1
          nextId := s.nextId + 1
          children := s.children ++ [prefab]
          selectedObject := some prefab.id
          activeDrops := s.activeDrops ++ [{ obj := prefab.id, vy := 0 }] },
        Feedback.placementSuccess)

/-! ## Object store -/

/-- The object with reference `id`, in `floorObjectsGroup` or detached. -/
def findObject (s : Designer α) (id : Nat) : Option (Object3D α) :=
  (s.children ++ s.detached).find? (fun o => decide (o.id = id))

/-- In-place mutation `f` of the object with reference `id`. -/
def updateObject (s : Designer α) (id : Nat) (f : Object3D α → Object3D α) : Designer α :=
  { s with
    children := s.children.map (fun o => if o.id = id then f o else o)
    detached := s.detached.map (fun o => if o.id = id then f o else o) }

/-- The assignment `obj.position.y = y`. -/
def setY (y : α) (o : Object3D α) : Object3D α :=
  { o with position := { o.position with y := y } }

/-- The assignment of `p` to all of `obj.position` (`position.copy(p)`, or `x` and `z` set
with `y` kept). -/
def setPosition (p : Vector3 α) (o : Object3D α) : Object3D α :=
  { o with position := p }

/-- The assignment `obj.visible = true`. -/
def setVisible (o : Object3D α) : Object3D α :=
  { o with visible := true }

/-- The assignments `userData.lockedFloor = 0; userData.floorIndex = 0`. -/
def relockToGround (o : Object3D α) : Object3D α :=
  { o with userData := { o.userData with lockedFloor := some 0, floorIndex := some 0 } }

/-- The survivors of the key scan of `removeDuplicates` (`seen` is `seenKeys`). -/
def dedupKeep (seen : List FurnitureKey) : List (Object3D α) → List (Object3D α)
  | [] => []
  | obj :: rest =>
    match obj.userData.furnitureKey with
    | some key =>
      if key ∈ seen then dedupKeep seen rest else obj :: dedupKeep (key :: seen) rest
    | none => obj :: dedupKeep seen rest

/-- The array `duplicates` collected by the key scan of `removeDuplicates`. -/
def dedupDrop (seen : List FurnitureKey) : List (Object3D α) → List (Object3D α)
  | [] => []
  | obj :: rest =>
    match obj.userData.furnitureKey with
    | some key =>
      if key ∈ seen then obj :: dedupDrop seen rest else dedupDrop (key :: seen) rest
    | none => dedupDrop seen rest

/-- `removeDuplicates()`. -/
def removeDuplicates (s : Designer α) : Designer α :=
  { s with
    children := dedupKeep [] s.children
    detached := s.detached ++ dedupDrop [] s.children }

/-! ## Stable positioning -/

/-- The object after `setStableObjectPosition(object)` when its floor is `floor`. -/
def stabilized (floor : Floor α) (object : Object3D α) : Object3D α :=
  let height := object.height
  let floorTop := floor.positionY + floorThickness / 2
  let targetY := floorTop + height / 2
  let position : Vector3 α := { object.position with y := targetY }
  { object with
    position := position
    userData :=
      { object.userData with
        isStable := true
        lastStablePosition := some position
        lastStableFloorY := some floor.positionY } }

/-- `setStableObjectPosition(object)` on the object with reference `id`: nothing happens when
the floor is missing, otherwise the object is put on its floor, flagged stable and a timeout
that clears the flag is scheduled. -/
def setStableObjectPosition (s : Designer α) (id : Nat) : Designer α :=
  match findObject s id with
  | none => s
  | some object =>
    match floorAt s.floors (lockedFloorOr object 0) with
    | none => s
    | some floor =>
      { updateObject s id (stabilized floor) with stableTimers := s.stableTimers ++ [id] }

/-- The callback of the timeout scheduled by `setStableObjectPosition`. -/
def releaseStable (s : Designer α) (id : Nat) : Designer α :=
  { updateObject s id (fun o => { o with userData := { o.userData with isStable := false } }) with
    stableTimers := s.stableTimers.erase id }

/-! ## Dragging -/

/-- `Math.max(-radius, Math.min(radius, v))`. -/
def clampAxis (radius v : α) : α := max (-radius) (min radius v)

/-- `updateDrag()`. -/
def updateDrag (s : Designer α) : Designer α :=
  match s.selectedObject, s.isDragging, s.dragStartMousePosition with
  | some sel, true, some start =>
    match findObject s sel with
    | none => s
    | some selected =>
      let mouseDeltaX := s.pointer.1 - start.1
      let mouseDeltaY := s.pointer.2 - start.2
      let movementScale : α := 10
      let newX := s.dragStartPosition.x + mouseDeltaX * movementScale
      let newZ := s.dragStartPosition.z - mouseDeltaY * movementScale
      let newPosition : Vector3 α :=
        match floorAt s.floors (selected.userData.lockedFloor.getD 0) with
        | some _ =>
          let radius := s.currentRadius * 0.8
          { x := clampAxis radius newX, y := s.dragStartPosition.y, z := clampAxis radius newZ }
        | none => { x := newX, y := s.dragStartPosition.y, z := newZ }
      updateObject s sel (setPosition newPosition)
  | _, _, _ => s

/-! ## Gravity -/

/-- `Math.sign`. -/
def mathSign (v : α) : α := if 0 < v then 1 else if v < 0 then -1 else 0

/-- The gravity constant `g` of `updateGravity` (m/s^2). -/
def gravity : α := -9.8

/-- The frame step `Math.min(0.033, this.clock.getDelta())`. -/
def frameStep (delta : α) : α := min 0.033 delta

/-- The resting height of `obj` on `floor`: `floorTop + objHeight / 2`. -/
def targetHeight (floor : Floor α) (obj : Object3D α) : α :=
  floor.positionY + floorThickness / 2 + obj.height / 2

/-- The filter callback of the drop loop for one entry: the state after the mutation of the
entry's object, and the entry when it stays in `activeDrops`. -/
def dropEntry (dt : α) (s : Designer α) (entry : Drop α) : Designer α × Option (Drop α) :=
  match findObject s entry.obj with
  | none => (s, none)
  | some obj =>
    let newVy := entry.vy + gravity * dt
    let y1 := obj.position.y + newVy * dt
    let s1 := updateObject s entry.obj (setY y1)
    match obj.userData.lockedFloor <|> obj.userData.floorIndex with
    | none => (s1, none)
    | some fidx =>
      match floorAt s.floors fidx with
      | none => (s1, none)
      | some floor =>
        let targetY := targetHeight floor obj
        if y1 ≤ targetY then (updateObject s1 entry.obj (setY targetY), none)
        else (s1, some { entry with vy := newVy })

/-- The drop loop `this.activeDrops.filter(entry => ...)`: final state and surviving entries. -/
def dropAll (dt : α) : Designer α → List (Drop α) → Designer α × List (Drop α)
  | s, [] => (s, [])
  | s, entry :: rest =>
    let r := dropEntry dt s entry
    let rs := dropAll dt r.1 rest
    (rs.1, r.2.toList ++ rs.2)

/-- The body of the re-stick loop for an object that is neither dropping nor stable and whose
floor is `floor`. -/
def nudge (floor : Floor α) (obj : Object3D α) : Object3D α :=
  let target := targetHeight floor obj
  let dy := target - obj.position.y
  if 0.001 < |dy| then
    let y1 := obj.position.y + mathSign dy * min |dy| 0.05
    if |target - y1| ≤ 0.002 then setY target obj else setY y1 obj
  else obj

/-- The re-stick loop body for one child: the object afterwards and whether
`setStableObjectPosition` was called on it. -/
def stickObject (floors : List (Floor α)) (drops : List (Drop α)) (obj : Object3D α) :
    Object3D α × Bool :=
  if drops.any (fun d => decide (d.obj = obj.id)) then (obj, false)
  else if obj.userData.isStable then
    match floorAt floors (lockedFloorOr obj 0), obj.userData.lastStablePosition,
      obj.userData.lastStableFloorY with
    | some floor, some _, some lastY =>
      if 0.1 < |floor.positionY - lastY| then (stabilized floor obj, true) else (obj, false)
    | _, _, _ => (obj, false)
  else
    match floorAt floors (lockedFloorOr obj 0) with
    | none => (obj, false)
    | some floor => (nudge floor obj, false)

/-- `updateGravity()` for a frame whose `clock.getDelta()` is `delta`. -/
def updateGravity (s : Designer α) (delta : α) : Designer α :=
  let s0 := removeDuplicates s
  if s0.isDragging then s0
  else
    let dt := frameStep delta
    let r := dropAll dt s0 s0.activeDrops
    let s1 := { r.1 with activeDrops := r.2 }
    let stuck := s1.children.map (stickObject s1.floors s1.activeDrops)
    { s1 with
      children := stuck.map Prod.fst
      stableTimers := s1.stableTimers ++ (stuck.filter Prod.snd).map (fun p => p.1.id) }

/-- The state after the frames with `clock.getDelta()` equal to `deltas 0`, ...,
`deltas (n - 1)`. -/
def runGravity (deltas : Nat → α) : Nat → Designer α → Designer α
  | 0, s => s
  | n + 1, s => updateGravity (runGravity deltas n s) (deltas n)

end Generic

/-! ## Drag release (over the reals) -/

section RealModel

/-- `Math.atan2(y, x)`. -/
noncomputable def atan2 (y x : ℝ) : ℝ := Complex.arg ⟨x, y⟩

/-- `Math.round(v)`: the nearest integer, halves rounded up. -/
noncomputable def mathRound (v : ℝ) : ℝ := ⌊v + 0.5⌋

/-- The bounds step of `validateAndFixDragPosition`, on the object's position. -/
noncomputable def fixBounds (radius : ℝ) (p : Vector3 ℝ) : Vector3 ℝ :=
  let distanceFromCenter := Real.sqrt (p.x * p.x + p.z * p.z)
  if distanceFromCenter > radius then
    let angle := atan2 p.z p.x
    { p with x := Real.cos angle * radius, z := Real.sin angle * radius }
  else p

/-- The body of the collision loop of `validateAndFixDragPosition` for one `otherObj`. -/
noncomputable def fixCollision (p : Vector3 ℝ) (otherObj : Object3D ℝ) : Vector3 ℝ :=
  let distance := Real.sqrt (pow2 (p.x - otherObj.position.x) + pow2 (p.z - otherObj.position.z))
  if distance < minObjectDistance then
    let angle := atan2 (p.z - otherObj.position.z) (p.x - otherObj.position.x)
    { p with
      x := otherObj.position.x + Real.cos angle * minObjectDistance
      z := otherObj.position.z + Real.sin angle * minObjectDistance }
  else p

/-- `validateAndFixDragPosition(object)` for the object with reference `id`. -/
noncomputable def validateAndFixDragPosition (s : Designer ℝ) (id : Nat) : Designer ℝ :=
  match findObject s id with
  | none => s
  | some object =>
    let lockedFloor := lockedFloorOr object 0
    match floorAt s.floors lockedFloor with
    | none => updateObject s id relockToGround
    | some _ =>
      let radius := s.currentRadius * 0.8
      let p1 := fixBounds radius object.position
      let objectsOnFloor := getObjectsOnFloor s lockedFloor
      let p2 := (objectsOnFloor.filter (fun otherObj => decide (otherObj.id ≠ id))).foldl
        fixCollision p1
      updateObject s id (setPosition p2)

/-- The snap step of `endDrag`: `position.x = Math.round(position.x)` and the same for `z`. -/
noncomputable def snapToGrid (o : Object3D ℝ) : Object3D ℝ :=
  { o with position := { o.position with x := mathRound o.position.x, z := mathRound o.position.z } }

/-- The re-parenting step of `endDrag`: the selected object is added to `floorObjectsGroup`
when it is not one of its children. -/
def reparentSelected {α : Type} (s : Designer α) (sel : Nat) (selected : Object3D α) :
    Designer α :=
  if s.children.any (fun o => decide (o.id = sel)) then s
  else
    { s with
      children := s.children ++ [selected]
      detached := s.detached.filter (fun o => decide (o.id ≠ sel)) }

/-- The test `obj !== this.selectedObject && obj.userData.furnitureKey === objectKey`. -/
def isDuplicateOf {α : Type} (sel : Nat) (objectKey : Option FurnitureKey) (obj : Object3D α) :
    Bool :=
  decide (obj.id ≠ sel) && decide (obj.userData.furnitureKey = objectKey)

/-- The duplicate removal of `endDrag`: every other child with the key of the selected object
is removed from `floorObjectsGroup`. -/
def removeDuplicatesOf {α : Type} (s : Designer α) (sel : Nat)
    (objectKey : Option FurnitureKey) : Designer α :=
  { s with
    children := s.children.filter (fun obj => !isDuplicateOf sel objectKey obj)
    detached := s.detached ++ s.children.filter (isDuplicateOf sel objectKey) }

/-- The block of `endDrag` that finishes the drag of a non-null `selectedObject`. -/
noncomputable def releaseSelected (s1 : Designer ℝ) (sel : Nat) (selected : Object3D ℝ) :
    Designer ℝ :=
  let s2 := reparentSelected s1 sel selected
  let s3 := updateObject s2 sel setVisible
  let s4 := removeDuplicatesOf s3 sel selected.userData.furnitureKey
  let s5 := validateAndFixDragPosition s4 sel
  let s6 := if s5.snapEnabled then updateObject s5 sel snapToGrid else s5
  setStableObjectPosition s6 sel

/-- `endDrag()`. -/
noncomputable def endDrag (s : Designer ℝ) : Designer ℝ :=
  if !s.isDragging then s
  else
    match s.selectedObject with
    | none => { s with isDragging := false }
    | some sel =>
      match findObject s sel with
      | none => { s with isDragging := false, selectedObject := none }
      | some selected =>
        { releaseSelected { s with isDragging := false } sel selected with
          selectedObject := none }

end RealModel

/-! ## Registry operations and drag start -/

section Registry

variable {α : Type} [LinearOrderedField α]

/-- `this.dragCooldown = 100` (milliseconds). -/
def dragCooldown : Int := 100

/-- The clone built by `duplicateObject(object)`: a new object (reference `id`) with the
position shifted by 2 along `x` and the key `furniture_<counter>_floor_<lockedFloor || 0>`. -/
def cloneOf (id counter : Nat) (object : Object3D α) : Object3D α :=
  { object with
    id := id
    position := { object.position with x := object.position.x + 2 }
    userData :=
      { object.userData with
        furnitureKey :=
          some { counter := counter, floor := object.userData.lockedFloor.getD 0 } } }

/-- `duplicateObject(object)` for the object with reference `id`. -/
def duplicateObject (s : Designer α) (id : Nat) : Designer α :=
  match findObject s id with
  | none => s
  | some object =>
    let clone := cloneOf s.nextId s.furnitureKeyCounter object
    { s with
      furnitureKeyCounter := s.furnitureKeyCounter + 1
      nextId := s.nextId + 1
      children := s.children ++ [clone]
      selectedObject := some clone.id }

/-- `deleteObject(object)` for the object with reference `id`: the object leaves
`floorObjectsGroup` and the selection is cleared. -/
def deleteObject (s : Designer α) (id : Nat) : Designer α :=
  { s with
    children := s.children.filter (fun o => decide (o.id ≠ id))
    detached := s.detached ++ s.children.filter (fun o => decide (o.id = id))
    selectedObject := none }

/-- `startDrag(object, event)` at time `now` for the object with reference `id`. -/
def startDrag (s : Designer α) (now : Int) (id : Nat) : Designer α :=
  if now - s.lastDragTime < dragCooldown then s
  else if s.isDragging then s
  else
    match findObject s id with
    | none => s
    | some object =>
      { updateObject s id (fun o => { o with userData := { o.userData with isStable := false } })
        with
        isDragging := true
        selectedObject := some id
        lastDragTime := now
        dragStartPosition := object.position
        dragStartMousePosition := some s.pointer }

/-- The body of the loops that put an object on its floor (`buildFloors`,
`updateFurniturePositions`): `obj.position.y = floorTop + h / 2` when the floor exists. -/
def anchorToFloor (floors : List (Floor α)) (obj : Object3D α) : Object3D α :=
  match floorAt floors (lockedFloorOr obj 0) with
  | none => obj
  | some floor => setY (targetHeight floor obj) obj

/-- `updateFurniturePositions()`. -/
def updateFurniturePositions (s : Designer α) : Designer α :=
  { s with children := s.children.map (anchorToFloor s.floors) }

end Registry

/-! ## Floors module -/

/-- A partition wall mesh: the segment and floor elevation passed to `addWall`, the box
height and thickness, and the `floorIndex` of its `userData`. -/
structure Wall (α : Type) where
  floorIndex : Int
  x1 : α
  z1 : α
  x2 : α
  z2 : α
  floorY : α
  height : α
  thickness : α
  visible : Bool
deriving DecidableEq

/-- The designer with the state of its floors manager: `currentHeight`, `numFloors`, the
children of `floorPartitionsGroup`, `selectedFloorIndex`, and the `purpose` list and crew size
read from the stored questionnaire (empty and 0 when nothing is stored). -/
structure Workspace (α : Type) where
  designer : Designer α
  currentHeight : α
  numFloors : Int
  partitions : List (Wall α)
  selectedFloorIndex : Option Int
  purpose : List String
  crewSize : Int
deriving DecidableEq

section Floors

variable {α : Type} [LinearOrderedField α]

/-- The slab loop of `buildFloors`: slab `i` at `-height / 2 + (i + 1) * gap`. -/
def buildFloorSlabs (numFloors : Int) (height : α) : List (Floor α) :=
  let gap := height / ((numFloors : α) + 1)
  (List.range numFloors.toNat).map (fun (i : Nat) =>
    { positionY := -height / 2 + ((i : α) + 1) * gap, floorIndex := (i : Int), baseY := none })

/-- The floor loop of `setSelectedFloor(index)`: the base elevation is recorded and the
selected slab raised by 3. -/
def popOutFloors (index : Int) (floors : List (Floor α)) : List (Floor α) :=
  floors.enum.map (fun p =>
    let baseY := p.2.baseY.getD p.2.positionY
    { p.2 with
      baseY := some baseY
      positionY := baseY + (if (p.1 : Int) = index then 3 else 0) })

/-- `setSelectedFloor(index)`; the camera step throws when slab `index` does not exist, which
skips the final `updateFurniturePositions()`. -/
def setSelectedFloor (w : Workspace α) (index : Int) : Workspace α :=
  let floors := popOutFloors index w.designer.floors
  let d1 : Designer α :=
    { w.designer with
      floors := floors
      children := w.designer.children.map (fun obj =>
        { obj with visible := decide (lockedFloorOr obj (-1) = index) }) }
  let w1 : Workspace α :=
    { w with
      selectedFloorIndex := some index
      partitions := w.partitions.map (fun wall =>
        { wall with visible := decide (wall.floorIndex = index) })
      designer := d1 }
  match floorAt floors index with
  | none => w1
  | some _ => { w1 with designer := updateFurniturePositions d1 }

/-- `resetFloorFocus()`. -/
def resetFloorFocus (w : Workspace α) : Workspace α :=
  let d1 : Designer α :=
    { w.designer with
      floors := w.designer.floors.map (fun f => { f with positionY := f.baseY.getD f.positionY })
      children := w.designer.children.map setVisible }
  { w with
    selectedFloorIndex := none
    partitions := w.partitions.map (fun wall => { wall with visible := true })
    designer := updateFurniturePositions d1 }

end Floors

section FloorsReal

/-- `addWall(x1, z1, x2, z2, y, floorIdx)`: the walls added (none for a segment shorter than
0.01). -/
noncomputable def addWall (wallHeight wallThickness x1 z1 x2 z2 y : ℝ) (floorIdx : Int) :
    List (Wall ℝ) :=
  let dx := x2 - x1
  let dz := z2 - z1
  let len := Real.sqrt (dx * dx + dz * dz)
  if len < 0.01 then []
  else
    [{ floorIndex := floorIdx, x1 := x1, z1 := z1, x2 := x2, z2 := z2, floorY := y,
       height := wallHeight, thickness := wallThickness, visible := true }]

/-- `targetRoomArea` of `buildFloorPartitions`. -/
def targetRoomArea (purpose : List String) : ℝ :=
  if "Research" ∈ purpose then 16 else if "Mixed-use" ∈ purpose then 20 else 12

/-- `corridorWidth` of `buildFloorPartitions`. -/
def corridorWidth (purpose : List String) : ℝ :=
  if "Emergency shelter" ∈ purpose then 1.6 else 1.2

/-- `densityFactor` of `buildFloorPartitions`. -/
def densityFactor (crewSize : Int) : ℝ :=
  if crewSize > 24 then 1.3 else if crewSize > 12 then 1.1 else 1.0

/-- `Math.max(1, Math.floor(extent / Math.sqrt(targetRoomArea)))`. -/
noncomputable def roomCount (extent : ℝ) (purpose : List String) : Int :=
  max 1 ⌊extent / Real.sqrt (targetRoomArea purpose)⌋

/-- `Math.max(1, Math.round(rooms * densityFactor))`. -/
noncomputable def gridCount (rooms : Int) (crewSize : Int) : Int :=
  max 1 ⌊(rooms : ℝ) * densityFactor crewSize + 0.5⌋

/-- The walls that `buildFloorPartitions` adds for floor `i` at elevation `y`. -/
noncomputable def floorWalls (radius gap : ℝ) (purpose : List String) (crewSize : Int)
    (i : Nat) (y : ℝ) : List (Wall ℝ) :=
  let width := radius * 2.2
  let depth := radius * 2.2
  let wallHeight := max 2 (min 3.2 (gap * 0.85))
  let wallThickness := max 0.06 (min 0.12 (min width depth * 0.01))
  let gridX := gridCount (roomCount width purpose) crewSize
  let gridZ := gridCount (roomCount depth purpose) crewSize
  let minX := -width / 2
  let minZ := -depth / 2
  let cellW := width / (gridX : ℝ)
  let cellD := depth / (gridZ : ℝ)
  let halfCX := corridorWidth purpose / 2
  let halfCZ := corridorWidth purpose / 2
  let vertical := (List.range' 1 (gridX.toNat - 1)).flatMap (fun (gx : Nat) =>
    let x := minX + (gx : ℝ) * cellW
    if x > 0 - halfCX ∧ x < 0 + halfCX then []
    else addWall wallHeight wallThickness x minZ x (-minZ) y i)
  let horizontal := (List.range' 1 (gridZ.toNat - 1)).flatMap (fun (gz : Nat) =>
    let z := minZ + (gz : ℝ) * cellD
    if z > 0 - halfCZ ∧ z < 0 + halfCZ then []
    else addWall wallHeight wallThickness minX z (-minX) z y i)
  vertical ++ horizontal ++
    addWall wallHeight wallThickness minX minZ (-minX) minZ y i ++
    addWall wallHeight wallThickness minX (-minZ) (-minX) (-minZ) y i ++
    addWall wallHeight wallThickness minX minZ minX (-minZ) y i ++
    addWall wallHeight wallThickness (-minX) minZ (-minX) (-minZ) y i

/-- `buildFloorPartitions()`: the new children of `floorPartitionsGroup`. -/
noncomputable def buildFloorPartitions (w : Workspace ℝ) : List (Wall ℝ) :=
  if w.numFloors < 1 then []
  else
    let gap := w.currentHeight / ((w.numFloors : ℝ) + 1)
    (List.range w.numFloors.toNat).flatMap (fun i =>
      match w.designer.floors[i]? with
      | none => []
      | some floor =>
        floorWalls w.designer.currentRadius gap w.purpose w.crewSize i floor.positionY)

/-- `buildFloors()`. -/
noncomputable def buildFloors (w : Workspace ℝ) : Workspace ℝ :=
  if w.numFloors < 1 then
    { w with designer := { w.designer with floors := [] }, partitions := [] }
  else
    let floors := buildFloorSlabs w.numFloors w.currentHeight
    let w1 : Workspace ℝ :=
      { w with
        designer :=
          { w.designer with
            floors := floors
            children := w.designer.children.map (anchorToFloor floors) } }
    { w1 with partitions := buildFloorPartitions w1 }

/-- The click of the questionnaire's apply button with `floors` read from the form:
`numFloors = sel.floors; buildFloors()`. -/
noncomputable def applyFloors (w : Workspace ℝ) (floors : Int) : Workspace ℝ :=
  buildFloors { w with numFloors := floors }

end FloorsReal

/-! ## Vocabulary of the statements and example states -/

/-- Distance of two positions in the horizontal plane. -/
noncomputable def horizontalDistance (p q : Vector3 ℝ) : ℝ :=
  Real.sqrt ((p.x - q.x) ^ 2 + (p.z - q.z) ^ 2)

/-- Horizontal distance of a position from the center. -/
noncomputable def distanceFromCenter (p : Vector3 ℝ) : ℝ :=
  Real.sqrt (p.x ^ 2 + p.z ^ 2)

/-- All pairs of objects locked to floor `f` are at least `minObjectDistance` apart. -/
def Separated (s : Designer ℝ) (f : Int) : Prop :=
  (getObjectsOnFloor s f).Pairwise
    (fun a b => minObjectDistance ≤ horizontalDistance a.position b.position)

/-- Object references are unique among the live objects. -/
def UniqueIds {α : Type} (s : Designer α) : Prop :=
  ((s.children ++ s.detached).map (fun o => o.id)).Nodup

/-- The floor index read by the drop loop (`lockedFloor`, else `floorIndex`) is `f`. -/
def LockedTo {α : Type} (o : Object3D α) (f : Int) : Prop :=
  (o.userData.lockedFloor <|> o.userData.floorIndex) = some f

/-- The falling entries whose object is `i`. -/
def dropsOf {α : Type} (s : Designer α) (i : Nat) : List (Drop α) :=
  s.activeDrops.filter (fun d => decide (d.obj = i))

/-- The state in which every live object `o` has been replaced by `g o`. -/
def mapObjects {α : Type} (s : Designer α) (g : Object3D α → Object3D α) : Designer α :=
  { s with children := s.children.map g, detached := s.detached.map g }

/-- Object `i` is live, `h` high, at height `y`, locked to floor `f`, which is the slab
`floor`; no drag is in progress. -/
def Tracked {α : Type} [LinearOrderedField α] (s : Designer α) (i : Nat) (f : Int)
    (floor : Floor α) (h y : α) : Prop :=
  UniqueIds s ∧ s.isDragging = false ∧ floorAt s.floors f = some floor ∧
    ∃ o, findObject s i = some o ∧ o.position.y = y ∧ o.height = h ∧ LockedTo o f

/-- Object `i` is falling from height `y` with velocity `vy` (it has exactly one entry). -/
def FallingAt {α : Type} [LinearOrderedField α] (s : Designer α) (i : Nat) (f : Int)
    (floor : Floor α) (h y vy : α) : Prop :=
  Tracked s i f floor h y ∧ dropsOf s i = [{ obj := i, vy := vy }]

/-- Object `i` stands exactly at its target height `floor top + h / 2` and has no falling
entry. -/
def SettledAt {α : Type} [LinearOrderedField α] (s : Designer α) (i : Nat) (f : Int)
    (floor : Floor α) (h : α) : Prop :=
  Tracked s i f floor h (floor.positionY + floorThickness / 2 + h / 2) ∧ dropsOf s i = []

/-- The velocity of a free fall after `n` frames: `vy += g * dt` in each frame. -/
def fallVelocity {α : Type} [LinearOrderedField α] (deltas : Nat → α) (vy0 : α) : Nat → α
  | 0 => vy0
  | n + 1 => fallVelocity deltas vy0 n + gravity * frameStep (deltas n)

/-- The height of a free fall after `n` frames: `y += vy * dt` with the updated velocity. -/
def fallHeight {α : Type} [LinearOrderedField α] (deltas : Nat → α) (y0 vy0 : α) : Nat → α
  | 0 => y0
  | n + 1 => fallHeight deltas y0 vy0 n + fallVelocity deltas vy0 (n + 1) * frameStep (deltas n)

/-- The objects visited by the collision loop when the object `o` with reference `sel` is
released: the other children locked to the floor of `o` that do not carry the key of `o`. -/
def dragNeighbours (s : Designer ℝ) (sel : Nat) (o : Object3D ℝ) : List (Object3D ℝ) :=
  s.children.filter (fun c =>
    decide (lockedFloorOr c (-1) = lockedFloorOr o 0) && decide (c.id ≠ sel) &&
      !isDuplicateOf sel o.userData.furnitureKey c)

/-- The horizontal position computed by `validateAndFixDragPosition` for the released object
`o`: its position after the bounds step and the collision loop. -/
noncomputable def releasePoint (s : Designer ℝ) (sel : Nat) (o : Object3D ℝ) : Vector3 ℝ :=
  (dragNeighbours s sel o).foldl fixCollision (fixBounds (s.currentRadius * 0.8) o.position)

/-- The released object: visible, moved to `p`, snapped to the grid when `snap` is set, put on
the top of `floor` and flagged stable. -/
noncomputable def releaseAt (snap : Bool) (floor : Floor ℝ) (p : Vector3 ℝ) (c : Object3D ℝ) :
    Object3D ℝ :=
  let moved : Object3D ℝ := setPosition p (setVisible c)
  stabilized floor (if snap then snapToGrid moved else moved)

section Examples

variable {α : Type} [LinearOrderedField α]

/-- The state built by the constructors, with the given radius and floor slabs. -/
def freshDesigner (radius : α) (floors : List (Floor α)) : Designer α :=
  { currentRadius := radius
    floors := floors
    children := []
    detached := []
    snapEnabled := true
    isDragging := false
    selectedObject := none
    dragStartPosition := { x := 0, y := 0, z := 0 }
    dragStartMousePosition := none
    pointer := (0, 0)
    activeDrops := []
    furnitureKeyCounter := 0
    layoutLocked := false
    lastPlacementTime := 0
    lastDragTime := 0
    placementObjectType := "bed"
    stableTimers := []
    nextId := 0 }

/-- A settled piece of furniture with reference and key counter `n`, locked to floor `f`,
standing at `(x, y, z)`. -/
def furnitureAt (n : Nat) (f : Int) (x y z : α) : Object3D α :=
  { id := n
    position := { x := x, y := y, z := z }
    rotationY := 0
    height := 1
    visible := true
    userData :=
      { floorIndex := some f
        lockedFloor := some f
        furnitureKey := some { counter := n, floor := f }
        furnitureType := some "bed"
        isStable := false
        lastStablePosition := none
        lastStableFloorY := none } }

/-- Radius 10, one floor slab at height 0, one object at the center of floor 0. -/
def oneObjectDesigner : Designer α :=
  { freshDesigner (10 : α) [{ positionY := 0 }] with
    children := [furnitureAt 0 0 0 (0.65 : α) 0]
    furnitureKeyCounter := 1
    nextId := 1 }

/-- Radius 100, one floor slab at height 0 that holds 50 objects, one unit apart on a line. -/
def fullFloorDesigner : Designer α :=
  { freshDesigner (100 : α) [{ positionY := 0 }] with
    children := (List.range 50).map (fun i => furnitureAt i 0 ((i : α) - 25) 0.65 0)
    furnitureKeyCounter := 50
    nextId := 50 }

/-- The object of `oneObjectDesigner` is being dragged: the drag started with the object at the
center and the pointer at `(0, 0)`, and the pointer is now at `(1, -1)`. -/
def draggingDesigner : Designer α :=
  { (oneObjectDesigner : Designer α) with
    isDragging := true
    selectedObject := some 0
    dragStartPosition := { x := 0, y := 0.65, z := 0 }
    dragStartMousePosition := some (0, 0)
    pointer := (1, -1) }

/-- The object of `oneObjectDesigner` is falling with velocity -1 and is 0.01 above its target
height 0.65. -/
def almostSettledDesigner : Designer α :=
  { (oneObjectDesigner : Designer α) with
    children := [furnitureAt 0 0 0 (0.66 : α) 0]
    activeDrops := [{ obj := 0, vy := -1 }] }

/-- Radius 10, one floor slab at height 0, no furniture; `type` is the object type selected
for placement (`placementObjectType`). -/
def emptyDesigner (type : String) : Designer α :=
  { freshDesigner (10 : α) [{ positionY := 0 }] with placementObjectType := type }

/-- A cylinder has just been placed at the center of floor 0 (slab at height 0).  Its bounding
box is 2.25 high before and after the attachment points are added, so it is spawned at height
0.15 + 1.125 + 2 = 3.275, two units above its target height 0.15 + 1.125 = 1.275, with
velocity 0. -/
def placedDesigner : Designer α :=
  (placeObjectAt (emptyDesigner "cylinder" : Designer α) 1000 cylinderBox
    { x := 0, y := 0, z := 0 } 0).1

/-- A bed (the default type) has just been placed at the center of floor 0.  Measured before
its attachment points exist it is 1 high, so it is spawned at height 0.15 + 0.5 + 2 = 2.65;
with the attachment points its bounding box is 2.2 high, so its target height is
0.15 + 1.1 = 1.25, which is 1.4 below the spawn height.  Its velocity is 0. -/
def placedBedDesigner : Designer α :=
  (placeObjectAt (emptyDesigner "bed" : Designer α) 1000 bedBox { x := 0, y := 0, z := 0 } 0).1

/-- Radius 10, one floor slab; the only object is being dragged and is released at
`(x, z)`, with snapping `snap`. -/
def releasingDesigner (snap : Bool) (x z : α) : Designer α :=
  { (freshDesigner (10 : α) [{ positionY := 0 }]) with
    children := [furnitureAt 0 0 x 0.65 z]
    snapEnabled := snap
    isDragging := true
    selectedObject := some 0
    furnitureKeyCounter := 1
    nextId := 1 }

/-- Radius 10, one floor slab with the settled objects `others`; a further object (reference
and key counter 9) is being dragged and is released at `(x, z)`, with snapping `snap`. -/
def crowdedReleasingDesigner (snap : Bool) (others : List (Object3D α)) (x z : α) :
    Designer α :=
  { (freshDesigner (10 : α) [{ positionY := 0 }]) with
    children := others ++ [furnitureAt 9 0 x 0.65 z]
    snapEnabled := snap
    isDragging := true
    selectedObject := some 9
    furnitureKeyCounter := 10
    nextId := 10 }

end Examples

/-! ## Vocabulary of the sweep, the re-stick loop and the registry -/

section
variable {α : Type}

/-- The key `k` occurs on an object of `l`. -/
def keyOccursIn (k : FurnitureKey) (l : List (Object3D α)) : Bool :=
  l.any (fun o => decide (o.userData.furnitureKey = some k))

/-- The sweep as the specification words it: the object at index `i` is removed exactly when
it has a key and that key occurs on an earlier object of the list; the others stay, in
order. -/
def keepFirstOccurrences (l : List (Object3D α)) : List (Object3D α) :=
  (List.range l.length).filterMap (fun i =>
    match l[i]? with
    | none => none
    | some o =>
      match o.userData.furnitureKey with
      | none => some o
      | some k => if keyOccursIn k (l.take i) then none else some o)

/-- The objects kept of `l` when the objects of `pre` precede it. -/
def keepFirstFrom (pre : List (Object3D α)) : List (Object3D α) → List (Object3D α)
  | [] => []
  | o :: rest =>
    (match o.userData.furnitureKey with
      | none => [o]
      | some k => if keyOccursIn k pre then [] else [o]) ++ keepFirstFrom (pre ++ [o]) rest

/-- The furniture keys carried by the objects of `l`, in order. -/
def keysOf (l : List (Object3D α)) : List FurnitureKey :=
  l.filterMap (fun o => o.userData.furnitureKey)

/-- No two children of `floorObjectsGroup` carry the same furniture key. -/
def KeysUnique (s : Designer α) : Prop := (keysOf s.children).Nodup

end

section
variable {α : Type} [LinearOrderedField α]

/-- The object of `almostSettledDesigner` is still falling while a drag is in progress. -/
def dragWhileFallingDesigner : Designer α :=
  { (almostSettledDesigner : Designer α) with isDragging := true, selectedObject := some 0 }

end

section
variable {α : Type} [LinearOrderedField α]

/-- The height that the re-stick loop gives to an object at height `y` whose target height is
`target`. -/
def nudgeY (target y : α) : α :=
  let dy := target - y
  if 0.001 < |dy| then
    let y1 := y + mathSign dy * min |dy| 0.05
    if |target - y1| ≤ 0.002 then target else y1
  else y

/-- Object `i` is a child that is anchored (no falling entry) and not stable: it is `h` high,
at height `y`, and the floor it is stuck to is the slab `floor`; no drag is in progress and
the children carry distinct keys. -/
def AnchoredAt (s : Designer α) (i : Nat) (floor : Floor α) (h y : α) : Prop :=
  KeysUnique s ∧ s.isDragging = false ∧ dropsOf s i = [] ∧
    ∃ o, s.children.find? (fun c => decide (c.id = i)) = some o ∧
      floorAt s.floors (lockedFloorOr o 0) = some floor ∧ o.position.y = y ∧ o.height = h ∧
      o.userData.isStable = false

end

section
variable {α : Type} [LinearOrderedField α]

/-- Radius 10, one floor slab at height 0; the only object (height 1, target height 0.65) is
anchored at height `y` and not stable. -/
def anchoredDesigner (y : α) : Designer α :=
  { (oneObjectDesigner : Designer α) with children := [furnitureAt 0 0 0 y 0] }

/-- The furniture of `oneObjectDesigner`, flagged stable at height 0.65 when its floor was at
elevation 0. -/
def stableFurniture : Object3D α :=
  { (furnitureAt 0 0 0 (0.65 : α) 0) with
    userData :=
      { (furnitureAt 0 0 0 (0.65 : α) 0).userData with
        isStable := true
        lastStablePosition := some { x := 0, y := 0.65, z := 0 }
        lastStableFloorY := some 0 } }

/-- Radius 10, one floor slab that now stands at elevation `floorY`; the only object was
flagged stable when the slab stood at elevation 0. -/
def stableDesigner (floorY : α) : Designer α :=
  { (oneObjectDesigner : Designer α) with
    floors := [{ positionY := floorY }]
    children := [stableFurniture] }

end

section
variable {α : Type} [LinearOrderedField α]

/-- Radius 10; the only object (height 1) rests anchored and not stable at height 0.65, the
target height over a slab at elevation 0, and the slab has since been raised to elevation
`raise`. -/
def raisedFloorDesigner (raise : α) : Designer α :=
  { (anchoredDesigner (0.65 : α)) with floors := [{ positionY := raise }] }

end

section
variable {α : Type} [LinearOrderedField α]

/-- A workspace of radius 10 with the given habitat height and floor count, before any floor
is built; nothing is stored from the questionnaire. -/
def habitatWorkspace (height : α) (numFloors : Int) : Workspace α :=
  { designer := freshDesigner 10 []
    currentHeight := height
    numFloors := numFloors
    partitions := []
    selectedFloorIndex := none
    purpose := []
    crewSize := 0 }

end

/-! ## Vocabulary of the registry and the floor rebuilds -/

/-- A request that changes the registry of furniture: a placement (`placeObjectAt`), a
duplication (`duplicateObject`) or a deletion (`deleteObject`). -/
inductive RegistryOp (α : Type) where
  | place (now : Int) (box : PrefabBox α) (worldPoint : Vector3 α) (floorIdx : Int)
  | duplicate (id : Nat)
  | delete (id : Nat)

section
variable {α : Type}

/-- Every child carries a key with a counter below `furnitureKeyCounter`, and no two children
carry the same key. -/
def KeysBelowCounter (s : Designer α) : Prop :=
  (∀ o ∈ s.children, ∃ k, o.userData.furnitureKey = some k ∧
    k.counter < s.furnitureKeyCounter) ∧
  s.children.Pairwise (fun a b => a.userData.furnitureKey ≠ b.userData.furnitureKey)

end

section
variable {α : Type} [LinearOrderedField α]

/-- The state after one registry request. -/
def applyOp (s : Designer α) : RegistryOp α → Designer α
  | .place now box worldPoint floorIdx => (placeObjectAt s now box worldPoint floorIdx).1
  | .duplicate id => duplicateObject s id
  | .delete id => deleteObject s id

/-- The keys issued by a request: the keys of the objects that it appends to
`floorObjectsGroup`. -/
def issuedKeys (s : Designer α) (op : RegistryOp α) : List FurnitureKey :=
  keysOf ((applyOp s op).children.drop s.children.length)

/-- A session: the state after the requests `ops`, and all keys issued on the way, in
order. -/
def session : Designer α → List (RegistryOp α) → Designer α × List FurnitureKey
  | s, [] => (s, [])
  | s, op :: rest =>
    let r := session (applyOp s op) rest
    (r.1, issuedKeys s op ++ r.2)

end

/-- A user action on the workspace, or a frame of the render loop. -/
inductive WorkspaceOp where
  | place (now : Int) (box : PrefabBox ℝ) (worldPoint : Vector3 ℝ) (floorIdx : Int)
  | duplicate (id : Nat)
  | delete (id : Nat)
  | startDrag (now : Int) (id : Nat)
  | drag (pointer : ℝ × ℝ)
  | release
  | tick (delta : ℝ)
  | selectFloor (index : Int)
  | resetFocus
  | rebuild (floors : Int)

/-- The workspace after one action: `placeObjectAt`, `duplicateObject`, `deleteObject`,
`startDrag`, a pointer move followed by `updateDrag`, `endDrag`, `updateGravity`,
`setSelectedFloor`, `resetFloorFocus`, or the questionnaire's floor rebuild. -/
noncomputable def stepWorkspace (w : Workspace ℝ) : WorkspaceOp → Workspace ℝ
  | .place now box worldPoint floorIdx =>
    { w with designer := (placeObjectAt w.designer now box worldPoint floorIdx).1 }
  | .duplicate id => { w with designer := duplicateObject w.designer id }
  | .delete id => { w with designer := deleteObject w.designer id }
  | .startDrag now id => { w with designer := startDrag w.designer now id }
  | .drag pointer => { w with designer := updateDrag { w.designer with pointer := pointer } }
  | .release => { w with designer := endDrag w.designer }
  | .tick delta => { w with designer := updateGravity w.designer delta }
  | .selectFloor index => setSelectedFloor w index
  | .resetFocus => resetFloorFocus w
  | .rebuild floors => applyFloors w floors

/-- The workspace after the actions `ops`, in order. -/
noncomputable def runWorkspace (w : Workspace ℝ) (ops : List WorkspaceOp) : Workspace ℝ :=
  ops.foldl stepWorkspace w

/-- The action removes no floor slab: every action but a rebuild, and a rebuild whose floor
count is at least the number of slabs that exist. -/
def KeepsFloors (w : Workspace ℝ) : WorkspaceOp → Prop
  | .rebuild floors => (w.designer.floors.length : Int) ≤ floors
  | _ => True

/-- The workspaces reached from a workspace without furniture by actions that remove no floor
slab. -/
inductive Reachable : Workspace ℝ → Prop where
  | init (w : Workspace ℝ) :
    w.designer.children = [] → w.designer.detached = [] → Reachable w
  | step (w : Workspace ℝ) (op : WorkspaceOp) :
    Reachable w → KeepsFloors w op → Reachable (stepWorkspace w op)

section
variable {α : Type}

/-- The `lockedFloor` of `o` is the index of one of `n` floor slabs. -/
def LockOk (n : Nat) (o : Object3D α) : Prop :=
  ∃ k : Int, o.userData.lockedFloor = some k ∧ 0 ≤ k ∧ k.toNat < n

/-- Every furniture object, in `floorObjectsGroup` or detached, is locked to an existing floor
slab. -/
def LocksValid (s : Designer α) : Prop :=
  ∀ o ∈ s.children ++ s.detached, LockOk s.floors.length o

end

/-- Three floors are built and an object is placed at the center of floor 2. -/
noncomputable def growSession : List WorkspaceOp :=
  [.rebuild 3, .place 1000 bedBox { x := 0, y := 0, z := 0 } 2]

/-- Three floors are built, an object is placed at the center of floor 2, and the floors are
rebuilt with a floor count of 1. -/
noncomputable def shrinkSession : List WorkspaceOp :=
  [.rebuild 3, .place 1000 bedBox { x := 0, y := 0, z := 0 } 2, .rebuild 1]

/-! ## Vocabulary of the partition walls -/

/-- The walls of the first inner loop of `buildFloorPartitions` for floor `i` at elevation
`y`: the walls along `z` on the interior grid lines `x = minX + gx * cellW`. -/
noncomputable def verticalWalls (radius gap : ℝ) (purpose : List String) (crewSize : Int)
    (i : Nat) (y : ℝ) : List (Wall ℝ) :=
  let width := radius * 2.2
  let depth := radius * 2.2
  let wallHeight := max 2 (min 3.2 (gap * 0.85))
  let wallThickness := max 0.06 (min 0.12 (min width depth * 0.01))
  let gridX := gridCount (roomCount width purpose) crewSize
  let minX := -width / 2
  let minZ := -depth / 2
  let cellW := width / (gridX : ℝ)
  let halfCX := corridorWidth purpose / 2
  (List.range' 1 (gridX.toNat - 1)).flatMap (fun (gx : Nat) =>
    let x := minX + (gx : ℝ) * cellW
    if x > 0 - halfCX ∧ x < 0 + halfCX then []
    else addWall wallHeight wallThickness x minZ x (-minZ) y i)

/-- The walls of the second inner loop of `buildFloorPartitions` for floor `i` at elevation
`y`: the walls along `x` on the interior grid lines `z = minZ + gz * cellD`. -/
noncomputable def horizontalWalls (radius gap : ℝ) (purpose : List String) (crewSize : Int)
    (i : Nat) (y : ℝ) : List (Wall ℝ) :=
  let width := radius * 2.2
  let depth := radius * 2.2
  let wallHeight := max 2 (min 3.2 (gap * 0.85))
  let wallThickness := max 0.06 (min 0.12 (min width depth * 0.01))
  let gridZ := gridCount (roomCount depth purpose) crewSize
  let minX := -width / 2
  let minZ := -depth / 2
  let cellD := depth / (gridZ : ℝ)
  let halfCZ := corridorWidth purpose / 2
  (List.range' 1 (gridZ.toNat - 1)).flatMap (fun (gz : Nat) =>
    let z := minZ + (gz : ℝ) * cellD
    if z > 0 - halfCZ ∧ z < 0 + halfCZ then []
    else addWall wallHeight wallThickness minX z (-minX) z y i)

/-- The four `addWall` calls that close the floor loop of `buildFloorPartitions`: the outer
boundary of the footprint of floor `i` at elevation `y`. -/
noncomputable def boundaryWalls (radius gap : ℝ) (i : Nat) (y : ℝ) : List (Wall ℝ) :=
  let width := radius * 2.2
  let depth := radius * 2.2
  let wallHeight := max 2 (min 3.2 (gap * 0.85))
  let wallThickness := max 0.06 (min 0.12 (min width depth * 0.01))
  let minX := -width / 2
  let minZ := -depth / 2
  addWall wallHeight wallThickness minX minZ (-minX) minZ y i ++
    addWall wallHeight wallThickness minX (-minZ) (-minX) (-minZ) y i ++
    addWall wallHeight wallThickness minX minZ minX (-minZ) y i ++
    addWall wallHeight wallThickness (-minX) minZ (-minX) (-minZ) y i

/-- The wall mesh of floor `i` at elevation `y` on the segment from `(x1, z1)` to
`(x2, z2)`, with the wall height and thickness that `buildFloorPartitions` computes. -/
noncomputable def wallOn (radius gap : ℝ) (i : Nat) (y x1 z1 x2 z2 : ℝ) : Wall ℝ :=
  { floorIndex := i
    x1 := x1
    z1 := z1
    x2 := x2
    z2 := z2
    floorY := y
    height := max 2 (min 3.2 (gap * 0.85))
    thickness := max 0.06 (min 0.12 (min (radius * 2.2) (radius * 2.2) * 0.01))
    visible := true }

/-- The coordinate of interior grid line `g` of `n` lines across an extent `extent` centred
at 0: `-extent / 2 + g * extent / n`. -/
noncomputable def gridLine (extent : ℝ) (n : Int) (g : Nat) : ℝ :=
  -extent / 2 + (g : ℝ) * extent / (n : ℝ)

/-- The coordinate `v` lies strictly inside the corridor band `(-c / 2, c / 2)`. -/
def InCorridor (purpose : List String) (v : ℝ) : Prop :=
  -(corridorWidth purpose / 2) < v ∧ v < corridorWidth purpose / 2

noncomputable instance InCorridor.instDecidable (purpose : List String) (v : ℝ) :
    Decidable (InCorridor purpose v) := by
  unfold InCorridor; infer_instance

/-- The wall set of floor `i` at elevation `y` as the specification words it: one full-depth
wall on each interior grid line in `x` that is not strictly inside the corridor band, one
full-width wall on each such grid line in `z`, and the four boundary walls. -/
noncomputable def specFloorWalls (radius gap : ℝ) (purpose : List String) (crewSize : Int)
    (i : Nat) (y : ℝ) : List (Wall ℝ) :=
  let width := radius * 2.2
  let depth := radius * 2.2
  let gridX := gridCount (roomCount width purpose) crewSize
  let gridZ := gridCount (roomCount depth purpose) crewSize
  (((List.range' 1 (gridX.toNat - 1)).filter
      (fun g => decide (¬ InCorridor purpose (gridLine width gridX g)))).map
    (fun g => wallOn radius gap i y (gridLine width gridX g) (-depth / 2)
      (gridLine width gridX g) (depth / 2))) ++
  (((List.range' 1 (gridZ.toNat - 1)).filter
      (fun g => decide (¬ InCorridor purpose (gridLine depth gridZ g)))).map
    (fun g => wallOn radius gap i y (-width / 2) (gridLine depth gridZ g) (width / 2)
      (gridLine depth gridZ g))) ++
  [wallOn radius gap i y (-width / 2) (-depth / 2) (width / 2) (-depth / 2),
   wallOn radius gap i y (-width / 2) (depth / 2) (width / 2) (depth / 2),
   wallOn radius gap i y (-width / 2) (-depth / 2) (-width / 2) (depth / 2),
   wallOn radius gap i y (width / 2) (-depth / 2) (width / 2) (depth / 2)]

/-- The point `(x, z)` of the floor plane lies on the segment of the wall. -/
def OnWall (wall : Wall ℝ) (x z : ℝ) : Prop :=
  ∃ t : ℝ, 0 ≤ t ∧ t ≤ 1 ∧ x = wall.x1 + t * (wall.x2 - wall.x1) ∧
    z = wall.z1 + t * (wall.z2 - wall.z1)

/-- A workspace of the given radius, habitat height and floor count before any floor is
built; nothing is stored from the questionnaire. -/
def footprintWorkspace {α : Type} [LinearOrderedField α] (radius height : α)
    (numFloors : Int) : Workspace α :=
  { (habitatWorkspace height numFloors) with designer := freshDesigner radius [] }

section
variable {α : Type} [LinearOrderedField α]

/-- Radius 10 and one floor slab at elevation 0; the only object stands at the center, is
locked to floor 2, which does not exist, and is being dragged. -/
def strandedDesigner : Designer α :=
  { (oneObjectDesigner : Designer α) with
    children := [furnitureAt 0 2 0 (0.65 : α) 0]
    isDragging := true
    selectedObject := some 0 }

end

section
variable {α : Type} [LinearOrderedField α]

/-- Radius 10 (allowed disc of radius 8) and one floor slab at elevation 0; the only object
stands at `(6, 0.65, 8)`, at distance 10 from the center. -/
def outsideDiscDesigner : Designer α :=
  { (oneObjectDesigner : Designer α) with children := [furnitureAt 0 0 6 (0.65 : α) 8] }

end

section
variable {α : Type} [LinearOrderedField α]

/-- The furniture step of `animate()` for a frame whose `clock.getDelta()` is `delta`:
`updateGravity()` is called unless the layout is locked. -/
def animate (s : Designer α) (delta : α) : Designer α :=
  if s.layoutLocked then s else updateGravity s delta

/-- Radius 10 and one floor slab at elevation 0; two settled objects, one unit apart on
floor 0, carry the same furniture key; `locked` is the `layoutLocked` flag. -/
def duplicateKeyDesigner (locked : Bool) : Designer α :=
  { (oneObjectDesigner : Designer α) with
    children := [furnitureAt 0 0 0 (0.65 : α) 0, { furnitureAt 0 0 1 (0.65 : α) 0 with id := 1 }]
    layoutLocked := locked
    nextId := 2 }

end

section
variable {α : Type}

/-- The object references are in order: no two live objects share a reference, no two falling
entries are for the same object, and every reference in use is below `nextId`. -/
def RefsInOrder (s : Designer α) : Prop :=
  UniqueIds s ∧ (∀ o ∈ s.children ++ s.detached, o.id < s.nextId) ∧
    (s.activeDrops.map (fun d => d.obj)).Nodup ∧ ∀ d ∈ s.activeDrops, d.obj < s.nextId

end

/-! ## Attachment graph and workspace clear -/

/-- An attachment point mesh, identified by the object that owns it and its name (`right`,
`left`, `front`, `back`, `top`, `bottom`). -/
structure AttachmentPoint where
  owner : Nat
  name : String
deriving DecidableEq

/-- A connector line of `attachmentConnections`: its two end points and the
`userData.connectedObject` that `removeAttachmentConnections` tests. -/
structure Connection (α : Type) where
  start : Vector3 α
  finish : Vector3 α
  connectedObject : Option Nat
deriving DecidableEq

/-- The workspace together with the attachment state of the furniture manager:
`userData.attachedTo` of each object, `userData.attachedObject` of each attachment point, and
the list `attachmentConnections`. -/
structure Studio (α : Type) where
  workspace : Workspace α
  attachedTo : Nat → Option AttachmentPoint
  attachedObject : AttachmentPoint → Option Nat
  attachmentConnections : List (Connection α)

section
variable {α : Type} [LinearOrderedField α]

/-- `a.sub(b)` of THREE.Vector3. -/
def Vector3.sub (a b : Vector3 α) : Vector3 α :=
  { x := a.x - b.x, y := a.y - b.y, z := a.z - b.z }

/-- `a.add(b)` of THREE.Vector3. -/
def Vector3.add (a b : Vector3 α) : Vector3 α :=
  { x := a.x + b.x, y := a.y + b.y, z := a.z + b.z }

/-- `createAttachmentConnection(object, attachmentPoint)`; `worldPosition` is the value of
`attachmentPoint.getWorldPosition(...)`.  The new line gets no `userData.connectedObject`. -/
def createAttachmentConnection (st : Studio α) (object : Object3D α)
    (attachmentPoint : AttachmentPoint) (worldPosition : Vector3 α) : Studio α :=
  { st with
    attachmentConnections := st.attachmentConnections ++
      [{ start := object.position, finish := worldPosition, connectedObject := none }]
    attachedTo := Function.update st.attachedTo object.id (some attachmentPoint)
    attachedObject := Function.update st.attachedObject attachmentPoint (some object.id) }

/-- `snapToAttachmentPoint(object, attachmentPoint)` for the object with reference `object`;
`worldPosition` is the value of `attachmentPoint.getWorldPosition(...)`. -/
def snapToAttachmentPoint (st : Studio α) (object : Nat) (attachmentPoint : AttachmentPoint)
    (worldPosition : Vector3 α) : Studio α :=
  match findObject st.workspace.designer object with
  | none => st
  | some o =>
    let offset := Vector3.sub o.position worldPosition
    let position := Vector3.add worldPosition offset
    let st1 : Studio α :=
      { st with
        workspace :=
          { st.workspace with
            designer := updateObject st.workspace.designer object (setPosition position) } }
    createAttachmentConnection st1 (setPosition position o) attachmentPoint worldPosition

/-- `removeAttachmentConnections(object)` for the object with reference `object`. -/
def removeAttachmentConnections (st : Studio α) (object : Nat) : Studio α :=
  let st1 : Studio α :=
    match st.attachedTo object with
    | some point =>
      { st with
        attachedObject := Function.update st.attachedObject point none
        attachedTo := Function.update st.attachedTo object none }
    | none => st
  { st1 with
    attachmentConnections := st1.attachmentConnections.filter
      (fun connection => !decide (connection.connectedObject = some object)) }

/-- `deleteObject(object)` with its attachment bookkeeping: `removeAttachmentConnections`,
then the removal from `floorObjectsGroup` and the cleared selection (the attachment point
meshes are children of the removed object). -/
def Studio.deleteObject (st : Studio α) (object : Nat) : Studio α :=
  let st1 := removeAttachmentConnections st object
  { st1 with
    workspace :=
      { st1.workspace with designer := Space.deleteObject st1.workspace.designer object } }

/-- `clearWorkspace()` of the UI manager: the groups of furniture, partitions and floor slabs
are emptied and the floor selection is reset. -/
def clearWorkspace (st : Studio α) : Studio α :=
  { st with
    workspace :=
      { st.workspace with
        designer :=
          { st.workspace.designer with
            children := []
            detached := st.workspace.designer.detached ++ st.workspace.designer.children
            floors := [] }
        partitions := []
        selectedFloorIndex := none } }

/-- Radius 10, habitat height 8, one floor slab at elevation 0 with two settled objects, 0 at
the center and 1 at `(3, 0.65, 0)`; no attachment link and no connector. -/
def twoObjectStudio : Studio α :=
  { workspace :=
      { (habitatWorkspace (8 : α) 1) with
        designer :=
          { (oneObjectDesigner : Designer α) with
            children := [furnitureAt 0 0 0 (0.65 : α) 0, furnitureAt 1 0 3 (0.65 : α) 0]
            furnitureKeyCounter := 2
            nextId := 2 } }
    attachedTo := fun _ => none
    attachedObject := fun _ => none
    attachmentConnections := [] }

/-- The state `twoObjectStudio` after object 1 was snapped to the attachment point `right` of
object 0, whose world position is `(1, 0.65, 0)`. -/
def attachedStudio : Studio α :=
  snapToAttachmentPoint twoObjectStudio 1 { owner := 0, name := "right" }
    { x := 1, y := 0.65, z := 0 }

/-- The state `attachedStudio` while object 1 is falling with velocity -1 and object 0 is being
dragged. -/
def busyStudio : Studio α :=
  { (attachedStudio : Studio α) with
    workspace :=
      { (attachedStudio : Studio α).workspace with
        designer :=
          { (attachedStudio : Studio α).workspace.designer with
            activeDrops := [{ obj := 1, vy := -1 }]
            isDragging := true
            selectedObject := some 0 } } }

end

end Space

/-! # Theorems -/

namespace Space

/-! ## Square roots -/

theorem sqrtLt_iff_real (a d : ℝ) : sqrtLt a d ↔ Real.sqrt a < d := by
  unfold sqrtLt
  constructor
  · rintro ⟨hd, h⟩
    rw [Real.sqrt_lt' hd, sq]; exact h
  · intro h
    have hd : 0 < d := lt_of_le_of_lt (Real.sqrt_nonneg a) h
    refine ⟨hd, ?_⟩
    have := (Real.sqrt_lt' hd).1 h
    rwa [sq] at this

theorem sqrtGt_iff_real (a r : ℝ) : sqrtGt a r ↔ Real.sqrt a > r := by
  unfold sqrtGt
  rcases lt_or_le r 0 with hr | hr
  · simp only [hr, true_or, true_iff]
    exact lt_of_lt_of_le hr (Real.sqrt_nonneg a)
  · rw [gt_iff_lt, Real.lt_sqrt hr, sq]
    simp [not_lt.2 hr]

/-! ## Placement validation -/

theorem checkMinimumDistance_iff_real (s : Designer ℝ) (position : Vector3 ℝ) (floorIndex : Int) :
    checkMinimumDistance s position floorIndex = true ↔
      ∀ obj ∈ getObjectsOnFloor s floorIndex,
        minObjectDistance ≤ horizontalDistance position obj.position := by
  unfold checkMinimumDistance
  rw [List.all_eq_true]
  refine forall₂_congr (fun obj _ => ?_)
  simp only [Bool.not_eq_true', decide_eq_false_iff_not, sqrtLt_iff_real, not_lt,
    horizontalDistance, pow2, sq]

/-- C1: `validatePlacementPosition` accepts exactly when the layout is not locked, the
cooldown of 500 ms has elapsed, the floor exists, the candidate is within `0.8 * radius` of
the center, fewer than 50 objects are locked to the floor and every object locked to the floor
is at horizontal distance at least 0.5 from the candidate. -/
theorem validatePlacementPosition_iff (s : Designer ℝ) (now : Int) (position : Vector3 ℝ)
    (floorIndex : Int) :
    validatePlacementPosition s now position floorIndex = true ↔
      (s.layoutLocked = false ∧
        500 ≤ now - s.lastPlacementTime ∧
        (floorAt s.floors floorIndex).isSome = true ∧
        Real.sqrt (position.x * position.x + position.z * position.z) ≤ 0.8 * s.currentRadius ∧
        (getObjectsOnFloor s floorIndex).length < 50 ∧
        ∀ obj ∈ getObjectsOnFloor s floorIndex,
          (0.5 : ℝ) ≤ Real.sqrt ((position.x - obj.position.x) ^ 2 +
            (position.z - obj.position.z) ^ 2)) := by
  have hmin := checkMinimumDistance_iff_real s position floorIndex
  simp only [horizontalDistance, minObjectDistance] at hmin
  unfold validatePlacementPosition validatePlacementLog
  cases hl : s.layoutLocked
  · by_cases hc : now - s.lastPlacementTime < placementCooldown
    · have : ¬ (500 ≤ now - s.lastPlacementTime) := by
        simpa [placementCooldown] using hc
      simp [hc, this]
    · have hc' : 500 ≤ now - s.lastPlacementTime := by
        simpa [placementCooldown] using hc
      cases hf : floorAt s.floors floorIndex with
      | none => simp [hc]
      | some fl =>
        simp only [Bool.false_eq_true, if_false, hc, hc', true_and, Option.isSome_some,
          sqrtGt_iff_real, gt_iff_lt, maxObjectsPerFloor]
        rw [mul_comm s.currentRadius 0.8]
        by_cases hb : 0.8 * s.currentRadius <
            Real.sqrt (position.x * position.x + position.z * position.z)
        · simp [hb, not_le.2 hb]
        · by_cases hn : 50 ≤ (getObjectsOnFloor s floorIndex).length
          · simp [hb, not_lt.1 hb, hn, not_lt.2 hn]
          · cases hm : checkMinimumDistance s position floorIndex
            · have : ¬ (∀ obj ∈ getObjectsOnFloor s floorIndex,
                  (0.5 : ℝ) ≤ Real.sqrt ((position.x - obj.position.x) ^ 2 +
                    (position.z - obj.position.z) ^ 2)) := by
                rw [← hmin, hm]; simp
              simp [hb, not_lt.1 hb, hn, not_le.1 hn, this]
            · have : (∀ obj ∈ getObjectsOnFloor s floorIndex,
                  (0.5 : ℝ) ≤ Real.sqrt ((position.x - obj.position.x) ^ 2 +
                    (position.z - obj.position.z) ^ 2)) := by
                rw [← hmin, hm]
              simp [hb, not_lt.1 hb, hn, not_le.1 hn]
              exact this
  · simp


theorem validatePlacementPosition_witness :
    validatePlacementPosition (oneObjectDesigner : Designer ℝ) 1000
      { x := 0.3, y := 5, z := 0 } 0 = false := by
  have h := (validatePlacementPosition_iff (oneObjectDesigner : Designer ℝ) 1000
    { x := 0.3, y := 5, z := 0 } 0).not
  rw [Bool.not_eq_true] at h
  rw [h]
  rintro ⟨-, -, -, -, -, hfar⟩
  have hmem : furnitureAt 0 0 (0 : ℝ) 0.65 0 ∈ getObjectsOnFloor (oneObjectDesigner : Designer ℝ) 0 := by
    simp [getObjectsOnFloor, oneObjectDesigner, lockedFloorOr, furnitureAt]
  have h1 := hfar _ hmem
  rw [Real.le_sqrt' (by norm_num)] at h1
  norm_num [furnitureAt] at h1

section
variable {α : Type} [LinearOrderedField α]

theorem placeObjectAt_of_rejected (s : Designer α) (now : Int) (box : PrefabBox α)
    (worldPoint : Vector3 α) (floorIdx : Int) (hdrag : s.isDragging = false)
    (hrej : validatePlacementPosition s now worldPoint floorIdx = false) :
    placeObjectAt s now box worldPoint floorIdx =
      (s, Feedback.placementError "Cannot place object at this location") := by
  unfold placeObjectAt
  simp [hdrag, hrej]

/-- C2 (as amended): a failing `validatePlacementPosition` logs the message of the first
violated check, in the order lock, cooldown, floor existence, bounds, capacity, minimum
separation, and logs nothing when no check is violated; what it returns is only the boolean
"no check is violated", and for every rejected request outside a drag `placeObjectAt` shows
the same message "Cannot place object at this location", whatever the reason. -/
theorem validatePlacementLog_first_violation (s : Designer α) (now : Int)
    (position : Vector3 α) (floorIndex : Int) :
    (validatePlacementLog s now position floorIndex = some Reason.layoutLocked ↔
        s.layoutLocked = true) ∧
      (validatePlacementLog s now position floorIndex = some Reason.cooldown ↔
        s.layoutLocked = false ∧ now - s.lastPlacementTime < 500) ∧
      (validatePlacementLog s now position floorIndex = some Reason.invalidFloor ↔
        s.layoutLocked = false ∧ 500 ≤ now - s.lastPlacementTime ∧
          floorAt s.floors floorIndex = none) ∧
      (validatePlacementLog s now position floorIndex = some Reason.outOfBounds ↔
        s.layoutLocked = false ∧ 500 ≤ now - s.lastPlacementTime ∧
          (floorAt s.floors floorIndex).isSome = true ∧
          sqrtGt (position.x * position.x + position.z * position.z)
            (s.currentRadius * 0.8)) ∧
      (validatePlacementLog s now position floorIndex = some Reason.floorFull ↔
        s.layoutLocked = false ∧ 500 ≤ now - s.lastPlacementTime ∧
          (floorAt s.floors floorIndex).isSome = true ∧
          ¬ sqrtGt (position.x * position.x + position.z * position.z)
            (s.currentRadius * 0.8) ∧
          50 ≤ (getObjectsOnFloor s floorIndex).length) ∧
      (validatePlacementLog s now position floorIndex = some Reason.tooClose ↔
        s.layoutLocked = false ∧ 500 ≤ now - s.lastPlacementTime ∧
          (floorAt s.floors floorIndex).isSome = true ∧
          ¬ sqrtGt (position.x * position.x + position.z * position.z)
            (s.currentRadius * 0.8) ∧
          (getObjectsOnFloor s floorIndex).length < 50 ∧
          checkMinimumDistance s position floorIndex = false) ∧
      (validatePlacementPosition s now position floorIndex =
        (validatePlacementLog s now position floorIndex).isNone) ∧
      (∀ box : PrefabBox α, s.isDragging = false →
        validatePlacementLog s now position floorIndex ≠ none →
        placeObjectAt s now box position floorIndex =
          (s, Feedback.placementError "Cannot place object at this location")) := by
  have key : ∀ box : PrefabBox α, s.isDragging = false →
      validatePlacementLog s now position floorIndex ≠ none →
      placeObjectAt s now box position floorIndex =
        (s, Feedback.placementError "Cannot place object at this location") := by
    intro height hd hne
    apply placeObjectAt_of_rejected _ _ _ _ _ hd
    unfold validatePlacementPosition
    cases h : validatePlacementLog s now position floorIndex with
    | none => exact absurd h hne
    | some r => rfl
  refine ⟨?_, ?_, ?_, ?_, ?_, ?_, rfl, key⟩ <;>
  · unfold validatePlacementLog
    cases hl : s.layoutLocked <;> simp only [placementCooldown, maxObjectsPerFloor] <;>
    by_cases hc : now - s.lastPlacementTime < 500 <;>
    cases hf : floorAt s.floors floorIndex <;>
    by_cases hb : sqrtGt (position.x * position.x + position.z * position.z)
      (s.currentRadius * 0.8) <;>
    by_cases hn : 50 ≤ (getObjectsOnFloor s floorIndex).length <;>
    cases hm : checkMinimumDistance s position floorIndex <;>
    simp [hc, hb, hn] <;> omega

end

/-- C2 (counterexample): a request rejected by the lock and a request rejected by the minimum
separation log different reasons, yet `validatePlacementPosition` returns the same value and
`placeObjectAt` shows the same feedback for both. -/
theorem validation_reason_not_returned :
    validatePlacementLog ({ oneObjectDesigner with layoutLocked := true } : Designer ℚ) 1000
        { x := 3, y := 0, z := 0 } 0 = some Reason.layoutLocked ∧
      validatePlacementLog (oneObjectDesigner : Designer ℚ) 1000
        { x := 0.3, y := 0, z := 0 } 0 = some Reason.tooClose ∧
      validatePlacementPosition ({ oneObjectDesigner with layoutLocked := true } : Designer ℚ)
          1000 { x := 3, y := 0, z := 0 } 0 =
        validatePlacementPosition (oneObjectDesigner : Designer ℚ) 1000
          { x := 0.3, y := 0, z := 0 } 0 ∧
      (placeObjectAt ({ oneObjectDesigner with layoutLocked := true } : Designer ℚ) 1000 bedBox
          { x := 3, y := 0, z := 0 } 0).2 =
        (placeObjectAt (oneObjectDesigner : Designer ℚ) 1000 bedBox
          { x := 0.3, y := 0, z := 0 } 0).2 := by
  have h1 : validatePlacementLog ({ oneObjectDesigner with layoutLocked := true } : Designer ℚ)
      1000 { x := 3, y := 0, z := 0 } 0 = some Reason.layoutLocked := by
    simp [validatePlacementLog]
  have h2 : validatePlacementLog (oneObjectDesigner : Designer ℚ) 1000
      { x := 0.3, y := 0, z := 0 } 0 = some Reason.tooClose := by
    simp [validatePlacementLog, oneObjectDesigner, freshDesigner, placementCooldown, floorAt,
      sqrtGt, maxObjectsPerFloor, getObjectsOnFloor, lockedFloorOr, furnitureAt,
      checkMinimumDistance, sqrtLt, pow2, minObjectDistance]
    norm_num
  refine ⟨h1, h2, ?_, ?_⟩
  · simp [validatePlacementPosition, h1, h2]
  · rw [placeObjectAt_of_rejected _ _ _ _ _ rfl (by simp [validatePlacementPosition, h1]),
      placeObjectAt_of_rejected _ _ _ _ _ rfl (by simp [validatePlacementPosition, h2])]

section
variable {α : Type} [LinearOrderedField α]

/-- C3: a rejected placement request (a drag is in progress, or the validation fails for any
reason) leaves the whole state as it was: furniture objects, id counter, falling entries and
last placement time included. -/
theorem placeObjectAt_rejected_unchanged (s : Designer α) (now : Int) (box : PrefabBox α)
    (worldPoint : Vector3 α) (floorIdx : Int)
    (hrej : s.isDragging = true ∨ validatePlacementPosition s now worldPoint floorIdx = false) :
    (placeObjectAt s now box worldPoint floorIdx).1 = s := by
  unfold placeObjectAt
  rcases hrej with h | h
  · simp [h]
  · cases hd : s.isDragging <;> simp [h]

end

/-- The 51st object on a floor that holds 50 is rejected for capacity and the floor still holds
50 objects. -/
theorem placeObjectAt_rejected_unchanged_witness :
    validatePlacementLog (fullFloorDesigner : Designer ℚ) 1000 { x := 0, y := 0, z := 10 } 0 =
        some Reason.floorFull ∧
      (placeObjectAt (fullFloorDesigner : Designer ℚ) 1000 bedBox { x := 0, y := 0, z := 10 } 0).1 =
        fullFloorDesigner ∧
      (getObjectsOnFloor (placeObjectAt (fullFloorDesigner : Designer ℚ) 1000 bedBox
        { x := 0, y := 0, z := 10 } 0).1 0).length = 50 := by
  have hlen : (getObjectsOnFloor (fullFloorDesigner : Designer ℚ) 0).length = 50 := by
    decide
  have hlog : validatePlacementLog (fullFloorDesigner : Designer ℚ) 1000
      { x := 0, y := 0, z := 10 } 0 = some Reason.floorFull := by
    unfold validatePlacementLog
    rw [hlen]
    simp [fullFloorDesigner, freshDesigner, placementCooldown, floorAt, sqrtGt,
      maxObjectsPerFloor]
    norm_num
  have hsame := placeObjectAt_rejected_unchanged (fullFloorDesigner : Designer ℚ) 1000 bedBox
    { x := 0, y := 0, z := 10 } 0 (Or.inr (by simp [validatePlacementPosition, hlog]))
  exact ⟨hlog, hsame, by rw [hsame]; exact hlen⟩

section
variable {α : Type} [LinearOrderedField α]

/-- The state after a successful `placeObjectAt`. -/
theorem placeObjectAt_success (s : Designer α) (now : Int) (box : PrefabBox α)
    (worldPoint : Vector3 α) (floorIdx : Int)
    (hok : (placeObjectAt s now box worldPoint floorIdx).2 = Feedback.placementSuccess) :
    s.isDragging = false ∧ validatePlacementPosition s now worldPoint floorIdx = true ∧
      ∃ floor, floorAt s.floors floorIdx = some floor ∧
        (placeObjectAt s now box worldPoint floorIdx).1 =
          { s with
            lastPlacementTime := now
            furnitureKeyCounter := s.furnitureKeyCounter + 1
            nextId := s.nextId + 1
            children := s.children ++ [newFurniture s box worldPoint floorIdx floor]
            selectedObject := some s.nextId
            activeDrops := s.activeDrops ++ [{ obj := s.nextId, vy := 0 }] } := by
  unfold placeObjectAt at hok ⊢
  cases hd : s.isDragging
  · cases hv : validatePlacementPosition s now worldPoint floorIdx
    · simp [hd, hv] at hok
    · cases hf : floorAt s.floors floorIdx with
      | none => simp [hd, hv, hf] at hok
      | some floor =>
        refine ⟨rfl, rfl, floor, rfl, ?_⟩
        simp [newFurniture]
  · simp [hd] at hok

/-- The checks behind an accepting `validatePlacementPosition`, over any ordered field. -/
theorem validatePlacementPosition_eq_true (s : Designer α) (now : Int)
    (position : Vector3 α) (floorIndex : Int) :
    validatePlacementPosition s now position floorIndex = true ↔
      (s.layoutLocked = false ∧ 500 ≤ now - s.lastPlacementTime ∧
        (floorAt s.floors floorIndex).isSome = true ∧
        ¬ sqrtGt (position.x * position.x + position.z * position.z) (s.currentRadius * 0.8) ∧
        (getObjectsOnFloor s floorIndex).length < 50 ∧
        checkMinimumDistance s position floorIndex = true) := by
  unfold validatePlacementPosition validatePlacementLog
  cases hl : s.layoutLocked <;> simp only [placementCooldown, maxObjectsPerFloor] <;>
  by_cases hc : now - s.lastPlacementTime < 500 <;>
  cases hf : floorAt s.floors floorIndex <;>
  by_cases hb : sqrtGt (position.x * position.x + position.z * position.z)
    (s.currentRadius * 0.8) <;>
  by_cases hn : 50 ≤ (getObjectsOnFloor s floorIndex).length <;>
  cases hm : checkMinimumDistance s position floorIndex <;>
  (simp [hc, hb, hn]; try omega)

end

theorem horizontalDistance_comm (p q : Vector3 ℝ) :
    horizontalDistance p q = horizontalDistance q p := by
  unfold horizontalDistance
  congr 1
  ring

/-- C4: a successful `placeObjectAt` (on any floor) keeps the objects locked to each floor `f`
pairwise at horizontal distance at least `minObjectDistance`, the new object included. -/
theorem placeObjectAt_preserves_separation (s : Designer ℝ) (now : Int) (box : PrefabBox ℝ)
    (worldPoint : Vector3 ℝ) (floorIdx f : Int) (hsep : Separated s f)
    (hok : (placeObjectAt s now box worldPoint floorIdx).2 = Feedback.placementSuccess) :
    Separated (placeObjectAt s now box worldPoint floorIdx).1 f := by
  obtain ⟨-, hv, floor, -, hst⟩ := placeObjectAt_success s now box worldPoint floorIdx hok
  generalize hp : newFurniture s box worldPoint floorIdx floor = prefab at hst
  have hlock : prefab.userData.lockedFloor = some floorIdx := by rw [← hp]; rfl
  have hx : prefab.position.x = worldPoint.x := by rw [← hp]; rfl
  have hz : prefab.position.z = worldPoint.z := by rw [← hp]; rfl
  have hmin := ((validatePlacementPosition_eq_true s now worldPoint floorIdx).1 hv).2.2.2.2.2
  rw [checkMinimumDistance_iff_real] at hmin
  unfold Separated at hsep ⊢
  rw [hst]
  simp only [getObjectsOnFloor, List.filter_append]
  rw [List.pairwise_append]
  refine ⟨hsep, ?_, ?_⟩
  · by_cases h : lockedFloorOr prefab (-1) = f <;> simp [List.filter_cons, h]
  · intro a ha b hb
    have hlf : lockedFloorOr prefab (-1) = floorIdx := by
      simp [lockedFloorOr, hlock]
    rw [List.filter_cons, hlf] at hb
    by_cases hff : floorIdx = f
    · subst hff
      simp only [decide_True, if_true, List.filter_nil, List.mem_singleton] at hb
      subst hb
      have := hmin a ha
      rw [horizontalDistance_comm]
      simpa [horizontalDistance, hx, hz] using this
    · simp [hff] at hb

/-- A second object placed one unit away from the first on floor 0 is accepted, and the two
objects are separated afterwards. -/
theorem placeObjectAt_preserves_separation_witness :
    Separated (oneObjectDesigner : Designer ℝ) 0 ∧
      (placeObjectAt (oneObjectDesigner : Designer ℝ) 1000 bedBox { x := 1, y := 0, z := 0 } 0).2 =
        Feedback.placementSuccess ∧
      (getObjectsOnFloor (placeObjectAt (oneObjectDesigner : Designer ℝ) 1000 bedBox
        { x := 1, y := 0, z := 0 } 0).1 0).length = 2 ∧
      Separated (placeObjectAt (oneObjectDesigner : Designer ℝ) 1000 bedBox
        { x := 1, y := 0, z := 0 } 0).1 0 := by
  have hsep : Separated (oneObjectDesigner : Designer ℝ) 0 := by
    simp [Separated, getObjectsOnFloor, oneObjectDesigner, lockedFloorOr, furnitureAt]
  have hv : validatePlacementPosition (oneObjectDesigner : Designer ℝ) 1000
      { x := 1, y := 0, z := 0 } 0 = true := by
    rw [validatePlacementPosition_eq_true]
    simp [oneObjectDesigner, freshDesigner, floorAt, sqrtGt, getObjectsOnFloor, lockedFloorOr,
      furnitureAt, checkMinimumDistance, sqrtLt, pow2, minObjectDistance]
    norm_num
  have hok : (placeObjectAt (oneObjectDesigner : Designer ℝ) 1000 bedBox
      { x := 1, y := 0, z := 0 } 0).2 = Feedback.placementSuccess := by
    unfold placeObjectAt
    rw [hv]
    simp [oneObjectDesigner, freshDesigner, floorAt]
  refine ⟨hsep, hok, ?_, placeObjectAt_preserves_separation _ _ _ _ _ _ hsep hok⟩
  obtain ⟨-, -, floor, -, hst⟩ := placeObjectAt_success _ _ _ _ _ hok
  rw [hst]
  simp [getObjectsOnFloor, oneObjectDesigner, freshDesigner, lockedFloorOr, furnitureAt,
    newFurniture]

/-! ## Object store lemmas -/

section
variable {α : Type}

theorem find?_map_update_same (l : List (Object3D α)) (id : Nat)
    (f : Object3D α → Object3D α) (hf : ∀ o, (f o).id = o.id) :
    (l.map (fun o => if o.id = id then f o else o)).find? (fun o => decide (o.id = id)) =
      (l.find? (fun o => decide (o.id = id))).map f := by
  induction l with
  | nil => rfl
  | cons a l ih =>
    by_cases h : a.id = id
    · simp [List.find?_cons, h, hf]
    · simp [List.find?_cons, h, ih]

theorem find?_map_update_ne (l : List (Object3D α)) (id j : Nat)
    (f : Object3D α → Object3D α) (hf : ∀ o, (f o).id = o.id) (hj : j ≠ id) :
    (l.map (fun o => if o.id = id then f o else o)).find? (fun o => decide (o.id = j)) =
      l.find? (fun o => decide (o.id = j)) := by
  induction l with
  | nil => rfl
  | cons a l ih =>
    by_cases h : a.id = id
    · have : ¬ a.id = j := fun h' => hj (h'.symm.trans h)
      simp [List.find?_cons, h, hf, this, ih, hj.symm]
    · by_cases h' : a.id = j
      · simp [List.find?_cons, h, h']
        simp [← h', h]
      · simp [List.find?_cons, h, h', ih]

theorem findObject_updateObject_same (s : Designer α) (id : Nat)
    (f : Object3D α → Object3D α) (hf : ∀ o, (f o).id = o.id) :
    findObject (updateObject s id f) id = (findObject s id).map f := by
  unfold findObject updateObject
  simp only [← List.map_append]
  exact find?_map_update_same _ id f hf

theorem findObject_updateObject_ne (s : Designer α) (id j : Nat)
    (f : Object3D α → Object3D α) (hf : ∀ o, (f o).id = o.id) (hj : j ≠ id) :
    findObject (updateObject s id f) j = findObject s j := by
  unfold findObject updateObject
  simp only [← List.map_append]
  exact find?_map_update_ne _ id j f hf hj

/-! ## Dragging -/

variable [LinearOrderedField α]

theorem clampAxis_abs_le (radius v : α) (hr : 0 ≤ radius) : |clampAxis radius v| ≤ radius := by
  unfold clampAxis
  rw [abs_le]
  constructor
  · exact le_max_left _ _
  · exact max_le (by linarith) (min_le_left _ _)

/-- C8 (as amended): while dragging, `updateDrag` sets the selected object's horizontal
position to the drag start position plus the pointer offset scaled by 10 (the pointer's
vertical offset is subtracted from `z`), and when the floor the object is locked to (floor 0
when unset) exists each of the two coordinates is clamped separately to
`[-0.8 * radius, 0.8 * radius]`; `y` is the drag start height. -/
theorem updateDrag_position (s : Designer α) (sel : Nat) (start : α × α) (o : Object3D α)
    (hsel : s.selectedObject = some sel) (hdrag : s.isDragging = true)
    (hstart : s.dragStartMousePosition = some start) (hobj : findObject s sel = some o) :
    ∃ o', findObject (updateDrag s) sel = some o' ∧
      o'.position.y = s.dragStartPosition.y ∧
      ((floorAt s.floors (o.userData.lockedFloor.getD 0)).isSome = true →
        o'.position.x = max (-(s.currentRadius * 0.8)) (min (s.currentRadius * 0.8)
          (s.dragStartPosition.x + (s.pointer.1 - start.1) * 10)) ∧
        o'.position.z = max (-(s.currentRadius * 0.8)) (min (s.currentRadius * 0.8)
          (s.dragStartPosition.z - (s.pointer.2 - start.2) * 10)) ∧
        (0 ≤ s.currentRadius → |o'.position.x| ≤ s.currentRadius * 0.8 ∧
          |o'.position.z| ≤ s.currentRadius * 0.8)) ∧
      (floorAt s.floors (o.userData.lockedFloor.getD 0) = none →
        o'.position.x = s.dragStartPosition.x + (s.pointer.1 - start.1) * 10 ∧
        o'.position.z = s.dragStartPosition.z - (s.pointer.2 - start.2) * 10) := by
  unfold updateDrag
  simp only [hsel, hdrag, hstart, hobj]
  rw [findObject_updateObject_same, hobj]
  swap
  · intro _; rfl
  refine ⟨_, rfl, ?_⟩
  cases hf : floorAt s.floors (o.userData.lockedFloor.getD 0) with
  | none => simp [setPosition]
  | some fl =>
    simp only [Option.isSome_some, forall_true_left, clampAxis, true_and, setPosition]
    refine ⟨?_, by simp⟩
    intro hr
    have hR : 0 ≤ s.currentRadius * 0.8 := mul_nonneg hr (by norm_num)
    exact ⟨clampAxis_abs_le _ _ hR, clampAxis_abs_le _ _ hR⟩

end

/-- The drag of `draggingDesigner` ends at `(8, 8)`, each coordinate clamped to `0.8 * 10`. -/
theorem updateDrag_position_witness :
    ∃ o', findObject (updateDrag (draggingDesigner : Designer ℚ)) 0 = some o' ∧
      o'.position.x = 8 ∧ o'.position.z = 8 ∧ |o'.position.x| ≤ 8 ∧ |o'.position.z| ≤ 8 := by
  obtain ⟨o', h1, -, hfl, -⟩ := updateDrag_position (draggingDesigner : Designer ℚ) 0 (0, 0)
    (furnitureAt 0 0 0 0.65 0) rfl rfl rfl rfl
  obtain ⟨hx, hz, hb⟩ := hfl rfl
  have hr : (draggingDesigner : Designer ℚ).currentRadius = 10 := rfl
  have hp : (draggingDesigner : Designer ℚ).pointer = (1, -1) := rfl
  have hs : (draggingDesigner : Designer ℚ).dragStartPosition = { x := 0, y := 0.65, z := 0 } :=
    rfl
  rw [hr, hp, hs] at hx hz
  rw [hr] at hb
  norm_num at hx hz hb
  exact ⟨o', h1, hx, hz, hb.1, hb.2⟩

/-- C8 (counterexample): with radius 10, a drag from the center with pointer offset `(1, -1)`
puts the object at `(8, 8)`, whose horizontal distance from the center exceeds `0.8 * 10`. -/
theorem updateDrag_leaves_disc :
    (findObject (updateDrag (draggingDesigner : Designer ℝ)) 0).map (fun o => o.position) =
        some { x := 8, y := 0.65, z := 8 } ∧
      0.8 * (draggingDesigner : Designer ℝ).currentRadius <
        distanceFromCenter { x := 8, y := 0.65, z := 8 } := by
  constructor
  · have hobj : findObject (draggingDesigner : Designer ℝ) 0 = some (furnitureAt 0 0 0 0.65 0) :=
      rfl
    unfold updateDrag
    have h1 : (draggingDesigner : Designer ℝ).selectedObject = some 0 := rfl
    have h2 : (draggingDesigner : Designer ℝ).isDragging = true := rfl
    have h3 : (draggingDesigner : Designer ℝ).dragStartMousePosition = some (0, 0) := rfl
    simp only [h1, h2, h3, hobj]
    rw [findObject_updateObject_same, hobj]
    swap
    · intro _; rfl
    have hf : floorAt (draggingDesigner : Designer ℝ).floors
        ((furnitureAt 0 0 (0 : ℝ) 0.65 0).userData.lockedFloor.getD 0) = some { positionY := 0 } :=
      rfl
    have hr : (draggingDesigner : Designer ℝ).currentRadius = 10 := rfl
    have hp : (draggingDesigner : Designer ℝ).pointer = (1, -1) := rfl
    have hs : (draggingDesigner : Designer ℝ).dragStartPosition =
        { x := 0, y := 0.65, z := 0 } := rfl
    simp only [hf, hr, hp, hs, Option.map_some', clampAxis, setPosition]
    norm_num
  · have hr : (draggingDesigner : Designer ℝ).currentRadius = 10 := rfl
    rw [hr]
    unfold distanceFromCenter
    rw [Real.lt_sqrt (by norm_num)]
    norm_num

/-! ## Object identity -/

section
variable {α : Type}

theorem find?_id_eq_some_iff (l : List (Object3D α)) (hl : (l.map (fun o => o.id)).Nodup)
    (i : Nat) (o : Object3D α) :
    l.find? (fun o => decide (o.id = i)) = some o ↔ o ∈ l ∧ o.id = i := by
  induction l with
  | nil => simp
  | cons a l ih =>
    rw [List.map_cons, List.nodup_cons] at hl
    by_cases h : a.id = i
    · simp only [List.find?_cons, h, decide_True, Option.some.injEq, List.mem_cons]
      constructor
      · rintro rfl; exact ⟨Or.inl rfl, h⟩
      · rintro ⟨h1 | h1, h2⟩
        · exact h1.symm
        · exfalso
          apply hl.1
          rw [List.mem_map]
          exact ⟨o, h1, h2.trans h.symm⟩
    · simp only [List.find?_cons, h, decide_False, ih hl.2, List.mem_cons]
      constructor
      · rintro ⟨h1, h2⟩; exact ⟨Or.inr h1, h2⟩
      · rintro ⟨h1 | h1, h2⟩
        · subst h1; exact absurd h2 h
        · exact ⟨h1, h2⟩

theorem find?_id_perm (l l' : List (Object3D α)) (hp : l.Perm l')
    (hl : (l.map (fun o => o.id)).Nodup) (i : Nat) :
    l'.find? (fun o => decide (o.id = i)) = l.find? (fun o => decide (o.id = i)) := by
  have hl' : (l'.map (fun o => o.id)).Nodup := (hp.map _).nodup_iff.1 hl
  apply Option.ext
  intro o
  rw [Option.mem_def, Option.mem_def, find?_id_eq_some_iff l' hl', find?_id_eq_some_iff l hl,
    hp.mem_iff]

theorem dedup_perm (seen : List FurnitureKey) (l : List (Object3D α)) :
    (dedupKeep seen l ++ dedupDrop seen l).Perm l := by
  induction l generalizing seen with
  | nil => simp [dedupKeep, dedupDrop]
  | cons a l ih =>
    unfold dedupKeep dedupDrop
    cases hk : a.userData.furnitureKey with
    | none => simpa using ih seen
    | some key =>
      by_cases hs : key ∈ seen
      · simp only [hs, if_true]
        exact List.perm_middle.trans ((ih seen).cons a)
      · simp only [hs, if_false]
        simpa using ih (key :: seen)

theorem removeDuplicates_perm (s : Designer α) :
    ((removeDuplicates s).children ++ (removeDuplicates s).detached).Perm
      (s.children ++ s.detached) := by
  unfold removeDuplicates
  simp only
  have h := dedup_perm ([] : List FurnitureKey) s.children
  calc dedupKeep [] s.children ++ (s.detached ++ dedupDrop [] s.children)
      _ = dedupKeep [] s.children ++ s.detached ++ dedupDrop [] s.children := by
        rw [List.append_assoc]
      _ |>.Perm (dedupKeep [] s.children ++ dedupDrop [] s.children ++ s.detached) := by
        rw [List.append_assoc, List.append_assoc]
        exact List.Perm.append_left _ List.perm_append_comm
      _ |>.Perm (s.children ++ s.detached) := List.Perm.append_right _ h

theorem removeDuplicates_uniqueIds (s : Designer α) (h : UniqueIds s) :
    UniqueIds (removeDuplicates s) := by
  unfold UniqueIds at h ⊢
  exact ((removeDuplicates_perm s).map _).nodup_iff.2 h

theorem findObject_removeDuplicates (s : Designer α) (h : UniqueIds s) (i : Nat) :
    findObject (removeDuplicates s) i = findObject s i := by
  unfold findObject
  exact find?_id_perm _ _ (removeDuplicates_perm s).symm h i

theorem updateObject_uniqueIds (s : Designer α) (id : Nat) (f : Object3D α → Object3D α)
    (hf : ∀ o, (f o).id = o.id) (h : UniqueIds s) : UniqueIds (updateObject s id f) := by
  unfold UniqueIds updateObject at *
  simp only [← List.map_append, List.map_map]
  have : ((fun o => o.id) ∘ fun o => if o.id = id then f o else o) =
      (fun o : Object3D α => o.id) := by
    funext o
    simp only [Function.comp]
    split_ifs <;> simp [hf]
  rw [this]
  exact h

end

/-! ## The drop loop -/

section
variable {α : Type}

theorem updateObject_eq_mapObjects (s : Designer α) (id : Nat) (f : Object3D α → Object3D α) :
    updateObject s id f = mapObjects s (fun o => if o.id = id then f o else o) := rfl

theorem mapObjects_id (s : Designer α) : mapObjects s (fun o => o) = s := by
  cases s
  simp [mapObjects]

theorem mapObjects_mapObjects (s : Designer α) (g1 g2 : Object3D α → Object3D α) :
    mapObjects (mapObjects s g1) g2 = mapObjects s (g2 ∘ g1) := by
  simp [mapObjects]

theorem mapObjects_uniqueIds (s : Designer α) (g : Object3D α → Object3D α)
    (hg : ∀ o, (g o).id = o.id) (h : UniqueIds s) : UniqueIds (mapObjects s g) := by
  unfold UniqueIds mapObjects at *
  simp only [← List.map_append, List.map_map]
  have : ((fun o => o.id) ∘ g) = (fun o : Object3D α => o.id) := by
    funext o
    simp [hg]
  rw [this]
  exact h

theorem updateObject_updateObject (s : Designer α) (id : Nat) (f1 f2 : Object3D α → Object3D α)
    (hf : ∀ o, (f1 o).id = o.id) :
    updateObject (updateObject s id f1) id f2 = updateObject s id (f2 ∘ f1) := by
  simp only [updateObject_eq_mapObjects, mapObjects_mapObjects]
  congr 1
  funext o
  by_cases h : o.id = id <;> simp [h, hf]

theorem setY_setY (y1 y2 : α) : (setY y2 ∘ setY y1 : Object3D α → Object3D α) = setY y2 := by
  funext o
  rfl

theorem updateObject_setY_setY (s : Designer α) (id : Nat) (y1 y2 : α) :
    updateObject (updateObject s id (setY y1)) id (setY y2) = updateObject s id (setY y2) := by
  rw [updateObject_updateObject s id (setY y1) (setY y2) (fun _ => rfl), setY_setY]

variable [LinearOrderedField α]

/-- What the drop callback does to an entry whose object is locked to an existing floor. -/
theorem dropEntry_locked (dt : α) (s : Designer α) (e : Drop α) (o : Object3D α) (f : Int)
    (floor : Floor α) (hobj : findObject s e.obj = some o) (hlock : LockedTo o f)
    (hfloor : floorAt s.floors f = some floor) :
    dropEntry dt s e =
      if o.position.y + (e.vy + gravity * dt) * dt ≤ targetHeight floor o then
        (updateObject s e.obj (setY (targetHeight floor o)), none)
      else
        (updateObject s e.obj (setY (o.position.y + (e.vy + gravity * dt) * dt)),
          some { obj := e.obj, vy := e.vy + gravity * dt }) := by
  unfold dropEntry
  unfold LockedTo at hlock
  simp only [hobj, hlock]
  have hfl : floorAt (updateObject s e.obj
      (setY (o.position.y + (e.vy + gravity * dt) * dt))).floors f = some floor := hfloor
  simp only [hfloor]
  split_ifs with h
  · rw [updateObject_setY_setY]
  · rfl

/-- The drop callback only rewrites objects, keeping their identity. -/
theorem dropEntry_mapObjects (dt : α) (s : Designer α) (e : Drop α) :
    ∃ g : Object3D α → Object3D α, (∀ o, (g o).id = o.id) ∧
      (∀ o, o.id ≠ e.obj → g o = o) ∧ (dropEntry dt s e).1 = mapObjects s g := by
  unfold dropEntry
  cases hobj : findObject s e.obj with
  | none => exact ⟨fun o => o, fun _ => rfl, fun _ _ => rfl, (mapObjects_id s).symm⟩
  | some obj =>
    have key : ∀ y : α, ∃ g : Object3D α → Object3D α, (∀ o, (g o).id = o.id) ∧
        (∀ o, o.id ≠ e.obj → g o = o) ∧ updateObject s e.obj (setY y) = mapObjects s g := by
      intro y
      refine ⟨fun o => if o.id = e.obj then setY y o else o, ?_, ?_, rfl⟩
      · intro o
        dsimp only
        split_ifs <;> rfl
      · intro o ho; simp [ho]
    simp only
    cases obj.userData.lockedFloor <|> obj.userData.floorIndex with
    | none => exact key _
    | some fidx =>
      simp only
      cases floorAt s.floors fidx with
      | none => exact key _
      | some floor =>
        simp only
        split_ifs
        · rw [updateObject_setY_setY]
          exact key _
        · exact key _

/-- The kept entry of the drop callback refers to the same object. -/
theorem dropEntry_kept_obj (dt : α) (s : Designer α) (e k : Drop α)
    (h : (dropEntry dt s e).2 = some k) : k.obj = e.obj := by
  unfold dropEntry at h
  revert h
  cases findObject s e.obj with
  | none => simp
  | some obj =>
    simp only
    cases obj.userData.lockedFloor <|> obj.userData.floorIndex with
    | none => simp
    | some fidx =>
      simp only
      cases floorAt s.floors fidx with
      | none => simp
      | some floor =>
        simp only
        split_ifs
        · simp
        · intro h
          simp only [Option.some.injEq] at h
          rw [← h]

end

section
variable {α : Type}

theorem findObject_mapObjects (s : Designer α) (g : Object3D α → Object3D α)
    (hg : ∀ o, (g o).id = o.id) (i : Nat) :
    findObject (mapObjects s g) i = (findObject s i).map g := by
  unfold findObject mapObjects
  simp only [← List.map_append, List.find?_map]
  have : ((fun o : Object3D α => decide (o.id = i)) ∘ g) = (fun o => decide (o.id = i)) := by
    funext o
    simp [hg]
  rw [this]

theorem findObject_id (s : Designer α) (i : Nat) (o : Object3D α)
    (h : findObject s i = some o) : o.id = i := by
  unfold findObject at h
  have := List.find?_some h
  simpa using this

theorem findObject_updateObject_setY (s : Designer α) (i : Nat) (y : α) :
    findObject (updateObject s i (setY y)) i = (findObject s i).map (setY y) :=
  findObject_updateObject_same s i (setY y) (fun _ => rfl)

variable [LinearOrderedField α]

/-- The drop loop only rewrites the objects of its entries, keeping every identity. -/
theorem dropAll_mapObjects (dt : α) (es : List (Drop α)) (s : Designer α) :
    ∃ g : Object3D α → Object3D α, (∀ o, (g o).id = o.id) ∧
      (∀ o, (∀ e ∈ es, e.obj ≠ o.id) → g o = o) ∧ (dropAll dt s es).1 = mapObjects s g := by
  induction es generalizing s with
  | nil => exact ⟨fun o => o, fun _ => rfl, fun _ _ => rfl, (mapObjects_id s).symm⟩
  | cons e es ih =>
    obtain ⟨g1, hg1, hf1, h1⟩ := dropEntry_mapObjects dt s e
    obtain ⟨g2, hg2, hf2, h2⟩ := ih (dropEntry dt s e).1
    refine ⟨g2 ∘ g1, fun o => by simp [hg1, hg2], ?_, ?_⟩
    · intro o ho
      have h1' : g1 o = o := hf1 o (fun h => ho e (List.mem_cons_self _ _) h.symm)
      simp only [Function.comp, h1']
      exact hf2 o (fun e' he' => ho e' (List.mem_cons_of_mem _ he'))
    · simp only [dropAll]
      rw [h2, h1, mapObjects_mapObjects]

/-- Every entry that survives the drop loop comes from an entry for the same object. -/
theorem dropAll_kept_obj (dt : α) (es : List (Drop α)) (s : Designer α) (k : Drop α)
    (hk : k ∈ (dropAll dt s es).2) : ∃ e ∈ es, k.obj = e.obj := by
  induction es generalizing s with
  | nil => simp [dropAll] at hk
  | cons e es ih =>
    simp only [dropAll, List.mem_append, Option.mem_toList, Option.mem_def] at hk
    rcases hk with hk | hk
    · exact ⟨e, List.mem_cons_self _ _, dropEntry_kept_obj dt s e k hk⟩
    · obtain ⟨e', he', h⟩ := ih _ hk
      exact ⟨e', List.mem_cons_of_mem _ he', h⟩

/-- Entries of other objects leave object `i` and its entries alone. -/
theorem dropAll_untracked (dt : α) (es : List (Drop α)) (s : Designer α) (i : Nat)
    (hes : es.filter (fun d => decide (d.obj = i)) = []) :
    findObject (dropAll dt s es).1 i = findObject s i ∧
      (dropAll dt s es).2.filter (fun d => decide (d.obj = i)) = [] := by
  have hne : ∀ e ∈ es, e.obj ≠ i := by
    intro e he h
    have : e ∈ es.filter (fun d => decide (d.obj = i)) := by
      simp [List.mem_filter, he, h]
    rw [hes] at this
    exact absurd this (List.not_mem_nil _)
  constructor
  · obtain ⟨g, hg, hf, h⟩ := dropAll_mapObjects dt es s
    rw [h, findObject_mapObjects _ _ hg]
    cases ho : findObject s i with
    | none => rfl
    | some o =>
      have hid := findObject_id s i o ho
      simp only [Option.map_some', Option.some.injEq]
      exact hf o (fun e he => by rw [hid]; exact hne e he)
  · rw [List.filter_eq_nil_iff]
    intro k hk
    obtain ⟨e, he, h⟩ := dropAll_kept_obj dt es s k hk
    simp only [decide_eq_true_eq]
    rw [h]
    exact hne e he

/-- The drop loop on the single entry `e` of object `i`: the object is moved by one
integration step and kept falling when that is above its target height, and otherwise put
exactly on the target height and its entry removed. -/
theorem dropAll_tracked (dt : α) (i : Nat) (o : Object3D α) (e : Drop α) (f : Int)
    (floor : Floor α) (hlock : LockedTo o f) (es : List (Drop α)) (s : Designer α)
    (hobj : findObject s i = some o) (hfloor : floorAt s.floors f = some floor)
    (hes : es.filter (fun d => decide (d.obj = i)) = [e]) :
    (o.position.y + (e.vy + gravity * dt) * dt ≤ targetHeight floor o →
      findObject (dropAll dt s es).1 i = some (setY (targetHeight floor o) o) ∧
        (dropAll dt s es).2.filter (fun d => decide (d.obj = i)) = []) ∧
    (targetHeight floor o < o.position.y + (e.vy + gravity * dt) * dt →
      findObject (dropAll dt s es).1 i =
          some (setY (o.position.y + (e.vy + gravity * dt) * dt) o) ∧
        (dropAll dt s es).2.filter (fun d => decide (d.obj = i)) =
          [{ obj := i, vy := e.vy + gravity * dt }]) := by
  induction es generalizing s with
  | nil => simp at hes
  | cons e0 es ih =>
    by_cases h0 : e0.obj = i
    · -- the head is the entry of `i`
      rw [List.filter_cons, if_pos (by simpa using h0)] at hes
      have he : e0 = e := by injection hes
      have hrest : es.filter (fun d => decide (d.obj = i)) = [] := by injection hes
      subst he
      have hobj' : findObject s e0.obj = some o := by rw [h0]; exact hobj
      have hstep := dropEntry_locked dt s e0 o f floor hobj' hlock hfloor
      simp only [dropAll]
      constructor
      · intro hle
        rw [if_pos hle] at hstep
        obtain ⟨hfind, hkept⟩ := dropAll_untracked dt es (dropEntry dt s e0).1 i hrest
        rw [hfind, List.filter_append, hkept, hstep]
        simp only [Option.toList, List.append_nil, List.filter_nil, and_true]
        rw [h0, findObject_updateObject_setY, hobj]
        rfl
      · intro hgt
        rw [if_neg (not_le.2 hgt)] at hstep
        obtain ⟨hfind, hkept⟩ := dropAll_untracked dt es (dropEntry dt s e0).1 i hrest
        rw [hfind, List.filter_append, hkept, hstep]
        simp only [Option.toList, List.append_nil]
        rw [h0, findObject_updateObject_setY, hobj]
        simp
    · -- the head belongs to another object
      rw [List.filter_cons, if_neg (by simpa using h0)] at hes
      obtain ⟨g, hg, hf, h1⟩ := dropEntry_mapObjects dt s e0
      have hobj1 : findObject (dropEntry dt s e0).1 i = some o := by
        rw [h1, findObject_mapObjects _ _ hg, hobj]
        simp only [Option.map_some', Option.some.injEq]
        exact hf o (by rw [findObject_id s i o hobj]; exact fun h => h0 h.symm)
      have hfloor1 : floorAt (dropEntry dt s e0).1.floors f = some floor := by
        rw [h1]; exact hfloor
      have hkeep : (dropEntry dt s e0).2.toList.filter (fun d => decide (d.obj = i)) = [] := by
        rw [List.filter_eq_nil_iff]
        intro k hk
        simp only [Option.mem_toList, Option.mem_def] at hk
        simp only [decide_eq_true_eq]
        rw [dropEntry_kept_obj dt s e0 k hk]
        exact h0
      have := ih (dropEntry dt s e0).1 hobj1 hfloor1 hes
      simp only [dropAll, List.filter_append, hkeep, List.nil_append]
      exact this

end

/-! ## The re-stick loop and the whole frame -/

section
variable {α : Type}

theorem lockedFloorOr_of_lockedTo (o : Object3D α) (f d : Int) (h : LockedTo o f) :
    lockedFloorOr o d = f := by
  unfold LockedTo at h
  unfold lockedFloorOr
  cases hl : o.userData.lockedFloor with
  | some l => simpa [hl] using h
  | none =>
    cases hi : o.userData.floorIndex with
    | some k => simpa [hl, hi] using h
    | none => simp [hl, hi] at h

variable [LinearOrderedField α]

theorem stabilized_frame (floor : Floor α) (o : Object3D α) :
    (stabilized floor o).id = o.id ∧ (stabilized floor o).height = o.height ∧
      (stabilized floor o).userData.lockedFloor = o.userData.lockedFloor ∧
      (stabilized floor o).userData.floorIndex = o.userData.floorIndex ∧
      (stabilized floor o).position.y = targetHeight floor o :=
  ⟨rfl, rfl, rfl, rfl, rfl⟩

theorem nudge_frame (floor : Floor α) (o : Object3D α) :
    (nudge floor o).id = o.id ∧ (nudge floor o).height = o.height ∧
      (nudge floor o).userData = o.userData := by
  unfold nudge
  simp only
  split_ifs <;> exact ⟨rfl, rfl, rfl⟩

theorem nudge_at_target (floor : Floor α) (o : Object3D α)
    (h : o.position.y = targetHeight floor o) : nudge floor o = o := by
  unfold nudge
  simp only [h, sub_self, abs_zero]
  rw [if_neg (by norm_num)]

/-- The re-stick loop keeps identity, height and floor lock of every object. -/
theorem stickObject_frame (floors : List (Floor α)) (drops : List (Drop α)) (o : Object3D α) :
    (stickObject floors drops o).1.id = o.id ∧ (stickObject floors drops o).1.height = o.height ∧
      (stickObject floors drops o).1.userData.lockedFloor = o.userData.lockedFloor ∧
      (stickObject floors drops o).1.userData.floorIndex = o.userData.floorIndex := by
  unfold stickObject
  split_ifs
  · exact ⟨rfl, rfl, rfl, rfl⟩
  · split
    · split_ifs
      · exact ⟨rfl, rfl, rfl, rfl⟩
      · exact ⟨rfl, rfl, rfl, rfl⟩
    · exact ⟨rfl, rfl, rfl, rfl⟩
  · split
    · exact ⟨rfl, rfl, rfl, rfl⟩
    · exact ⟨(nudge_frame _ o).1, (nudge_frame _ o).2.1, by rw [(nudge_frame _ o).2.2],
        by rw [(nudge_frame _ o).2.2]⟩

/-- The re-stick loop leaves an object that is still dropping alone. -/
theorem stickObject_dropping (floors : List (Floor α)) (drops : List (Drop α))
    (o : Object3D α) (h : drops.filter (fun d => decide (d.obj = o.id)) ≠ []) :
    (stickObject floors drops o).1 = o := by
  unfold stickObject
  have : drops.any (fun d => decide (d.obj = o.id)) = true := by
    rw [List.any_eq_true]
    obtain ⟨d, hd⟩ := List.exists_mem_of_ne_nil _ h
    rw [List.mem_filter] at hd
    exact ⟨d, hd.1, hd.2⟩
  simp [this]

/-- The re-stick loop leaves an object that stands on its target height there. -/
theorem stickObject_at_target (floors : List (Floor α)) (drops : List (Drop α))
    (o : Object3D α) (f : Int) (floor : Floor α) (hlock : LockedTo o f)
    (hfloor : floorAt floors f = some floor) (hy : o.position.y = targetHeight floor o) :
    (stickObject floors drops o).1.position.y = targetHeight floor o := by
  unfold stickObject
  rw [lockedFloorOr_of_lockedTo o f 0 hlock, hfloor]
  split_ifs
  · exact hy
  · cases o.userData.lastStablePosition with
    | none => exact hy
    | some p =>
      cases o.userData.lastStableFloorY with
      | none => exact hy
      | some lastY =>
        simp only
        split_ifs
        · rfl
        · exact hy
  · simp only
    rw [nudge_at_target floor o hy]
    exact hy

end

section
variable {α : Type}

theorem find?_map_children (l1 l2 : List (Object3D α)) (G : Object3D α → Object3D α)
    (hG : ∀ o, (G o).id = o.id) (i : Nat) (o : Object3D α)
    (h : (l1 ++ l2).find? (fun o => decide (o.id = i)) = some o) :
    ∃ o', (l1.map G ++ l2).find? (fun o => decide (o.id = i)) = some o' ∧
      (o' = G o ∨ o' = o) := by
  have hp : ((fun o : Object3D α => decide (o.id = i)) ∘ G) = (fun o => decide (o.id = i)) := by
    funext o
    simp [hG]
  rw [List.find?_append] at h ⊢
  rw [List.find?_map, hp]
  cases h1 : l1.find? (fun o => decide (o.id = i)) with
  | none =>
    rw [h1] at h
    exact ⟨o, by simpa using h, Or.inr rfl⟩
  | some c =>
    rw [h1] at h
    simp only [Option.or_some, Option.some.injEq] at h
    subst h
    exact ⟨G c, by simp, Or.inl rfl⟩

theorem map_children_uniqueIds (l1 l2 : List (Object3D α)) (G : Object3D α → Object3D α)
    (hG : ∀ o, (G o).id = o.id) :
    (l1.map G ++ l2).map (fun o => o.id) = (l1 ++ l2).map (fun o => o.id) := by
  simp only [List.map_append, List.map_map]
  congr 1
  apply List.map_congr_left
  intro o _
  exact hG o

variable [LinearOrderedField α]

/-- Identities, the drag flag and the floors are untouched by a frame. -/
theorem updateGravity_frame (s : Designer α) (delta : α) (h : UniqueIds s) :
    UniqueIds (updateGravity s delta) ∧ (updateGravity s delta).isDragging = s.isDragging ∧
      (updateGravity s delta).floors = s.floors := by
  unfold updateGravity
  simp only
  have h0 := removeDuplicates_uniqueIds s h
  have hd0 : (removeDuplicates s).isDragging = s.isDragging := rfl
  cases hd : s.isDragging
  · rw [hd] at hd0
    simp only [hd0, Bool.false_eq_true, if_false]
    obtain ⟨g, hg, -, hr⟩ := dropAll_mapObjects (frameStep delta) (removeDuplicates s).activeDrops
      (removeDuplicates s)
    rw [hr]
    refine ⟨?_, hd0, rfl⟩
    have h1 := mapObjects_uniqueIds _ g hg h0
    unfold UniqueIds at h1 ⊢
    simp only [List.map_map]
    rw [map_children_uniqueIds]
    · exact h1
    · intro o
      exact (stickObject_frame _ _ o).1
  · rw [hd] at hd0
    simp only [hd0, if_true]
    exact ⟨h0, trivial, rfl⟩

/-- One frame for the object `i` with the single falling entry `e`. -/
theorem updateGravity_tracked (s : Designer α) (delta : α) (i : Nat) (o : Object3D α)
    (e : Drop α) (f : Int) (floor : Floor α) (hu : UniqueIds s) (hd : s.isDragging = false)
    (hobj : findObject s i = some o) (hlock : LockedTo o f)
    (hfloor : floorAt s.floors f = some floor) (hes : dropsOf s i = [e]) :
    (o.position.y + (e.vy + gravity * frameStep delta) * frameStep delta ≤ targetHeight floor o →
      ∃ o', findObject (updateGravity s delta) i = some o' ∧
        o'.position.y = targetHeight floor o ∧ o'.height = o.height ∧ LockedTo o' f ∧
        dropsOf (updateGravity s delta) i = []) ∧
    (targetHeight floor o < o.position.y + (e.vy + gravity * frameStep delta) * frameStep delta →
      ∃ o', findObject (updateGravity s delta) i = some o' ∧
        o'.position.y = o.position.y + (e.vy + gravity * frameStep delta) * frameStep delta ∧
        o'.height = o.height ∧ LockedTo o' f ∧
        dropsOf (updateGravity s delta) i =
          [{ obj := i, vy := e.vy + gravity * frameStep delta }]) := by
  have hobj0 : findObject (removeDuplicates s) i = some o := by
    rw [findObject_removeDuplicates s hu]; exact hobj
  have hfloor0 : floorAt (removeDuplicates s).floors f = some floor := hfloor
  have hes0 : (removeDuplicates s).activeDrops.filter (fun d => decide (d.obj = i)) = [e] := hes
  have hd0 : (removeDuplicates s).isDragging = false := hd
  obtain ⟨hset, hfall⟩ := dropAll_tracked (frameStep delta) i o e f floor hlock
    (removeDuplicates s).activeDrops (removeDuplicates s) hobj0 hfloor0 hes0
  obtain ⟨g, hg, -, hr⟩ := dropAll_mapObjects (frameStep delta) (removeDuplicates s).activeDrops
    (removeDuplicates s)
  have hfl : (dropAll (frameStep delta) (removeDuplicates s)
      (removeDuplicates s).activeDrops).1.floors = s.floors := by rw [hr]; rfl
  have hid : o.id = i := findObject_id s i o hobj
  unfold updateGravity dropsOf
  simp only [hd0, Bool.false_eq_true, if_false, List.map_map]
  constructor
  · intro hle
    obtain ⟨h1, h2⟩ := hset hle
    unfold findObject at h1 ⊢
    obtain ⟨o', ho', hcase⟩ := find?_map_children _ _
      (Prod.fst ∘ stickObject (dropAll (frameStep delta) (removeDuplicates s)
          (removeDuplicates s).activeDrops).1.floors
        (dropAll (frameStep delta) (removeDuplicates s) (removeDuplicates s).activeDrops).2)
      (fun o => (stickObject_frame _ _ o).1) i _ h1
    refine ⟨o', ho', ?_, ?_, ?_, h2⟩
    · rcases hcase with hc | hc
      · rw [hc]
        simp only [Function.comp]
        rw [hfl]
        exact stickObject_at_target _ _ _ f floor hlock hfloor rfl
      · rw [hc]; rfl
    · rcases hcase with hc | hc
      · rw [hc]; exact (stickObject_frame _ _ _).2.1
      · rw [hc]; rfl
    · rcases hcase with hc | hc
      · rw [hc]
        unfold LockedTo
        simp only [Function.comp]
        rw [(stickObject_frame _ _ _).2.2.1, (stickObject_frame _ _ _).2.2.2]
        exact hlock
      · rw [hc]; exact hlock
  · intro hgt
    obtain ⟨h1, h2⟩ := hfall hgt
    unfold findObject at h1 ⊢
    obtain ⟨o', ho', hcase⟩ := find?_map_children _ _
      (Prod.fst ∘ stickObject (dropAll (frameStep delta) (removeDuplicates s)
          (removeDuplicates s).activeDrops).1.floors
        (dropAll (frameStep delta) (removeDuplicates s) (removeDuplicates s).activeDrops).2)
      (fun o => (stickObject_frame _ _ o).1) i _ h1
    have hsame : o' = setY (o.position.y +
        (e.vy + gravity * frameStep delta) * frameStep delta) o := by
      rcases hcase with hc | hc
      · rw [hc]
        simp only [Function.comp]
        apply stickObject_dropping
        have : (setY (o.position.y + (e.vy + gravity * frameStep delta) * frameStep delta) o).id
            = i := hid
        rw [this, h2]
        simp
      · exact hc
    refine ⟨o', ho', ?_, ?_, ?_, h2⟩
    · rw [hsame]; rfl
    · rw [hsame]; rfl
    · rw [hsame]; exact hlock

end

section
variable {α : Type} [LinearOrderedField α]

/-- One frame for an object that stands on its target height without a falling entry. -/
theorem updateGravity_settled (s : Designer α) (delta : α) (i : Nat) (o : Object3D α)
    (f : Int) (floor : Floor α) (hu : UniqueIds s) (hd : s.isDragging = false)
    (hobj : findObject s i = some o) (hlock : LockedTo o f)
    (hfloor : floorAt s.floors f = some floor) (hy : o.position.y = targetHeight floor o)
    (hes : dropsOf s i = []) :
    ∃ o', findObject (updateGravity s delta) i = some o' ∧
      o'.position.y = targetHeight floor o ∧ o'.height = o.height ∧ LockedTo o' f ∧
      dropsOf (updateGravity s delta) i = [] := by
  have hobj0 : findObject (removeDuplicates s) i = some o := by
    rw [findObject_removeDuplicates s hu]; exact hobj
  have hes0 : (removeDuplicates s).activeDrops.filter (fun d => decide (d.obj = i)) = [] := hes
  have hd0 : (removeDuplicates s).isDragging = false := hd
  obtain ⟨h1, h2⟩ := dropAll_untracked (frameStep delta) (removeDuplicates s).activeDrops
    (removeDuplicates s) i hes0
  rw [hobj0] at h1
  obtain ⟨g, hg, -, hr⟩ := dropAll_mapObjects (frameStep delta) (removeDuplicates s).activeDrops
    (removeDuplicates s)
  have hfl : (dropAll (frameStep delta) (removeDuplicates s)
      (removeDuplicates s).activeDrops).1.floors = s.floors := by rw [hr]; rfl
  unfold updateGravity dropsOf
  simp only [hd0, Bool.false_eq_true, if_false, List.map_map]
  unfold findObject at h1 ⊢
  obtain ⟨o', ho', hcase⟩ := find?_map_children _ _
    (Prod.fst ∘ stickObject (dropAll (frameStep delta) (removeDuplicates s)
        (removeDuplicates s).activeDrops).1.floors
      (dropAll (frameStep delta) (removeDuplicates s) (removeDuplicates s).activeDrops).2)
    (fun o => (stickObject_frame _ _ o).1) i _ h1
  refine ⟨o', ho', ?_, ?_, ?_, h2⟩
  · rcases hcase with hc | hc
    · rw [hc]
      simp only [Function.comp]
      rw [hfl]
      exact stickObject_at_target _ _ _ f floor hlock hfloor hy
    · rw [hc]; exact hy
  · rcases hcase with hc | hc
    · rw [hc]; exact (stickObject_frame _ _ _).2.1
    · rw [hc]
  · rcases hcase with hc | hc
    · rw [hc]
      unfold LockedTo
      simp only [Function.comp]
      rw [(stickObject_frame _ _ _).2.2.1, (stickObject_frame _ _ _).2.2.2]
      exact hlock
    · rw [hc]; exact hlock

/-- C9: a settle tick never leaves a falling object below its target height.  For an object
with one falling entry that is at or above its target height (top of its locked floor plus
half its vertical extent), `position.y` after `updateGravity` is at least the target height,
for every frame delta and velocity; when no drag is in progress and the integrated position
is at or below the target the object is put exactly on the target and its entry removed, and
otherwise it is moved to the integrated position and keeps falling with the new velocity. -/
theorem updateGravity_no_overshoot (s : Designer α) (delta : α) (i : Nat) (o : Object3D α)
    (e : Drop α) (f : Int) (floor : Floor α) (hu : UniqueIds s)
    (hobj : findObject s i = some o) (hlock : LockedTo o f)
    (hfloor : floorAt s.floors f = some floor) (hes : dropsOf s i = [e])
    (habove : targetHeight floor o ≤ o.position.y) :
    ∃ o', findObject (updateGravity s delta) i = some o' ∧
      targetHeight floor o ≤ o'.position.y ∧
      (s.isDragging = false →
        o.position.y + (e.vy + gravity * frameStep delta) * frameStep delta ≤
          targetHeight floor o →
        o'.position.y = targetHeight floor o ∧ dropsOf (updateGravity s delta) i = []) ∧
      (s.isDragging = false →
        targetHeight floor o <
          o.position.y + (e.vy + gravity * frameStep delta) * frameStep delta →
        o'.position.y = o.position.y + (e.vy + gravity * frameStep delta) * frameStep delta ∧
          dropsOf (updateGravity s delta) i =
            [{ obj := i, vy := e.vy + gravity * frameStep delta }]) := by
  cases hd : s.isDragging
  · obtain ⟨hset, hfall⟩ := updateGravity_tracked s delta i o e f floor hu hd hobj hlock hfloor hes
    rcases le_or_lt (o.position.y + (e.vy + gravity * frameStep delta) * frameStep delta)
      (targetHeight floor o) with hle | hgt
    · obtain ⟨o', h1, h2, -, -, h5⟩ := hset hle
      refine ⟨o', h1, le_of_eq h2.symm, fun _ _ => ⟨h2, h5⟩, fun _ hgt => ?_⟩
      exact absurd hle (not_le.2 hgt)
    · obtain ⟨o', h1, h2, -, -, h5⟩ := hfall hgt
      refine ⟨o', h1, ?_, fun _ hle => ?_, fun _ _ => ⟨h2, h5⟩⟩
      · rw [h2]; exact le_of_lt hgt
      · exact absurd hle (not_le.2 hgt)
  · refine ⟨o, ?_, habove, fun h => by simp at h, fun h => by simp at h⟩
    have hd0 : (removeDuplicates s).isDragging = true := hd
    unfold updateGravity
    simp only [hd0, if_true]
    rw [findObject_removeDuplicates s hu]
    exact hobj

end

/-! ## Free fall -/

section
variable {α : Type} [LinearOrderedField α]

theorem placeObjectAt_emptyDesigner (type : String) (box : PrefabBox α) :
    (placeObjectAt (emptyDesigner type : Designer α) 1000 box { x := 0, y := 0, z := 0 } 0).1 =
      { (emptyDesigner type : Designer α) with
        lastPlacementTime := 1000
        furnitureKeyCounter := 1
        nextId := 1
        children := [newFurniture (emptyDesigner type) box { x := 0, y := 0, z := 0 } 0
          { positionY := 0 }]
        selectedObject := some 0
        activeDrops := [{ obj := 0, vy := 0 }] } := by
  have hv : validatePlacementPosition (emptyDesigner type : Designer α) 1000
      { x := 0, y := 0, z := 0 } 0 = true := by
    rw [validatePlacementPosition_eq_true]
    simp [emptyDesigner, freshDesigner, floorAt, sqrtGt, getObjectsOnFloor, checkMinimumDistance]
    norm_num
  unfold placeObjectAt
  rw [hv]
  simp [emptyDesigner, freshDesigner, floorAt, newFurniture]

/-- A freshly placed object falls from rest from the spawn height, which lies 2 above the
resting height computed from the height measured before the attachment points were added;
its bounding box has the height measured with them. -/
theorem placeObjectAt_emptyDesigner_falling (type : String) (box : PrefabBox α) :
    FallingAt (placeObjectAt (emptyDesigner type : Designer α) 1000 box
        { x := 0, y := 0, z := 0 } 0).1 0 0 { positionY := 0 } box.attachedHeight
      (floorThickness / 2 + box.height / 2 + 2) 0 := by
  rw [placeObjectAt_emptyDesigner]
  refine ⟨⟨?_, rfl, rfl, _, rfl, ?_, rfl, rfl⟩, rfl⟩
  · simp [UniqueIds, emptyDesigner, freshDesigner]
  · simp [newFurniture]

theorem bedBox_height : (bedBox : PrefabBox α).height = 1 := by
  simp [PrefabBox.height, bedBox]

theorem bedBox_attachedHeight : (bedBox : PrefabBox α).attachedHeight = 2.2 := by
  have h1 : max (1 : α) (1 + 0.1) = 1 + 0.1 := max_eq_right (by norm_num)
  have h2 : min (0 : α) (-1 - 0.1) = -1 - 0.1 := min_eq_right (by norm_num)
  simp only [PrefabBox.attachedHeight, bedBox, h1, h2]
  norm_num

theorem cylinderBox_height : (cylinderBox : PrefabBox α).height = 2.25 := by
  simp only [PrefabBox.height, cylinderBox]
  norm_num

theorem cylinderBox_attachedHeight : (cylinderBox : PrefabBox α).attachedHeight = 2.25 := by
  have h1 : max (1.125 : α) (1 + 0.1) = 1.125 := max_eq_left (by norm_num)
  have h2 : min (-1.125 : α) (-1 - 0.1) = -1.125 := min_eq_left (by norm_num)
  simp only [PrefabBox.attachedHeight, cylinderBox, h1, h2]
  norm_num

theorem placedDesigner_falling :
    FallingAt (placedDesigner : Designer α) 0 0 { positionY := 0 } 2.25 3.275 0 := by
  have h := placeObjectAt_emptyDesigner_falling (α := α) "cylinder" cylinderBox
  rw [cylinderBox_height, cylinderBox_attachedHeight] at h
  have e : (floorThickness / 2 + 2.25 / 2 + 2 : α) = 3.275 := by norm_num [floorThickness]
  rw [e] at h
  exact h

theorem placedBedDesigner_falling :
    FallingAt (placedBedDesigner : Designer α) 0 0 { positionY := 0 } 2.2 2.65 0 := by
  have h := placeObjectAt_emptyDesigner_falling (α := α) "bed" bedBox
  rw [bedBox_height, bedBox_attachedHeight] at h
  have e : (floorThickness / 2 + 1 / 2 + 2 : α) = 2.65 := by norm_num [floorThickness]
  rw [e] at h
  exact h

end

section
variable {α : Type} [LinearOrderedField α]

/-- A falling object follows the free-fall trajectory for one more frame. -/
theorem updateGravity_falling (s : Designer α) (delta : α) (i : Nat) (f : Int)
    (floor : Floor α) (h y vy : α) (hs : FallingAt s i f floor h y vy) :
    (y + (vy + gravity * frameStep delta) * frameStep delta ≤
        floor.positionY + floorThickness / 2 + h / 2 →
      SettledAt (updateGravity s delta) i f floor h) ∧
    (floor.positionY + floorThickness / 2 + h / 2 <
        y + (vy + gravity * frameStep delta) * frameStep delta →
      FallingAt (updateGravity s delta) i f floor h
        (y + (vy + gravity * frameStep delta) * frameStep delta)
        (vy + gravity * frameStep delta)) := by
  obtain ⟨⟨hu, hd, hfloor, o, hobj, hy, hh, hlock⟩, hes⟩ := hs
  obtain ⟨hu', hd', hfl'⟩ := updateGravity_frame s delta hu
  have htarget : targetHeight floor o = floor.positionY + floorThickness / 2 + h / 2 := by
    unfold targetHeight; rw [hh]
  obtain ⟨hset, hfall⟩ := updateGravity_tracked s delta i o
    { obj := i, vy := vy } f floor hu hd hobj hlock hfloor hes
  simp only [hy, htarget] at hset hfall
  constructor
  · intro hle
    obtain ⟨o', h1, h2, h3, h4, h5⟩ := hset hle
    exact ⟨⟨hu', hd'.trans hd, by rw [hfl']; exact hfloor, o', h1, h2, h3.trans hh, h4⟩, h5⟩
  · intro hgt
    obtain ⟨o', h1, h2, h3, h4, h5⟩ := hfall hgt
    exact ⟨⟨hu', hd'.trans hd, by rw [hfl']; exact hfloor, o', h1, h2, h3.trans hh, h4⟩, h5⟩

/-- A settled object stays settled. -/
theorem updateGravity_settledAt (s : Designer α) (delta : α) (i : Nat) (f : Int)
    (floor : Floor α) (h : α) (hs : SettledAt s i f floor h) :
    SettledAt (updateGravity s delta) i f floor h := by
  obtain ⟨⟨hu, hd, hfloor, o, hobj, hy, hh, hlock⟩, hes⟩ := hs
  obtain ⟨hu', hd', hfl'⟩ := updateGravity_frame s delta hu
  have htarget : targetHeight floor o = floor.positionY + floorThickness / 2 + h / 2 := by
    unfold targetHeight; rw [hh]
  obtain ⟨o', h1, h2, h3, h4, h5⟩ := updateGravity_settled s delta i o f floor hu hd hobj hlock
    hfloor (hy.trans htarget.symm) hes
  exact ⟨⟨hu', hd'.trans hd, by rw [hfl']; exact hfloor, o', h1, h2.trans htarget, h3.trans hh,
    h4⟩, h5⟩

/-- The frames follow the free-fall trajectory up to the first frame at which it reaches the
target height; from that frame on the object is settled. -/
theorem runGravity_trajectory (deltas : Nat → α) (s : Designer α) (i : Nat) (f : Int)
    (floor : Floor α) (h y0 vy0 : α) (hs : FallingAt s i f floor h y0 vy0) (n : Nat) :
    ((∀ k, k < n → floor.positionY + floorThickness / 2 + h / 2 <
        fallHeight deltas y0 vy0 (k + 1)) →
      FallingAt (runGravity deltas n s) i f floor h (fallHeight deltas y0 vy0 n)
        (fallVelocity deltas vy0 n)) ∧
    ((∃ k, k < n ∧ fallHeight deltas y0 vy0 (k + 1) ≤
        floor.positionY + floorThickness / 2 + h / 2) →
      SettledAt (runGravity deltas n s) i f floor h) := by
  induction n with
  | zero =>
    refine ⟨fun _ => hs, ?_⟩
    rintro ⟨k, hk, -⟩
    exact absurd hk (Nat.not_lt_zero k)
  | succ n ih =>
    obtain ⟨ihf, ihs⟩ := ih
    by_cases hall : ∀ k, k < n → floor.positionY + floorThickness / 2 + h / 2 <
        fallHeight deltas y0 vy0 (k + 1)
    · obtain ⟨hset, hfall⟩ := updateGravity_falling (runGravity deltas n s) (deltas n) i f floor h
        _ _ (ihf hall)
      constructor
      · intro hall'
        exact hfall (hall' n (Nat.lt_succ_self n))
      · rintro ⟨k, hk, hle⟩
        rcases Nat.lt_succ_iff_lt_or_eq.1 hk with hk' | hk'
        · exact absurd hle (not_le.2 (hall k hk'))
        · subst hk'
          exact hset hle
    · have hex : ∃ k, k < n ∧ fallHeight deltas y0 vy0 (k + 1) ≤
          floor.positionY + floorThickness / 2 + h / 2 := by
        by_contra hne
        apply hall
        intro k hk
        by_contra hlt
        exact hne ⟨k, hk, not_lt.1 hlt⟩
      constructor
      · intro hall'
        exact absurd (fun k hk => hall' k (Nat.lt_succ_of_lt hk)) hall
      · intro _
        exact updateGravity_settledAt _ _ _ _ _ _ (ihs hex)

end

section
variable {α : Type} [LinearOrderedField α]

theorem frameStep_pos (delta : α) (h : 0 < delta) : 0 < frameStep delta := by
  unfold frameStep
  exact lt_min (by norm_num) h

theorem frameStep_mono (d1 d2 : α) (h : d1 ≤ d2) : frameStep d1 ≤ frameStep d2 := by
  unfold frameStep
  exact min_le_min le_rfl h

/-- A fall from rest with frame deltas of at least `δ` is at least as fast and as deep as the
uniformly accelerated fall with step `frameStep δ`. -/
theorem fall_bounds (deltas : Nat → α) (δ : α) (hδ : 0 < δ) (hdel : ∀ k, δ ≤ deltas k)
    (y0 : α) (n : Nat) :
    fallVelocity deltas 0 n ≤ -9.8 * frameStep δ * n ∧
      fallHeight deltas y0 0 n ≤ y0 - 4.9 * frameStep δ ^ 2 * n * (n + 1) := by
  have hm := frameStep_pos δ hδ
  induction n with
  | zero => simp [fallVelocity, fallHeight]
  | succ n ih =>
    obtain ⟨ihv, ihy⟩ := ih
    have hdt : frameStep δ ≤ frameStep (deltas n) := frameStep_mono _ _ (hdel n)
    have hn : (0 : α) ≤ n := Nat.cast_nonneg n
    have hv : fallVelocity deltas 0 (n + 1) ≤ -9.8 * frameStep δ * ((n : α) + 1) := by
      simp only [fallVelocity, gravity]
      nlinarith
    have hv0 : fallVelocity deltas 0 (n + 1) ≤ 0 := by
      have : -9.8 * frameStep δ * ((n : α) + 1) ≤ 0 := by
        have : 0 ≤ frameStep δ * ((n : α) + 1) := by positivity
        nlinarith
      linarith
    refine ⟨by push_cast; exact hv, ?_⟩
    have h1 : fallVelocity deltas 0 (n + 1) * frameStep (deltas n) ≤
        fallVelocity deltas 0 (n + 1) * frameStep δ := by
      nlinarith
    have h2 : fallVelocity deltas 0 (n + 1) * frameStep δ ≤
        -9.8 * frameStep δ * ((n : α) + 1) * frameStep δ :=
      mul_le_mul_of_nonneg_right hv (le_of_lt hm)
    simp only [fallHeight]
    push_cast
    nlinarith

/-- The trajectory of a fall from rest with a constant frame delta. -/
theorem fall_const (d y0 : α) (n : Nat) :
    fallVelocity (fun _ => d) 0 n = -9.8 * frameStep d * n ∧
      fallHeight (fun _ => d) y0 0 n = y0 - 4.9 * frameStep d ^ 2 * n * (n + 1) := by
  induction n with
  | zero => simp [fallVelocity, fallHeight]
  | succ n ih =>
    obtain ⟨ihv, ihy⟩ := ih
    have hv : fallVelocity (fun _ => d) 0 (n + 1) = -9.8 * frameStep d * ((n : α) + 1) := by
      simp only [fallVelocity, gravity, ihv]
      ring
    refine ⟨by push_cast; exact hv, ?_⟩
    simp only [fallHeight, ihy]
    rw [hv]
    push_cast
    ring

/-- C10: settling converges.  An object that falls from rest from a height `y0` above its
target height `floor top + h / 2`, on a floor that does not move and with no drag in
progress, stands exactly on the target height without a falling entry after `n` frames as
soon as `y0 - target ≤ 4.9 * dt ^ 2 * n * (n + 1)`, where `dt = min 0.033 δ` and `δ > 0` bounds
the frame deltas from below; such an `n` exists. -/
theorem runGravity_settles [Archimedean α] (deltas : Nat → α) (δ : α) (s : Designer α)
    (i : Nat) (f : Int) (floor : Floor α) (h y0 : α) (hs : FallingAt s i f floor h y0 0)
    (habove : floor.positionY + floorThickness / 2 + h / 2 < y0) (hδ : 0 < δ)
    (hdel : ∀ k, δ ≤ deltas k) :
    (∃ N : Nat, y0 - (floor.positionY + floorThickness / 2 + h / 2) ≤
        4.9 * frameStep δ ^ 2 * N * (N + 1)) ∧
      ∀ n : Nat, y0 - (floor.positionY + floorThickness / 2 + h / 2) ≤
          4.9 * frameStep δ ^ 2 * n * (n + 1) →
        SettledAt (runGravity deltas n s) i f floor h := by
  have hm := frameStep_pos δ hδ
  have hc : 0 < 4.9 * frameStep δ ^ 2 := by positivity
  constructor
  · obtain ⟨N, hN⟩ := exists_nat_ge
      ((y0 - (floor.positionY + floorThickness / 2 + h / 2)) / (4.9 * frameStep δ ^ 2))
    refine ⟨N, ?_⟩
    rw [div_le_iff₀ hc] at hN
    have hN0 : (0 : α) ≤ N := Nat.cast_nonneg N
    nlinarith
  · intro n hn
    cases n with
    | zero =>
      simp at hn
      linarith
    | succ k =>
      apply (runGravity_trajectory deltas s i f floor h y0 0 hs (k + 1)).2
      refine ⟨k, Nat.lt_succ_self k, ?_⟩
      have := (fall_bounds deltas δ hδ hdel y0 (k + 1)).2
      linarith

end

/-- An object 0.01 above its target height that falls with velocity -1 is put exactly on the
target height 0.65 by the next frame and loses its falling entry. -/
theorem updateGravity_no_overshoot_witness :
    ∃ o', findObject (updateGravity (almostSettledDesigner : Designer ℚ) 0.033) 0 = some o' ∧
      o'.position.y = 0.65 ∧
      dropsOf (updateGravity (almostSettledDesigner : Designer ℚ) 0.033) 0 = [] := by
  have hu : UniqueIds (almostSettledDesigner : Designer ℚ) := by
    simp [UniqueIds, almostSettledDesigner, oneObjectDesigner, freshDesigner]
  have ht : targetHeight ({ positionY := 0 } : Floor ℚ) (furnitureAt 0 0 0 (0.66 : ℚ) 0) = 0.65 := by
    simp [targetHeight, furnitureAt, floorThickness]
    norm_num
  obtain ⟨o', h1, -, hset, -⟩ := updateGravity_no_overshoot (almostSettledDesigner : Designer ℚ)
    0.033 0 (furnitureAt 0 0 0 (0.66 : ℚ) 0) { obj := 0, vy := -1 } 0 { positionY := 0 } hu rfl
    rfl rfl rfl (by rw [ht]; norm_num [furnitureAt])
  rw [ht] at hset
  obtain ⟨h2, h3⟩ := hset rfl (by norm_num [furnitureAt, gravity, frameStep])
  exact ⟨o', h1, h2, h3⟩

/-- A freshly placed cylinder (spawned at height 3.275, two units above its target height
1.275, velocity 0) ticked with a frame delta of 0.033 stands exactly on its target height after
19 frames and is still falling after each smaller number of frames. -/
theorem runGravity_settles_witness :
    SettledAt (runGravity (fun _ => (0.033 : ℚ)) 19 placedDesigner) 0 0 { positionY := 0 }
        2.25 ∧
      ∀ n, n < 19 →
        ¬ SettledAt (runGravity (fun _ => (0.033 : ℚ)) n placedDesigner) 0 0 { positionY := 0 }
          2.25 := by
  have hstep : frameStep (0.033 : ℚ) = 0.033 := by simp [frameStep]
  constructor
  · refine (runGravity_settles (fun _ => (0.033 : ℚ)) 0.033 placedDesigner 0 0 { positionY := 0 }
      2.25 3.275 placedDesigner_falling (by norm_num [floorThickness]) (by norm_num)
      (fun _ => le_rfl)).2 19 ?_
    rw [hstep]
    norm_num [floorThickness]
  · intro n hn hset
    have hfall := (runGravity_trajectory (fun _ => (0.033 : ℚ)) placedDesigner 0 0
      { positionY := 0 } 2.25 3.275 0 placedDesigner_falling n).1 (by
        intro k hk
        rw [(fall_const (0.033 : ℚ) 3.275 (k + 1)).2, hstep]
        have hk18 : k + 1 ≤ 18 := by omega
        have h1 : ((k + 1 : ℕ) : ℚ) ≤ 18 := by exact_mod_cast hk18
        have h0 : (0 : ℚ) ≤ ((k + 1 : ℕ) : ℚ) := Nat.cast_nonneg _
        norm_num [floorThickness]
        push_cast at h1 h0
        nlinarith)
    have h1 := hfall.2
    have h2 := hset.2
    rw [h2] at h1
    exact absurd h1 (by simp)

/-- A freshly placed bed is only 1.4 above its target height 1.25, because the attachment
points raise its bounding box from 1 to 2.2 after the spawn height 2.65 was computed: ticked
with a frame delta of 0.033 it stands exactly on its target height after 16 frames and is still
falling after each smaller number of frames. -/
theorem placedBedDesigner_settles :
    SettledAt (runGravity (fun _ => (0.033 : ℚ)) 16 placedBedDesigner) 0 0 { positionY := 0 }
        2.2 ∧
      ∀ n, n < 16 →
        ¬ SettledAt (runGravity (fun _ => (0.033 : ℚ)) n placedBedDesigner) 0 0
          { positionY := 0 } 2.2 := by
  have hstep : frameStep (0.033 : ℚ) = 0.033 := by simp [frameStep]
  constructor
  · refine (runGravity_trajectory (fun _ => (0.033 : ℚ)) placedBedDesigner 0 0
      { positionY := 0 } 2.2 2.65 0 placedBedDesigner_falling 16).2 ⟨15, by norm_num, ?_⟩
    rw [(fall_const (0.033 : ℚ) 2.65 (15 + 1)).2, hstep]
    norm_num [floorThickness]
  · intro n hn hset
    have hfall := (runGravity_trajectory (fun _ => (0.033 : ℚ)) placedBedDesigner 0 0
      { positionY := 0 } 2.2 2.65 0 placedBedDesigner_falling n).1 (by
        intro k hk
        rw [(fall_const (0.033 : ℚ) 2.65 (k + 1)).2, hstep]
        have hk15 : k + 1 ≤ 15 := by omega
        have h1 : ((k + 1 : ℕ) : ℚ) ≤ 15 := by exact_mod_cast hk15
        have h0 : (0 : ℚ) ≤ ((k + 1 : ℕ) : ℚ) := Nat.cast_nonneg _
        norm_num [floorThickness]
        push_cast at h1 h0
        nlinarith)
    have h1 := hfall.2
    have h2 := hset.2
    rw [h2] at h1
    exact absurd h1 (by simp)

/-! ## Drag release -/

section
variable {α : Type}

theorem filter_map_of_fix (l : List (Object3D α)) (f : Object3D α → Object3D α)
    (P : Object3D α → Bool) (h1 : ∀ c, P (f c) = P c) (h2 : ∀ c, P c = true → f c = c) :
    (l.map f).filter P = l.filter P := by
  induction l with
  | nil => rfl
  | cons a l ih =>
    simp only [List.map_cons, List.filter_cons, h1, ih]
    cases h : P a
    · simp
    · simp [h2 a h]

theorem filter_map_comm (l : List (Object3D α)) (f : Object3D α → Object3D α)
    (P : Object3D α → Bool) (h1 : ∀ c, P (f c) = P c) :
    (l.map f).filter P = (l.filter P).map f := by
  induction l with
  | nil => rfl
  | cons a l ih =>
    simp only [List.map_cons, List.filter_cons, h1, ih]
    cases h : P a <;> simp

theorem findObject_of_child (s : Designer α) (sel : Nat) (o : Object3D α)
    (hin : s.children.find? (fun c => decide (c.id = sel)) = some o) :
    findObject s sel = some o := by
  unfold findObject
  rw [List.find?_append, hin]
  rfl

theorem reparentSelected_of_child (s : Designer α) (sel : Nat) (o selected : Object3D α)
    (hin : s.children.find? (fun c => decide (c.id = sel)) = some o) :
    reparentSelected s sel selected = s := by
  unfold reparentSelected
  have : s.children.any (fun o => decide (o.id = sel)) = true := by
    rw [List.any_eq_true]
    have hp := List.find?_some hin
    exact ⟨o, List.mem_of_find?_eq_some hin, hp⟩
  simp [this]

theorem find?_removeDuplicatesOf (l : List (Object3D α)) (sel : Nat)
    (key : Option FurnitureKey) :
    (l.filter (fun obj => !isDuplicateOf sel key obj)).find? (fun c => decide (c.id = sel)) =
      l.find? (fun c => decide (c.id = sel)) := by
  rw [List.find?_filter]
  congr 1
  funext a
  by_cases h : a.id = sel <;> simp [isDuplicateOf, h]

end

section

theorem validateAndFixDragPosition_of_child (t : Designer ℝ) (sel : Nat) (c : Object3D ℝ)
    (floor : Floor ℝ) (hin : t.children.find? (fun c => decide (c.id = sel)) = some c)
    (hfloor : floorAt t.floors (lockedFloorOr c 0) = some floor) :
    validateAndFixDragPosition t sel =
      updateObject t sel (setPosition
        (((getObjectsOnFloor t (lockedFloorOr c 0)).filter
          (fun otherObj => decide (otherObj.id ≠ sel))).foldl fixCollision
          (fixBounds (t.currentRadius * 0.8) c.position))) := by
  unfold validateAndFixDragPosition
  rw [findObject_of_child t sel c hin]
  simp only [hfloor]

theorem setStableObjectPosition_of_child {α : Type} [LinearOrderedField α] (t : Designer α)
    (sel : Nat) (c : Object3D α) (floor : Floor α)
    (hin : t.children.find? (fun c => decide (c.id = sel)) = some c)
    (hfloor : floorAt t.floors (lockedFloorOr c 0) = some floor) :
    setStableObjectPosition t sel =
      { updateObject t sel (stabilized floor) with stableTimers := t.stableTimers ++ [sel] } := by
  unfold setStableObjectPosition
  rw [findObject_of_child t sel c hin]
  simp only [hfloor]

theorem updateObject_children_find {α : Type} (t : Designer α) (sel : Nat)
    (f : Object3D α → Object3D α) (hf : ∀ o, (f o).id = o.id) :
    (updateObject t sel f).children.find? (fun c => decide (c.id = sel)) =
      (t.children.find? (fun c => decide (c.id = sel))).map f :=
  find?_map_update_same t.children sel f hf

/-- The neighbours that the collision loop of a release visits. -/
theorem release_neighbours (t : Designer ℝ) (sel : Nat) (o : Object3D ℝ) :
    (getObjectsOnFloor (removeDuplicatesOf (updateObject t sel setVisible) sel
        o.userData.furnitureKey) (lockedFloorOr o 0)).filter
      (fun otherObj => decide (otherObj.id ≠ sel)) = dragNeighbours t sel o := by
  unfold getObjectsOnFloor removeDuplicatesOf updateObject dragNeighbours
  simp only [List.filter_filter]
  rw [filter_map_of_fix]
  · apply List.filter_congr
    intro c _
    cases decide (c.id ≠ sel) <;> cases decide (lockedFloorOr c (-1) = lockedFloorOr o 0) <;>
      cases isDuplicateOf sel o.userData.furnitureKey c <;> rfl
  · intro c
    by_cases h : c.id = sel <;> simp [h, isDuplicateOf, lockedFloorOr, setVisible]
  · intro c hc
    have : c.id ≠ sel := by
      simp only [Bool.and_eq_true, decide_eq_true_eq] at hc
      exact hc.1
    simp [this]

/-- The block of `endDrag` for a selected object `o` that is a child of `floorObjectsGroup`
and whose floor exists: the children that duplicate its key are removed, and `o` is moved
to its release point, snapped if snapping is on, and put on its floor. -/
theorem releaseSelected_of_child (t : Designer ℝ) (sel : Nat) (o : Object3D ℝ)
    (floor : Floor ℝ) (hin : t.children.find? (fun c => decide (c.id = sel)) = some o)
    (hfloor : floorAt t.floors (lockedFloorOr o 0) = some floor) :
    (releaseSelected t sel o).children =
        (t.children.filter (fun c => !isDuplicateOf sel o.userData.furnitureKey c)).map
          (fun c => if c.id = sel then releaseAt t.snapEnabled floor (releasePoint t sel o) c
            else c) ∧
      (releaseSelected t sel o).floors = t.floors ∧
      (releaseSelected t sel o).currentRadius = t.currentRadius ∧
      (releaseSelected t sel o).isDragging = t.isDragging := by
  have hin3 : (updateObject t sel setVisible).children.find? (fun c => decide (c.id = sel)) =
      some (setVisible o) := by
    rw [updateObject_children_find t sel setVisible (fun _ => rfl), hin]; rfl
  have hin4 : (removeDuplicatesOf (updateObject t sel setVisible) sel
      o.userData.furnitureKey).children.find? (fun c => decide (c.id = sel)) =
      some (setVisible o) := by
    unfold removeDuplicatesOf
    simp only
    rw [find?_removeDuplicatesOf]
    exact hin3
  have hfix := validateAndFixDragPosition_of_child (removeDuplicatesOf
    (updateObject t sel setVisible) sel o.userData.furnitureKey) sel (setVisible o) floor hin4
    hfloor
  have hlf : lockedFloorOr (setVisible o) 0 = lockedFloorOr o 0 := rfl
  have hr4 : (removeDuplicatesOf (updateObject t sel setVisible) sel
      o.userData.furnitureKey).currentRadius = t.currentRadius := rfl
  have hpos : (setVisible o).position = o.position := rfl
  rw [hlf, release_neighbours, hr4, hpos] at hfix
  have hfix' : validateAndFixDragPosition (removeDuplicatesOf
      (updateObject t sel setVisible) sel o.userData.furnitureKey) sel =
      updateObject (removeDuplicatesOf (updateObject t sel setVisible) sel
        o.userData.furnitureKey) sel (setPosition (releasePoint t sel o)) := hfix
  have hin5 : (updateObject (removeDuplicatesOf (updateObject t sel setVisible) sel
      o.userData.furnitureKey) sel (setPosition (releasePoint t sel o))).children.find?
      (fun c => decide (c.id = sel)) = some (setPosition (releasePoint t sel o) (setVisible o)) := by
    rw [updateObject_children_find _ sel (setPosition (releasePoint t sel o)) (fun _ => rfl),
      hin4]
    rfl
  have hcomm : (t.children.map (fun c => if c.id = sel then setVisible c else c)).filter
      (fun c => !isDuplicateOf sel o.userData.furnitureKey c) =
      (t.children.filter (fun c => !isDuplicateOf sel o.userData.furnitureKey c)).map
        (fun c => if c.id = sel then setVisible c else c) := by
    apply filter_map_comm
    intro c
    by_cases h : c.id = sel <;> simp [h, isDuplicateOf, setVisible]
  unfold releaseSelected
  simp only
  rw [reparentSelected_of_child t sel o o hin, hfix']
  have hsn : (updateObject (removeDuplicatesOf (updateObject t sel setVisible) sel
      o.userData.furnitureKey) sel (setPosition (releasePoint t sel o))).snapEnabled =
      t.snapEnabled := rfl
  rw [hsn]
  cases hsnap : t.snapEnabled
  · simp only [Bool.false_eq_true, if_false]
    rw [setStableObjectPosition_of_child _ sel _ floor hin5 hfloor]
    refine ⟨?_, rfl, rfl, rfl⟩
    simp only [updateObject, removeDuplicatesOf]
    rw [hcomm]
    simp only [List.map_map]
    apply List.map_congr_left
    intro c _
    by_cases h : c.id = sel
    · simp [h, releaseAt, setPosition, setVisible]
    · simp [h]
  · simp only [if_true]
    have hin6 : (updateObject (updateObject (removeDuplicatesOf (updateObject t sel setVisible) sel
        o.userData.furnitureKey) sel (setPosition (releasePoint t sel o))) sel
        snapToGrid).children.find? (fun c => decide (c.id = sel)) =
        some (snapToGrid (setPosition (releasePoint t sel o) (setVisible o))) := by
      rw [updateObject_children_find _ sel snapToGrid (fun _ => rfl), hin5]
      rfl
    rw [setStableObjectPosition_of_child _ sel _ floor hin6 hfloor]
    refine ⟨?_, rfl, rfl, rfl⟩
    simp only [updateObject, removeDuplicatesOf]
    rw [hcomm]
    simp only [List.map_map]
    apply List.map_congr_left
    intro c _
    by_cases h : c.id = sel
    · simp [h, releaseAt, setPosition, setVisible, snapToGrid]
    · simp [h]

end

section

/-- The state after `endDrag` when the dragged object `o` is a child of `floorObjectsGroup`
and its floor exists. -/
theorem endDrag_of_child (s : Designer ℝ) (sel : Nat) (o : Object3D ℝ) (floor : Floor ℝ)
    (hd : s.isDragging = true) (hsel : s.selectedObject = some sel)
    (hin : s.children.find? (fun c => decide (c.id = sel)) = some o)
    (hfloor : floorAt s.floors (lockedFloorOr o 0) = some floor) :
    (endDrag s).children =
        (s.children.filter (fun c => !isDuplicateOf sel o.userData.furnitureKey c)).map
          (fun c => if c.id = sel then releaseAt s.snapEnabled floor (releasePoint s sel o) c
            else c) ∧
      findObject (endDrag s) sel =
        some (releaseAt s.snapEnabled floor (releasePoint s sel o) o) ∧
      (endDrag s).isDragging = false ∧ (endDrag s).selectedObject = none ∧
      (endDrag s).floors = s.floors ∧ (endDrag s).currentRadius = s.currentRadius := by
  have hin1 : ({ s with isDragging := false } : Designer ℝ).children.find?
      (fun c => decide (c.id = sel)) = some o := hin
  have hfloor1 : floorAt ({ s with isDragging := false } : Designer ℝ).floors
      (lockedFloorOr o 0) = some floor := hfloor
  obtain ⟨hch, hfl, hrad, hdr⟩ := releaseSelected_of_child _ sel o floor hin1 hfloor1
  have hfind1 := findObject_of_child s sel o hin
  have hE : endDrag s =
      { releaseSelected ({ s with isDragging := false } : Designer ℝ) sel o with
        selectedObject := none } := by
    unfold endDrag
    simp only [hd, Bool.not_true, Bool.false_eq_true, if_false, hsel, hfind1]
  have hchildren : (endDrag s).children =
      (s.children.filter (fun c => !isDuplicateOf sel o.userData.furnitureKey c)).map
        (fun c => if c.id = sel then releaseAt s.snapEnabled floor (releasePoint s sel o) c
          else c) := by
    rw [hE]; exact hch
  refine ⟨hchildren, ?_, by rw [hE]; exact hdr, by rw [hE], by rw [hE]; exact hfl,
    by rw [hE]; exact hrad⟩
  · apply findObject_of_child
    rw [hchildren, List.find?_map]
    have hp : ((fun c : Object3D ℝ => decide (c.id = sel)) ∘
        fun c => if c.id = sel then releaseAt s.snapEnabled floor (releasePoint s sel o) c
          else c) = (fun c => decide (c.id = sel)) := by
      funext c
      by_cases h : c.id = sel
      · simp [h, releaseAt, stabilized]
        split_ifs <;> simp [snapToGrid, setPosition, setVisible, h]
      · simp [h]
    rw [hp, find?_removeDuplicatesOf, hin]
    have hid : o.id = sel := by
      have := List.find?_some hin
      simpa using this
    simp [hid]

end

section

theorem abs_mk_eq_sqrt (x z : ℝ) : Complex.abs ⟨x, z⟩ = Real.sqrt (x * x + z * z) := by
  rw [Complex.abs_apply, Complex.normSq_mk]

/-- `Math.cos(Math.atan2(z, x))` and `Math.sin(Math.atan2(z, x))` away from the origin. -/
theorem cos_sin_atan2 (x z : ℝ) (h : 0 < Real.sqrt (x * x + z * z)) :
    Real.cos (atan2 z x) = x / Real.sqrt (x * x + z * z) ∧
      Real.sin (atan2 z x) = z / Real.sqrt (x * x + z * z) := by
  unfold atan2
  have hne : (⟨x, z⟩ : ℂ) ≠ 0 := by
    intro h0
    have : Complex.abs ⟨x, z⟩ = 0 := by rw [h0]; simp
    rw [abs_mk_eq_sqrt] at this
    linarith
  rw [Complex.cos_arg hne, Complex.sin_arg, abs_mk_eq_sqrt]
  exact ⟨rfl, rfl⟩

/-- The bounds step projects a position outside the disc radially onto the circle. -/
theorem fixBounds_outside (radius : ℝ) (p : Vector3 ℝ) (hr : 0 ≤ radius)
    (hout : radius < Real.sqrt (p.x * p.x + p.z * p.z)) :
    fixBounds radius p =
      { x := p.x / Real.sqrt (p.x * p.x + p.z * p.z) * radius, y := p.y,
        z := p.z / Real.sqrt (p.x * p.x + p.z * p.z) * radius } := by
  have hpos : 0 < Real.sqrt (p.x * p.x + p.z * p.z) := lt_of_le_of_lt hr hout
  obtain ⟨hc, hs⟩ := cos_sin_atan2 p.x p.z hpos
  unfold fixBounds
  simp only [gt_iff_lt, hout, if_true, hc, hs]

/-- The bounds step leaves a position inside the disc alone. -/
theorem fixBounds_inside (radius : ℝ) (p : Vector3 ℝ)
    (hin : Real.sqrt (p.x * p.x + p.z * p.z) ≤ radius) : fixBounds radius p = p := by
  unfold fixBounds
  simp only [gt_iff_lt, not_lt.2 hin, if_false]

/-- The collision step leaves a position at least `minObjectDistance` from `c` alone. -/
theorem fixCollision_far (p : Vector3 ℝ) (c : Object3D ℝ)
    (h : minObjectDistance ≤ horizontalDistance p c.position) : fixCollision p c = p := by
  unfold fixCollision
  unfold horizontalDistance at h
  simp only [pow2, ← sq, not_lt.2 h, if_false]

theorem foldl_fixCollision_far (l : List (Object3D ℝ)) (p : Vector3 ℝ)
    (h : ∀ c ∈ l, minObjectDistance ≤ horizontalDistance p c.position) :
    l.foldl fixCollision p = p := by
  induction l with
  | nil => rfl
  | cons a l ih =>
    rw [List.foldl_cons, fixCollision_far p a (h a (List.mem_cons_self _ _))]
    exact ih (fun c hc => h c (List.mem_cons_of_mem _ hc))

theorem dragNeighbours_subset (s : Designer ℝ) (sel : Nat) (o c : Object3D ℝ)
    (hc : c ∈ dragNeighbours s sel o) :
    c ∈ getObjectsOnFloor s (lockedFloorOr o 0) ∧ c.id ≠ sel := by
  unfold dragNeighbours at hc
  unfold getObjectsOnFloor
  simp only [List.mem_filter, Bool.and_eq_true, decide_eq_true_eq] at hc ⊢
  exact ⟨⟨hc.1, hc.2.1.1⟩, hc.2.1.2⟩

/-- C7 (as amended): with snapping disabled, an object released at a horizontal position `p`
outside the allowed disc (`|p| > 0.8 * radius`, `radius ≥ 0`), with every other object locked
to its floor at least `minObjectDistance` away from the projected point, ends at
`0.8 * radius * p / |p|`: at distance exactly `0.8 * radius` from the center, in the direction
of `p`. -/
theorem endDrag_projects_onto_circle (s : Designer ℝ) (sel : Nat) (o : Object3D ℝ)
    (floor : Floor ℝ) (hd : s.isDragging = true) (hsel : s.selectedObject = some sel)
    (hin : s.children.find? (fun c => decide (c.id = sel)) = some o)
    (hfloor : floorAt s.floors (lockedFloorOr o 0) = some floor)
    (hsnap : s.snapEnabled = false) (hr : 0 ≤ s.currentRadius)
    (hout : 0.8 * s.currentRadius < distanceFromCenter o.position)
    (hfar : ∀ c ∈ getObjectsOnFloor s (lockedFloorOr o 0), c.id ≠ sel →
      minObjectDistance ≤ horizontalDistance
        { x := 0.8 * s.currentRadius * (o.position.x / distanceFromCenter o.position),
          y := o.position.y,
          z := 0.8 * s.currentRadius * (o.position.z / distanceFromCenter o.position) }
        c.position) :
    ∃ o', findObject (endDrag s) sel = some o' ∧
      o'.position.x = 0.8 * s.currentRadius * (o.position.x / distanceFromCenter o.position) ∧
      o'.position.z = 0.8 * s.currentRadius * (o.position.z / distanceFromCenter o.position) ∧
      distanceFromCenter o'.position = 0.8 * s.currentRadius := by
  obtain ⟨-, hfind, -⟩ := endDrag_of_child s sel o floor hd hsel hin hfloor
  have hdc : distanceFromCenter o.position =
      Real.sqrt (o.position.x * o.position.x + o.position.z * o.position.z) := by
    unfold distanceFromCenter; rw [sq, sq]
  have hR : 0 ≤ s.currentRadius * 0.8 := mul_nonneg hr (by norm_num)
  have hout' : s.currentRadius * 0.8 <
      Real.sqrt (o.position.x * o.position.x + o.position.z * o.position.z) := by
    rw [← hdc, mul_comm]; exact hout
  have hpos : 0 < distanceFromCenter o.position := by rw [hdc]; exact lt_of_le_of_lt hR hout'
  have hb : fixBounds (s.currentRadius * 0.8) o.position =
      { x := 0.8 * s.currentRadius * (o.position.x / distanceFromCenter o.position),
        y := o.position.y,
        z := 0.8 * s.currentRadius * (o.position.z / distanceFromCenter o.position) } := by
    rw [fixBounds_outside _ _ hR hout', ← hdc]
    congr 1 <;> ring
  have hpoint : releasePoint s sel o =
      { x := 0.8 * s.currentRadius * (o.position.x / distanceFromCenter o.position),
        y := o.position.y,
        z := 0.8 * s.currentRadius * (o.position.z / distanceFromCenter o.position) } := by
    unfold releasePoint
    rw [hb]
    apply foldl_fixCollision_far
    intro c hc
    obtain ⟨h1, h2⟩ := dragNeighbours_subset s sel o c hc
    exact hfar c h1 h2
  refine ⟨_, hfind, ?_, ?_, ?_⟩
  · rw [hsnap, hpoint]; rfl
  · rw [hsnap, hpoint]; rfl
  · rw [hsnap, hpoint]
    show Real.sqrt ((0.8 * s.currentRadius * (o.position.x / distanceFromCenter o.position)) ^ 2 +
      (0.8 * s.currentRadius * (o.position.z / distanceFromCenter o.position)) ^ 2) =
      0.8 * s.currentRadius
    have hsq : distanceFromCenter o.position ^ 2 = o.position.x ^ 2 + o.position.z ^ 2 := by
      unfold distanceFromCenter
      rw [Real.sq_sqrt (by positivity)]
    have : (0.8 * s.currentRadius * (o.position.x / distanceFromCenter o.position)) ^ 2 +
        (0.8 * s.currentRadius * (o.position.z / distanceFromCenter o.position)) ^ 2 =
        (0.8 * s.currentRadius) ^ 2 := by
      have hne : distanceFromCenter o.position ≠ 0 := ne_of_gt hpos
      field_simp
      rw [hsq]
      ring
    rw [this, Real.sqrt_sq (by linarith)]

end

section

theorem sqrt_20000_bounds : (141 : ℝ) < Real.sqrt 20000 ∧ Real.sqrt 20000 < 142 := by
  constructor
  · rw [Real.lt_sqrt (by norm_num)]; norm_num
  · rw [Real.sqrt_lt' (by norm_num)]; norm_num

theorem mathRound_diagonal : mathRound (100 / Real.sqrt (100 * 100 + 100 * 100) * (10 * 0.8)) = 6 := by
  obtain ⟨h1, h2⟩ := sqrt_20000_bounds
  have h20 : (100 : ℝ) * 100 + 100 * 100 = 20000 := by norm_num
  have hpos : (0 : ℝ) < Real.sqrt 20000 := by linarith
  unfold mathRound
  rw [h20]
  have : ⌊100 / Real.sqrt 20000 * (10 * 0.8) + 0.5⌋ = 6 := by
    rw [Int.floor_eq_iff]
    have e : 100 / Real.sqrt 20000 * (10 * 0.8) = 800 / Real.sqrt 20000 := by ring
    rw [e]
    constructor
    · have : (5.5 : ℝ) ≤ 800 / Real.sqrt 20000 := by
        rw [le_div_iff₀ hpos]; linarith
      push_cast; linarith
    · have : 800 / Real.sqrt 20000 < (6.5 : ℝ) := by
        rw [div_lt_iff₀ hpos]; linarith
      push_cast; linarith
  rw [this]
  norm_num

/-- Released at `(100, 100)` on a floor of radius 10 with snapping off, the object ends at
distance exactly 8 from the center, on the diagonal. -/
theorem endDrag_projects_onto_circle_witness :
    ∃ o', findObject (endDrag (releasingDesigner false (100 : ℝ) 100)) 0 = some o' ∧
      distanceFromCenter o'.position = 8 ∧ o'.position.x = o'.position.z ∧
      0 < o'.position.x := by
  have hdist : distanceFromCenter (furnitureAt 0 0 (100 : ℝ) 0.65 100).position =
      Real.sqrt 20000 := by
    unfold distanceFromCenter furnitureAt
    norm_num
  obtain ⟨h1, h2⟩ := sqrt_20000_bounds
  obtain ⟨o', hfind, hx, hz, hdc⟩ := endDrag_projects_onto_circle
    (releasingDesigner false (100 : ℝ) 100) 0 (furnitureAt 0 0 (100 : ℝ) 0.65 100)
    { positionY := 0 } rfl rfl rfl rfl rfl
    (by show (0 : ℝ) ≤ 10; norm_num)
    (by
      rw [hdist]
      show (0.8 : ℝ) * 10 < Real.sqrt 20000
      linarith)
    (by
      intro c hc hne
      exfalso
      apply hne
      have : c = furnitureAt 0 0 (100 : ℝ) 0.65 100 := by
        simpa [getObjectsOnFloor, releasingDesigner, freshDesigner, lockedFloorOr, furnitureAt]
          using hc
      rw [this]; rfl)
  have hrad : (releasingDesigner false (100 : ℝ) 100).currentRadius = 10 := rfl
  rw [hrad] at hx hz hdc
  refine ⟨o', hfind, by rw [hdc]; norm_num, ?_, ?_⟩
  · rw [hx, hz]; rfl
  · rw [hx, hdist]
    show (0 : ℝ) < 0.8 * 10 * (100 / Real.sqrt 20000)
    have : (0 : ℝ) < Real.sqrt 20000 := by linarith
    positivity

/-- C7 (counterexample): with snapping on (the default), an object released at `(100, 100)`
on a floor of radius 10 with no other object ends at `(6, 6)`, whose distance from the center
is not `0.8 * 10`. -/
theorem endDrag_snap_misses_circle :
    (findObject (endDrag (releasingDesigner true (100 : ℝ) 100)) 0).map (fun o => o.position) =
        some { x := 6, y := 0.65, z := 6 } ∧
      distanceFromCenter { x := 6, y := 0.65, z := 6 } ≠
        0.8 * (releasingDesigner true (100 : ℝ) 100).currentRadius := by
  constructor
  · obtain ⟨-, hfind, -⟩ := endDrag_of_child (releasingDesigner true (100 : ℝ) 100) 0
      (furnitureAt 0 0 (100 : ℝ) 0.65 100) { positionY := 0 } rfl rfl rfl rfl
    rw [hfind]
    have hnb : dragNeighbours (releasingDesigner true (100 : ℝ) 100) 0
        (furnitureAt 0 0 (100 : ℝ) 0.65 100) = [] := by
      simp [dragNeighbours, releasingDesigner, freshDesigner, furnitureAt]
    obtain ⟨h1, h2⟩ := sqrt_20000_bounds
    have hb : fixBounds (10 * 0.8) (furnitureAt 0 0 (100 : ℝ) 0.65 100).position =
        { x := 100 / Real.sqrt (100 * 100 + 100 * 100) * (10 * 0.8), y := 0.65,
          z := 100 / Real.sqrt (100 * 100 + 100 * 100) * (10 * 0.8) } := by
      apply fixBounds_outside _ _ (by norm_num)
      show (10 : ℝ) * 0.8 < Real.sqrt (100 * 100 + 100 * 100)
      have h20 : (100 : ℝ) * 100 + 100 * 100 = 20000 := by norm_num
      rw [h20]; linarith
    have hpoint : releasePoint (releasingDesigner true (100 : ℝ) 100) 0
        (furnitureAt 0 0 (100 : ℝ) 0.65 100) =
        { x := 100 / Real.sqrt (100 * 100 + 100 * 100) * (10 * 0.8), y := 0.65,
          z := 100 / Real.sqrt (100 * 100 + 100 * 100) * (10 * 0.8) } := by
      unfold releasePoint
      rw [hnb]
      exact hb
    rw [hpoint]
    have hsn : (releasingDesigner true (100 : ℝ) 100).snapEnabled = true := rfl
    rw [hsn]
    simp only [Option.map_some', releaseAt, if_true, stabilized, snapToGrid, setPosition,
      setVisible, mathRound_diagonal, furnitureAt, floorThickness]
    norm_num
  · have hrad : (releasingDesigner true (100 : ℝ) 100).currentRadius = 10 := rfl
    rw [hrad]
    apply ne_of_gt
    unfold distanceFromCenter
    rw [Real.lt_sqrt (by norm_num)]
    norm_num

end

section

theorem mathRound_eq (v : ℝ) (n : ℤ) (h1 : (n : ℝ) ≤ v + 0.5) (h2 : v + 0.5 < n + 1) :
    mathRound v = n := by
  unfold mathRound
  rw [Int.floor_eq_iff.2 ⟨h1, h2⟩]

/-- The collision step for a neighbour closer than `minObjectDistance` (and not at the same
horizontal position): the object is put at distance `minObjectDistance` from the neighbour, in
the direction it was in. -/
theorem fixCollision_near (p : Vector3 ℝ) (c : Object3D ℝ)
    (hpos : 0 < horizontalDistance p c.position)
    (hnear : horizontalDistance p c.position < minObjectDistance) :
    fixCollision p c =
      { x := c.position.x +
          (p.x - c.position.x) / horizontalDistance p c.position * minObjectDistance,
        y := p.y,
        z := c.position.z +
          (p.z - c.position.z) / horizontalDistance p c.position * minObjectDistance } := by
  have hd : horizontalDistance p c.position =
      Real.sqrt ((p.x - c.position.x) * (p.x - c.position.x) +
        (p.z - c.position.z) * (p.z - c.position.z)) := by
    unfold horizontalDistance; rw [sq, sq]
  rw [hd] at hpos hnear
  obtain ⟨hc, hs⟩ := cos_sin_atan2 (p.x - c.position.x) (p.z - c.position.z) hpos
  unfold fixCollision
  simp only [pow2, hnear, if_true, hc, hs, hd]

/-- C6 (failing input, snapping): released inside the allowed disc at `(7.6, 2.4)` on a floor
of radius 10 with snapping on, the object is snapped to `(8, 2)`, which lies outside the disc
of radius `0.8 * 10`. -/
theorem endDrag_snap_leaves_disc :
    distanceFromCenter ({ x := 7.6, y := 0.65, z := 2.4 } : Vector3 ℝ) ≤ 0.8 * 10 ∧
      (findObject (endDrag (releasingDesigner true (7.6 : ℝ) 2.4)) 0).map (fun o => o.position) =
        some { x := 8, y := 0.65, z := 2 } ∧
      0.8 * (releasingDesigner true (7.6 : ℝ) 2.4).currentRadius <
        distanceFromCenter { x := 8, y := 0.65, z := 2 } := by
  have hin : distanceFromCenter ({ x := 7.6, y := 0.65, z := 2.4 } : Vector3 ℝ) ≤ 0.8 * 10 := by
    unfold distanceFromCenter
    rw [Real.sqrt_le_left (by norm_num)]
    norm_num
  refine ⟨hin, ?_, ?_⟩
  · obtain ⟨-, hfind, -⟩ := endDrag_of_child (releasingDesigner true (7.6 : ℝ) 2.4) 0
      (furnitureAt 0 0 (7.6 : ℝ) 0.65 2.4) { positionY := 0 } rfl rfl rfl rfl
    rw [hfind]
    have hnb : dragNeighbours (releasingDesigner true (7.6 : ℝ) 2.4) 0
        (furnitureAt 0 0 (7.6 : ℝ) 0.65 2.4) = [] := by
      simp [dragNeighbours, releasingDesigner, freshDesigner, furnitureAt]
    have hb : fixBounds (10 * 0.8) (furnitureAt 0 0 (7.6 : ℝ) 0.65 2.4).position =
        (furnitureAt 0 0 (7.6 : ℝ) 0.65 2.4).position := by
      apply fixBounds_inside
      have := hin
      unfold distanceFromCenter at this
      simp only [sq] at this
      show Real.sqrt (7.6 * 7.6 + 2.4 * 2.4) ≤ 10 * 0.8
      linarith
    have hpoint : releasePoint (releasingDesigner true (7.6 : ℝ) 2.4) 0
        (furnitureAt 0 0 (7.6 : ℝ) 0.65 2.4) = { x := 7.6, y := 0.65, z := 2.4 } := by
      unfold releasePoint
      rw [hnb]
      exact hb
    rw [hpoint]
    have hsn : (releasingDesigner true (7.6 : ℝ) 2.4).snapEnabled = true := rfl
    have r1 : mathRound 7.6 = 8 := by
      have := mathRound_eq 7.6 8 (by norm_num) (by norm_num)
      simpa using this
    have r2 : mathRound 2.4 = 2 := by
      have := mathRound_eq 2.4 2 (by norm_num) (by norm_num)
      simpa using this
    rw [hsn]
    simp only [Option.map_some', releaseAt, if_true, stabilized, snapToGrid, setPosition,
      setVisible, r1, r2, furnitureAt, floorThickness]
    norm_num
  · have hrad : (releasingDesigner true (7.6 : ℝ) 2.4).currentRadius = 10 := rfl
    rw [hrad]
    unfold distanceFromCenter
    rw [Real.lt_sqrt (by norm_num)]
    norm_num

end

section

theorem horizontalDistance_same_z (x1 y1 x2 y2 z : ℝ) :
    horizontalDistance { x := x1, y := y1, z := z } { x := x2, y := y2, z := z } = |x1 - x2| := by
  unfold horizontalDistance
  simp only [sub_self]
  norm_num
  exact Real.sqrt_sq_eq_abs _

/-- C6 (failing input, collision push): with snapping off, an object released on the rim of
the allowed disc at `(8, 0)` (radius 10), 0.3 away from a neighbour at `(7.7, 0)`, is pushed to
`(8.2, 0)`, outside the disc of radius `0.8 * 10`. -/
theorem endDrag_push_leaves_disc :
    (findObject (endDrag (crowdedReleasingDesigner false [furnitureAt 0 0 (7.7 : ℝ) 0.65 0]
        8 0)) 9).map (fun o => o.position) = some { x := 8.2, y := 0.65, z := 0 } ∧
      0.8 * (crowdedReleasingDesigner false [furnitureAt 0 0 (7.7 : ℝ) 0.65 0]
        8 0).currentRadius < distanceFromCenter { x := 8.2, y := 0.65, z := 0 } := by
  constructor
  · obtain ⟨-, hfind, -⟩ := endDrag_of_child
      (crowdedReleasingDesigner false [furnitureAt 0 0 (7.7 : ℝ) 0.65 0] 8 0) 9
      (furnitureAt 9 0 (8 : ℝ) 0.65 0) { positionY := 0 } rfl rfl rfl rfl
    rw [hfind]
    have hnb : dragNeighbours (crowdedReleasingDesigner false [furnitureAt 0 0 (7.7 : ℝ) 0.65 0]
        8 0) 9 (furnitureAt 9 0 (8 : ℝ) 0.65 0) = [furnitureAt 0 0 (7.7 : ℝ) 0.65 0] := by
      simp [dragNeighbours, crowdedReleasingDesigner, freshDesigner, furnitureAt, lockedFloorOr,
        isDuplicateOf]
    have hb : fixBounds (10 * 0.8) (furnitureAt 9 0 (8 : ℝ) 0.65 0).position =
        { x := 8, y := 0.65, z := 0 } := by
      apply fixBounds_inside
      show Real.sqrt (8 * 8 + 0 * 0) ≤ 10 * 0.8
      rw [Real.sqrt_le_left (by norm_num)]
      norm_num
    have hd : horizontalDistance ({ x := 8, y := 0.65, z := 0 } : Vector3 ℝ)
        (furnitureAt 0 0 (7.7 : ℝ) 0.65 0).position = 0.3 := by
      show horizontalDistance ({ x := 8, y := 0.65, z := 0 } : Vector3 ℝ)
        { x := 7.7, y := 0.65, z := 0 } = 0.3
      rw [horizontalDistance_same_z]
      norm_num [abs_of_pos]
    have hc : fixCollision ({ x := 8, y := 0.65, z := 0 } : Vector3 ℝ)
        (furnitureAt 0 0 (7.7 : ℝ) 0.65 0) = { x := 8.2, y := 0.65, z := 0 } := by
      rw [fixCollision_near _ _ (by rw [hd]; norm_num) (by rw [hd]; norm_num [minObjectDistance]),
        hd]
      simp only [furnitureAt, minObjectDistance]
      norm_num
    have hpoint : releasePoint (crowdedReleasingDesigner false
        [furnitureAt 0 0 (7.7 : ℝ) 0.65 0] 8 0) 9 (furnitureAt 9 0 (8 : ℝ) 0.65 0) =
        { x := 8.2, y := 0.65, z := 0 } := by
      unfold releasePoint
      rw [hnb]
      show List.foldl fixCollision (fixBounds (10 * 0.8) (furnitureAt 9 0 (8 : ℝ) 0.65 0).position)
        [furnitureAt 0 0 (7.7 : ℝ) 0.65 0] = _
      rw [hb, List.foldl_cons, hc, List.foldl_nil]
    rw [hpoint]
    have hsn : (crowdedReleasingDesigner false [furnitureAt 0 0 (7.7 : ℝ) 0.65 0]
        8 0).snapEnabled = false := rfl
    rw [hsn]
    simp only [Option.map_some', releaseAt, Bool.false_eq_true, if_false, stabilized,
      setPosition, setVisible, furnitureAt, floorThickness]
    norm_num
  · have hrad : (crowdedReleasingDesigner false [furnitureAt 0 0 (7.7 : ℝ) 0.65 0]
        8 0).currentRadius = 10 := rfl
    rw [hrad]
    unfold distanceFromCenter
    rw [Real.lt_sqrt (by norm_num)]
    norm_num

end

section

/-- C5 (failing input, snapping): with snapping on, an object released at `(1.4, 0.4)`, which
is at a legal distance from its neighbour at `(1, 0)`, is snapped to `(1, 0)`: after the
release it stands at horizontal distance 0 from the neighbour, which is still locked to the
same floor. -/
theorem endDrag_snap_breaks_separation :
    minObjectDistance ≤ horizontalDistance ({ x := 1.4, y := 0.65, z := 0.4 } : Vector3 ℝ)
        (furnitureAt 0 0 (1 : ℝ) 0.65 0).position ∧
      (findObject (endDrag (crowdedReleasingDesigner true [furnitureAt 0 0 (1 : ℝ) 0.65 0]
        1.4 0.4)) 9).map (fun o => o.position) = some { x := 1, y := 0.65, z := 0 } ∧
      furnitureAt 0 0 (1 : ℝ) 0.65 0 ∈ getObjectsOnFloor
        (endDrag (crowdedReleasingDesigner true [furnitureAt 0 0 (1 : ℝ) 0.65 0] 1.4 0.4)) 0 ∧
      horizontalDistance ({ x := 1, y := 0.65, z := 0 } : Vector3 ℝ)
        (furnitureAt 0 0 (1 : ℝ) 0.65 0).position < minObjectDistance := by
  have hfar : minObjectDistance ≤ horizontalDistance
      ({ x := 1.4, y := 0.65, z := 0.4 } : Vector3 ℝ)
      (furnitureAt 0 0 (1 : ℝ) 0.65 0).position := by
    unfold horizontalDistance minObjectDistance
    rw [Real.le_sqrt' (by norm_num)]
    norm_num [furnitureAt]
  obtain ⟨hch, hfind, -⟩ := endDrag_of_child
    (crowdedReleasingDesigner true [furnitureAt 0 0 (1 : ℝ) 0.65 0] 1.4 0.4) 9
    (furnitureAt 9 0 (1.4 : ℝ) 0.65 0.4) { positionY := 0 } rfl rfl rfl rfl
  refine ⟨hfar, ?_, ?_, ?_⟩
  · rw [hfind]
    have hnb : dragNeighbours (crowdedReleasingDesigner true [furnitureAt 0 0 (1 : ℝ) 0.65 0]
        1.4 0.4) 9 (furnitureAt 9 0 (1.4 : ℝ) 0.65 0.4) = [furnitureAt 0 0 (1 : ℝ) 0.65 0] := by
      simp [dragNeighbours, crowdedReleasingDesigner, freshDesigner, furnitureAt, lockedFloorOr,
        isDuplicateOf]
    have hb : fixBounds (10 * 0.8) (furnitureAt 9 0 (1.4 : ℝ) 0.65 0.4).position =
        { x := 1.4, y := 0.65, z := 0.4 } := by
      apply fixBounds_inside
      show Real.sqrt (1.4 * 1.4 + 0.4 * 0.4) ≤ 10 * 0.8
      rw [Real.sqrt_le_left (by norm_num)]
      norm_num
    have hpoint : releasePoint (crowdedReleasingDesigner true
        [furnitureAt 0 0 (1 : ℝ) 0.65 0] 1.4 0.4) 9 (furnitureAt 9 0 (1.4 : ℝ) 0.65 0.4) =
        { x := 1.4, y := 0.65, z := 0.4 } := by
      unfold releasePoint
      rw [hnb]
      show List.foldl fixCollision
        (fixBounds (10 * 0.8) (furnitureAt 9 0 (1.4 : ℝ) 0.65 0.4).position)
        [furnitureAt 0 0 (1 : ℝ) 0.65 0] = _
      rw [hb, List.foldl_cons, fixCollision_far _ _ hfar, List.foldl_nil]
    rw [hpoint]
    have hsn : (crowdedReleasingDesigner true [furnitureAt 0 0 (1 : ℝ) 0.65 0]
        1.4 0.4).snapEnabled = true := rfl
    have r1 : mathRound 1.4 = 1 := by
      have := mathRound_eq 1.4 1 (by norm_num) (by norm_num)
      simpa using this
    have r2 : mathRound 0.4 = 0 := by
      have := mathRound_eq 0.4 0 (by norm_num) (by norm_num)
      simpa using this
    rw [hsn]
    simp only [Option.map_some', releaseAt, if_true, stabilized, snapToGrid, setPosition,
      setVisible, r1, r2, furnitureAt, floorThickness]
    norm_num
  · unfold getObjectsOnFloor
    rw [hch]
    simp [crowdedReleasingDesigner, freshDesigner, furnitureAt, lockedFloorOr, isDuplicateOf]
  · show horizontalDistance ({ x := 1, y := 0.65, z := 0 } : Vector3 ℝ)
      { x := 1, y := 0.65, z := 0 } < minObjectDistance
    rw [horizontalDistance_same_z]
    norm_num [minObjectDistance]

/-- C5 (failing input, single pass): with snapping off, an object released at `(0.3, 0)`
between neighbours at `(0, 0)` and `(0.9, 0)` is pushed away from the first to `(0.5, 0)` and
then away from the second to `(0.4, 0)`: after the release it stands 0.4 from the first
neighbour, which is still locked to the same floor. -/
theorem endDrag_push_breaks_separation :
    (findObject (endDrag (crowdedReleasingDesigner false
        [furnitureAt 0 0 (0 : ℝ) 0.65 0, furnitureAt 1 0 0.9 0.65 0] 0.3 0)) 9).map
        (fun o => o.position) = some { x := 0.4, y := 0.65, z := 0 } ∧
      furnitureAt 0 0 (0 : ℝ) 0.65 0 ∈ getObjectsOnFloor
        (endDrag (crowdedReleasingDesigner false
          [furnitureAt 0 0 (0 : ℝ) 0.65 0, furnitureAt 1 0 0.9 0.65 0] 0.3 0)) 0 ∧
      horizontalDistance ({ x := 0.4, y := 0.65, z := 0 } : Vector3 ℝ)
        (furnitureAt 0 0 (0 : ℝ) 0.65 0).position < minObjectDistance := by
  obtain ⟨hch, hfind, -⟩ := endDrag_of_child
    (crowdedReleasingDesigner false [furnitureAt 0 0 (0 : ℝ) 0.65 0, furnitureAt 1 0 0.9 0.65 0]
      0.3 0) 9 (furnitureAt 9 0 (0.3 : ℝ) 0.65 0) { positionY := 0 } rfl rfl rfl rfl
  refine ⟨?_, ?_, ?_⟩
  · rw [hfind]
    have hnb : dragNeighbours (crowdedReleasingDesigner false
        [furnitureAt 0 0 (0 : ℝ) 0.65 0, furnitureAt 1 0 0.9 0.65 0] 0.3 0) 9
        (furnitureAt 9 0 (0.3 : ℝ) 0.65 0) =
        [furnitureAt 0 0 (0 : ℝ) 0.65 0, furnitureAt 1 0 0.9 0.65 0] := by
      simp [dragNeighbours, crowdedReleasingDesigner, freshDesigner, furnitureAt, lockedFloorOr,
        isDuplicateOf]
    have hb : fixBounds (10 * 0.8) (furnitureAt 9 0 (0.3 : ℝ) 0.65 0).position =
        { x := 0.3, y := 0.65, z := 0 } := by
      apply fixBounds_inside
      show Real.sqrt (0.3 * 0.3 + 0 * 0) ≤ 10 * 0.8
      rw [Real.sqrt_le_left (by norm_num)]
      norm_num
    have hd1 : horizontalDistance ({ x := 0.3, y := 0.65, z := 0 } : Vector3 ℝ)
        (furnitureAt 0 0 (0 : ℝ) 0.65 0).position = 0.3 := by
      show horizontalDistance ({ x := 0.3, y := 0.65, z := 0 } : Vector3 ℝ)
        { x := 0, y := 0.65, z := 0 } = 0.3
      rw [horizontalDistance_same_z]
      norm_num [abs_of_pos]
    have hc1 : fixCollision ({ x := 0.3, y := 0.65, z := 0 } : Vector3 ℝ)
        (furnitureAt 0 0 (0 : ℝ) 0.65 0) = { x := 0.5, y := 0.65, z := 0 } := by
      rw [fixCollision_near _ _ (by rw [hd1]; norm_num)
        (by rw [hd1]; norm_num [minObjectDistance]), hd1]
      simp only [furnitureAt, minObjectDistance]
      norm_num
    have hd2 : horizontalDistance ({ x := 0.5, y := 0.65, z := 0 } : Vector3 ℝ)
        (furnitureAt 1 0 (0.9 : ℝ) 0.65 0).position = 0.4 := by
      show horizontalDistance ({ x := 0.5, y := 0.65, z := 0 } : Vector3 ℝ)
        { x := 0.9, y := 0.65, z := 0 } = 0.4
      rw [horizontalDistance_same_z]
      norm_num [abs_of_neg]
    have hc2 : fixCollision ({ x := 0.5, y := 0.65, z := 0 } : Vector3 ℝ)
        (furnitureAt 1 0 (0.9 : ℝ) 0.65 0) = { x := 0.4, y := 0.65, z := 0 } := by
      rw [fixCollision_near _ _ (by rw [hd2]; norm_num)
        (by rw [hd2]; norm_num [minObjectDistance]), hd2]
      simp only [furnitureAt, minObjectDistance]
      norm_num
    have hpoint : releasePoint (crowdedReleasingDesigner false
        [furnitureAt 0 0 (0 : ℝ) 0.65 0, furnitureAt 1 0 0.9 0.65 0] 0.3 0) 9
        (furnitureAt 9 0 (0.3 : ℝ) 0.65 0) = { x := 0.4, y := 0.65, z := 0 } := by
      unfold releasePoint
      rw [hnb]
      show List.foldl fixCollision
        (fixBounds (10 * 0.8) (furnitureAt 9 0 (0.3 : ℝ) 0.65 0).position)
        [furnitureAt 0 0 (0 : ℝ) 0.65 0, furnitureAt 1 0 0.9 0.65 0] = _
      rw [hb, List.foldl_cons, hc1, List.foldl_cons, hc2, List.foldl_nil]
    rw [hpoint]
    have hsn : (crowdedReleasingDesigner false
        [furnitureAt 0 0 (0 : ℝ) 0.65 0, furnitureAt 1 0 0.9 0.65 0] 0.3 0).snapEnabled =
        false := rfl
    rw [hsn]
    simp only [Option.map_some', releaseAt, Bool.false_eq_true, if_false, stabilized,
      setPosition, setVisible, furnitureAt, floorThickness]
    norm_num
  · unfold getObjectsOnFloor
    rw [hch]
    simp [crowdedReleasingDesigner, freshDesigner, furnitureAt, lockedFloorOr, isDuplicateOf]
  · show horizontalDistance ({ x := 0.4, y := 0.65, z := 0 } : Vector3 ℝ)
      { x := 0, y := 0.65, z := 0 } < minObjectDistance
    rw [horizontalDistance_same_z]
    norm_num [minObjectDistance, abs_of_pos]

end

section
variable {α : Type}

theorem keepFirst_index (pre l : List (Object3D α)) :
    (List.range l.length).filterMap (fun i =>
      match (pre ++ l)[pre.length + i]? with
      | none => none
      | some o =>
        match o.userData.furnitureKey with
        | none => some o
        | some k => if keyOccursIn k ((pre ++ l).take (pre.length + i)) then none else some o) =
      keepFirstFrom pre l := by
  induction l generalizing pre with
  | nil => rfl
  | cons o rest ih =>
    rw [List.length_cons, List.range_succ_eq_map, List.filterMap_cons, List.filterMap_map]
    have h0 : (pre ++ o :: rest)[pre.length + 0]? = some o := by
      rw [Nat.add_zero, List.getElem?_append_right (Nat.le_refl _), Nat.sub_self]
      exact List.getElem?_cons_zero
    have ht : (pre ++ o :: rest).take (pre.length + 0) = pre := by simp
    have hrest := ih (pre ++ [o])
    have hfun : ((fun i =>
        match (pre ++ o :: rest)[pre.length + i]? with
        | none => none
        | some o_1 =>
          match o_1.userData.furnitureKey with
          | none => some o_1
          | some k =>
            if keyOccursIn k ((pre ++ o :: rest).take (pre.length + i)) then none
            else some o_1) ∘ Nat.succ) =
        (fun i =>
        match ((pre ++ [o]) ++ rest)[(pre ++ [o]).length + i]? with
        | none => none
        | some o_1 =>
          match o_1.userData.furnitureKey with
          | none => some o_1
          | some k =>
            if keyOccursIn k (((pre ++ [o]) ++ rest).take ((pre ++ [o]).length + i)) then none
            else some o_1) := by
      funext i
      have e1 : pre ++ o :: rest = (pre ++ [o]) ++ rest := by simp
      have e2 : pre.length + Nat.succ i = (pre ++ [o]).length + i := by
        simp only [List.length_append, List.length_singleton]; omega
      simp only [Function.comp, e1, e2]
    rw [hfun, hrest]
    simp only [h0, ht, keepFirstFrom]
    cases hk : o.userData.furnitureKey with
    | none => simp
    | some k => by_cases hc : keyOccursIn k pre = true <;> simp [hc]

theorem keepFirstOccurrences_eq (l : List (Object3D α)) :
    keepFirstOccurrences l = keepFirstFrom [] l := by
  have := keepFirst_index ([] : List (Object3D α)) l
  simpa [keepFirstOccurrences] using this

theorem dedupKeep_eq_keepFirstFrom (seen : List FurnitureKey) (pre l : List (Object3D α))
    (hseen : ∀ k, k ∈ seen ↔ keyOccursIn k pre = true) :
    dedupKeep seen l = keepFirstFrom pre l := by
  induction l generalizing seen pre with
  | nil => rfl
  | cons o rest ih =>
    unfold dedupKeep keepFirstFrom
    cases hk : o.userData.furnitureKey with
    | none =>
      simp only
      rw [ih seen (pre ++ [o])]
      · rfl
      · intro k
        rw [hseen k]
        simp [keyOccursIn, hk]
    | some key =>
      simp only
      by_cases hs : key ∈ seen
      · have hc : keyOccursIn key pre = true := (hseen key).1 hs
        simp only [hs, hc, if_true, List.nil_append]
        apply ih
        intro k
        rw [hseen k]
        simp only [keyOccursIn, List.any_append, List.any_cons, List.any_nil, Bool.or_false,
          Bool.or_eq_true, decide_eq_true_eq, hk, Option.some.injEq]
        constructor
        · exact Or.inl
        · rintro (h | h)
          · exact h
          · subst h; exact hc
      · have hc : ¬ keyOccursIn key pre = true := fun h => hs ((hseen key).2 h)
        simp only [hs, hc, if_false, List.singleton_append]
        congr 1
        apply ih
        intro k
        simp only [List.mem_cons, hseen k, keyOccursIn, List.any_append, List.any_cons,
          List.any_nil, Bool.or_false, Bool.or_eq_true, decide_eq_true_eq, hk,
          Option.some.injEq]
        constructor
        · rintro (h | h)
          · exact Or.inr h.symm
          · exact Or.inl h
        · rintro (h | h)
          · exact Or.inr h
          · exact Or.inl h.symm

end

/-! ## The duplicate sweep -/

section
variable {α : Type}

theorem dedupKeep_sublist (seen : List FurnitureKey) (l : List (Object3D α)) :
    (dedupKeep seen l).Sublist l := by
  induction l generalizing seen with
  | nil => exact List.Sublist.refl _
  | cons o rest ih =>
    unfold dedupKeep
    cases hk : o.userData.furnitureKey with
    | none => exact (ih seen).cons₂ o
    | some key =>
      simp only
      split_ifs
      · exact (ih seen).cons o
      · exact (ih (key :: seen)).cons₂ o

theorem dedupKeep_keys (seen : List FurnitureKey) (l : List (Object3D α)) :
    (keysOf (dedupKeep seen l)).Nodup ∧ ∀ k ∈ keysOf (dedupKeep seen l), k ∉ seen := by
  induction l generalizing seen with
  | nil => simp [dedupKeep, keysOf]
  | cons o rest ih =>
    unfold dedupKeep
    cases hk : o.userData.furnitureKey with
    | none =>
      simp only
      have : keysOf (o :: dedupKeep seen rest) = keysOf (dedupKeep seen rest) := by
        simp [keysOf, hk]
      rw [this]
      exact ih seen
    | some key =>
      simp only
      split_ifs with hs
      · exact ih seen
      · have : keysOf (o :: dedupKeep (key :: seen) rest) =
            key :: keysOf (dedupKeep (key :: seen) rest) := by
          simp [keysOf, hk]
        rw [this]
        obtain ⟨h1, h2⟩ := ih (key :: seen)
        refine ⟨List.nodup_cons.2 ⟨fun hmem => h2 key hmem (List.mem_cons_self _ _), h1⟩, ?_⟩
        intro k hkm
        rcases List.mem_cons.1 hkm with h | h
        · subst h; exact hs
        · exact fun hk' => h2 k h (List.mem_cons_of_mem _ hk')

theorem dedupKeep_of_nodup (seen : List FurnitureKey) (l : List (Object3D α))
    (hn : (keysOf l).Nodup) (hd : ∀ k ∈ keysOf l, k ∉ seen) : dedupKeep seen l = l := by
  induction l generalizing seen with
  | nil => rfl
  | cons o rest ih =>
    unfold dedupKeep
    cases hk : o.userData.furnitureKey with
    | none =>
      simp only
      have e : keysOf (o :: rest) = keysOf rest := by simp [keysOf, hk]
      rw [e] at hn hd
      rw [ih seen hn hd]
    | some key =>
      have e : keysOf (o :: rest) = key :: keysOf rest := by simp [keysOf, hk]
      rw [e] at hn hd
      have hs : key ∉ seen := hd key (List.mem_cons_self _ _)
      simp only [hs, if_false]
      rw [List.nodup_cons] at hn
      rw [ih (key :: seen) hn.2]
      intro k hkm hk'
      rcases List.mem_cons.1 hk' with h | h
      · subst h; exact hn.1 hkm
      · exact hd k (List.mem_cons_of_mem _ hkm) h

theorem dedupKeep_keyless (seen : List FurnitureKey) (l : List (Object3D α)) :
    (dedupKeep seen l).filter (fun o => decide (o.userData.furnitureKey = none)) =
      l.filter (fun o => decide (o.userData.furnitureKey = none)) := by
  induction l generalizing seen with
  | nil => rfl
  | cons o rest ih =>
    unfold dedupKeep
    cases hk : o.userData.furnitureKey with
    | none => simp [List.filter_cons, hk, ih seen]
    | some key =>
      simp only
      split_ifs
      · simp [List.filter_cons, hk, ih seen]
      · simp [List.filter_cons, hk, ih (key :: seen)]

/-- C15: the deduplication sweep is "keep the first occurrence of each key".  The children
left by `removeDuplicates` are the children that have no key or whose key does not occur on an
earlier child, in their order; every keyless child stays; no two of the survivors share a key;
a list without duplicate keys is left as it is, so the sweep is idempotent. -/
theorem removeDuplicates_keeps_first (s : Designer α) :
    (removeDuplicates s).children = keepFirstOccurrences s.children ∧
      (removeDuplicates s).children.Sublist s.children ∧
      (removeDuplicates s).children.filter (fun o => decide (o.userData.furnitureKey = none)) =
        s.children.filter (fun o => decide (o.userData.furnitureKey = none)) ∧
      (keysOf (removeDuplicates s).children).Nodup ∧
      ((keysOf s.children).Nodup → (removeDuplicates s).children = s.children) ∧
      (removeDuplicates (removeDuplicates s)).children = (removeDuplicates s).children := by
  have hch : (removeDuplicates s).children = dedupKeep [] s.children := rfl
  have hch2 : (removeDuplicates (removeDuplicates s)).children =
      dedupKeep [] (dedupKeep [] s.children) := rfl
  refine ⟨?_, ?_, ?_, ?_, ?_, ?_⟩
  · rw [hch, keepFirstOccurrences_eq]
    apply dedupKeep_eq_keepFirstFrom
    intro k
    simp [keyOccursIn]
  · rw [hch]; exact dedupKeep_sublist _ _
  · rw [hch]; exact dedupKeep_keyless _ _
  · rw [hch]; exact (dedupKeep_keys _ _).1
  · intro hn
    rw [hch]
    exact dedupKeep_of_nodup [] _ hn (fun _ _ h => absurd h (List.not_mem_nil _))
  · rw [hch2, hch]
    exact dedupKeep_of_nodup [] _ (dedupKeep_keys _ _).1
      (fun _ _ h => absurd h (List.not_mem_nil _))

end

section
variable {α : Type} [LinearOrderedField α]

/-- C14: while a drag is in progress the settle tick is the duplicate sweep and nothing else:
`updateGravity` returns the state left by `removeDuplicates`, so the falling entries (members
and velocities) are as before and the live objects are the same objects with the same
positions; only membership in `floorObjectsGroup` may have changed. -/
theorem updateGravity_dragging (s : Designer α) (delta : α) (hd : s.isDragging = true) :
    updateGravity s delta = removeDuplicates s ∧
      (updateGravity s delta).activeDrops = s.activeDrops ∧
      ((updateGravity s delta).children ++ (updateGravity s delta).detached).Perm
        (s.children ++ s.detached) ∧
      (updateGravity s delta).children.Sublist s.children := by
  have h : updateGravity s delta = removeDuplicates s := by
    have hd0 : (removeDuplicates s).isDragging = true := hd
    unfold updateGravity
    simp only [hd0, if_true]
  rw [h]
  exact ⟨rfl, rfl, removeDuplicates_perm s, dedupKeep_sublist _ _⟩

end

/-- A frame during a drag leaves the falling object of `dragWhileFallingDesigner` and its entry
as they are. -/
theorem updateGravity_dragging_witness :
    updateGravity (dragWhileFallingDesigner : Designer ℚ) 0.033 =
        removeDuplicates dragWhileFallingDesigner ∧
      (updateGravity (dragWhileFallingDesigner : Designer ℚ) 0.033).activeDrops =
        [{ obj := 0, vy := -1 }] ∧
      findObject (updateGravity (dragWhileFallingDesigner : Designer ℚ) 0.033) 0 =
        some (furnitureAt 0 0 0 0.66 0) := by
  obtain ⟨h1, h2, -, -⟩ := updateGravity_dragging (dragWhileFallingDesigner : Designer ℚ) 0.033 rfl
  refine ⟨h1, by rw [h2]; rfl, ?_⟩
  rw [h1]
  rfl

/-! ## The re-stick loop -/

section
variable {α : Type}

theorem setY_self (o : Object3D α) : setY o.position.y o = o := by
  cases o with
  | mk id position rotationY height visible userData =>
    cases position
    rfl

variable [LinearOrderedField α]

theorem nudge_eq_setY (floor : Floor α) (o : Object3D α) :
    nudge floor o = setY (nudgeY (targetHeight floor o) o.position.y) o := by
  unfold nudge nudgeY
  simp only
  split_ifs
  · rfl
  · rfl
  · exact (setY_self o).symm

/-- The step of the re-stick loop on heights: nothing inside the dead band of 0.001, exactly
onto the target when at most 0.052 away, and 0.05 towards the target otherwise. -/
theorem nudgeY_cases (target y : α) :
    (|target - y| ≤ 0.001 → nudgeY target y = y) ∧
      (0.001 < |target - y| → |target - y| ≤ 0.052 → nudgeY target y = target) ∧
      (0.052 < target - y → nudgeY target y = y + 0.05) ∧
      (0.052 < y - target → nudgeY target y = y - 0.05) := by
  unfold nudgeY mathSign
  simp only
  refine ⟨?_, ?_, ?_, ?_⟩
  · intro h
    rw [if_neg (not_lt.2 h)]
  · intro h1 h2
    rw [if_pos h1]
    rcases lt_trichotomy (target - y) 0 with hneg | hzero | hpos
    · have ha : |target - y| = -(target - y) := abs_of_neg hneg
      rw [ha] at h1 h2 ⊢
      rw [if_neg (not_lt.2 (le_of_lt hneg)), if_pos hneg]
      rcases le_total (-(target - y)) 0.05 with hm | hm
      · rw [min_eq_left hm]
        have : target - (y + -1 * -(target - y)) = 0 := by ring
        rw [this, abs_zero, if_pos (by norm_num)]
      · rw [min_eq_right hm]
        have e : target - (y + -1 * 0.05) = -((y - target) - 0.05) := by ring
        have hnn : 0 ≤ (y - target) - 0.05 := by linarith
        rw [e, abs_neg, abs_of_nonneg hnn, if_pos (by linarith)]
    · rw [hzero, abs_zero] at h1
      norm_num at h1
    · have ha : |target - y| = target - y := abs_of_pos hpos
      rw [ha] at h1 h2 ⊢
      rw [if_pos hpos]
      rcases le_total (target - y) 0.05 with hm | hm
      · rw [min_eq_left hm]
        have : target - (y + 1 * (target - y)) = 0 := by ring
        rw [this, abs_zero, if_pos (by norm_num)]
      · rw [min_eq_right hm]
        have e : target - (y + 1 * 0.05) = (target - y) - 0.05 := by ring
        have hnn : 0 ≤ (target - y) - 0.05 := by linarith
        rw [e, abs_of_nonneg hnn, if_pos (by linarith)]
  · intro h
    have hpos : 0 < target - y := by linarith
    have ha : |target - y| = target - y := abs_of_pos hpos
    rw [ha, if_pos (by linarith), if_pos hpos, min_eq_right (by linarith)]
    have e : target - (y + 1 * 0.05) = (target - y) - 0.05 := by ring
    have hnn : 0 ≤ (target - y) - 0.05 := by linarith
    rw [e, abs_of_nonneg hnn, if_neg (by linarith)]
    ring
  · intro h
    have hneg : target - y < 0 := by linarith
    have ha : |target - y| = -(target - y) := abs_of_neg hneg
    rw [ha, if_pos (by linarith), if_neg (not_lt.2 (le_of_lt hneg)), if_pos hneg,
      min_eq_right (by linarith)]
    have e : target - (y + -1 * 0.05) = -((y - target) - 0.05) := by ring
    have hnn : 0 ≤ (y - target) - 0.05 := by linarith
    rw [e, abs_neg, abs_of_nonneg hnn, if_neg (by linarith)]
    ring

/-- The step of the re-stick loop moves towards the target, by at most 0.052, and never past
it. -/
theorem nudgeY_bounds (target y : α) :
    |nudgeY target y - y| ≤ 0.052 ∧ |target - nudgeY target y| ≤ |target - y| ∧
      0 ≤ (nudgeY target y - y) * (target - y) ∧
      0 ≤ (target - nudgeY target y) * (target - y) := by
  obtain ⟨h1, h2, h3, h4⟩ := nudgeY_cases target y
  rcases le_or_lt |target - y| 0.001 with ha | ha
  · rw [h1 ha]
    simp only [sub_self, abs_zero, zero_mul, le_refl, and_true, true_and]
    exact ⟨by norm_num, mul_self_nonneg _⟩
  · rcases le_or_lt |target - y| 0.052 with hb | hb
    · rw [h2 ha hb]
      simp only [sub_self, abs_zero, zero_mul, le_refl, and_true]
      exact ⟨hb, abs_nonneg _, mul_self_nonneg _⟩
    · rcases lt_or_le (target - y) 0 with hneg | hpos
      · have e : |target - y| = -(target - y) := abs_of_neg hneg
        rw [e] at hb
        rw [h4 (by linarith)]
        refine ⟨?_, ?_, ?_, ?_⟩
        · have : y - 0.05 - y = -(0.05 : α) := by ring
          rw [this, abs_neg, abs_of_pos (by norm_num)]
          norm_num
        · have e2 : target - (y - 0.05) = -((y - target) - 0.05) := by ring
          rw [e2, abs_neg, abs_of_nonneg (by linarith), e]
          linarith
        · nlinarith
        · nlinarith
      · have e : |target - y| = target - y := abs_of_nonneg hpos
        rw [e] at hb
        rw [h3 hb]
        refine ⟨?_, ?_, ?_, ?_⟩
        · have : y + 0.05 - y = (0.05 : α) := by ring
          rw [this, abs_of_pos (by norm_num)]
          norm_num
        · have e2 : target - (y + 0.05) = (target - y) - 0.05 := by ring
          rw [e2, abs_of_nonneg (by linarith), e]
          linarith
        · nlinarith
        · nlinarith

end

section
variable {α : Type} [LinearOrderedField α]

/-- The drop callback only rewrites the height of the entry's object. -/
theorem dropEntry_onlyY (dt : α) (s : Designer α) (e : Drop α) :
    ∃ g : Object3D α → Object3D α, (∀ o, ∃ y, g o = setY y o) ∧
      (∀ o, o.id ≠ e.obj → g o = o) ∧ (dropEntry dt s e).1 = mapObjects s g := by
  unfold dropEntry
  cases hobj : findObject s e.obj with
  | none =>
    exact ⟨fun o => o, fun o => ⟨o.position.y, (setY_self o).symm⟩, fun _ _ => rfl,
      (mapObjects_id s).symm⟩
  | some obj =>
    have key : ∀ y : α, ∃ g : Object3D α → Object3D α, (∀ o, ∃ y, g o = setY y o) ∧
        (∀ o, o.id ≠ e.obj → g o = o) ∧ updateObject s e.obj (setY y) = mapObjects s g := by
      intro y
      refine ⟨fun o => if o.id = e.obj then setY y o else o, ?_, ?_, rfl⟩
      · intro o
        dsimp only
        split_ifs
        · exact ⟨y, rfl⟩
        · exact ⟨o.position.y, (setY_self o).symm⟩
      · intro o ho; simp [ho]
    simp only
    cases obj.userData.lockedFloor <|> obj.userData.floorIndex with
    | none => exact key _
    | some fidx =>
      simp only
      cases floorAt s.floors fidx with
      | none => exact key _
      | some floor =>
        simp only
        split_ifs
        · rw [updateObject_setY_setY]
          exact key _
        · exact key _

/-- The drop loop only rewrites heights, and only of the objects of its entries. -/
theorem dropAll_onlyY (dt : α) (es : List (Drop α)) (s : Designer α) :
    ∃ g : Object3D α → Object3D α, (∀ o, ∃ y, g o = setY y o) ∧
      (∀ o, (∀ e ∈ es, e.obj ≠ o.id) → g o = o) ∧ (dropAll dt s es).1 = mapObjects s g := by
  induction es generalizing s with
  | nil =>
    exact ⟨fun o => o, fun o => ⟨o.position.y, (setY_self o).symm⟩, fun _ _ => rfl,
      (mapObjects_id s).symm⟩
  | cons e es ih =>
    obtain ⟨g1, hg1, hf1, h1⟩ := dropEntry_onlyY dt s e
    obtain ⟨g2, hg2, hf2, h2⟩ := ih (dropEntry dt s e).1
    refine ⟨g2 ∘ g1, ?_, ?_, ?_⟩
    · intro o
      obtain ⟨y1, e1⟩ := hg1 o
      obtain ⟨y2, e2⟩ := hg2 (g1 o)
      refine ⟨y2, ?_⟩
      simp only [Function.comp]
      rw [e2, e1]
      rfl
    · intro o ho
      have h1' : g1 o = o := hf1 o (fun h => ho e (List.mem_cons_self _ _) h.symm)
      simp only [Function.comp, h1']
      exact hf2 o (fun e' he' => ho e' (List.mem_cons_of_mem _ he'))
    · simp only [dropAll]
      rw [h2, h1, mapObjects_mapObjects]

omit [LinearOrderedField α] in
theorem dropsOf_eq_nil_iff (s : Designer α) (i : Nat) :
    dropsOf s i = [] ↔ ∀ e ∈ s.activeDrops, e.obj ≠ i := by
  unfold dropsOf
  rw [List.filter_eq_nil_iff]
  simp

/-- The frame outside a drag, for children with distinct keys: every child is first moved by
the drop loop (only in height, and only when it has an entry) and then passed through the
re-stick loop; floors and drag flag are kept, and no object gains a falling entry. -/
theorem updateGravity_children (s : Designer α) (delta : α) (hd : s.isDragging = false)
    (hk : KeysUnique s) :
    ∃ g : Object3D α → Object3D α, (∀ o, ∃ y, g o = setY y o) ∧
      (∀ o, dropsOf s o.id = [] → g o = o) ∧
      (updateGravity s delta).children =
        s.children.map (fun o =>
          (stickObject s.floors (updateGravity s delta).activeDrops (g o)).1) ∧
      (updateGravity s delta).floors = s.floors ∧
      (updateGravity s delta).isDragging = false ∧
      (∀ i, dropsOf s i = [] → dropsOf (updateGravity s delta) i = []) := by
  have hd0 : (removeDuplicates s).isDragging = false := hd
  have hch0 : (removeDuplicates s).children = s.children := by
    have : (removeDuplicates s).children = dedupKeep [] s.children := rfl
    rw [this]
    exact dedupKeep_of_nodup [] _ hk (fun _ _ h => absurd h (List.not_mem_nil _))
  have hes0 : (removeDuplicates s).activeDrops = s.activeDrops := rfl
  obtain ⟨g, hg, hf, hr⟩ := dropAll_onlyY (frameStep delta) (removeDuplicates s).activeDrops
    (removeDuplicates s)
  have hkept : ∀ i, dropsOf s i = [] →
      (dropAll (frameStep delta) (removeDuplicates s)
        (removeDuplicates s).activeDrops).2.filter (fun d => decide (d.obj = i)) = [] := by
    intro i hi
    exact (dropAll_untracked (frameStep delta) (removeDuplicates s).activeDrops
      (removeDuplicates s) i hi).2
  refine ⟨g, hg, ?_, ?_, ?_, ?_, ?_⟩
  · intro o ho
    apply hf
    rw [hes0]
    exact (dropsOf_eq_nil_iff s o.id).1 ho
  · unfold updateGravity
    simp only [hd0, Bool.false_eq_true, if_false, List.map_map]
    rw [hr]
    simp only [mapObjects, hch0, List.map_map]
    rfl
  · unfold updateGravity
    simp only [hd0, Bool.false_eq_true, if_false]
    rw [hr]
    rfl
  · unfold updateGravity
    simp only [hd0, Bool.false_eq_true, if_false]
    rw [hr]
    exact hd0
  · intro i hi
    unfold updateGravity dropsOf
    simp only [hd0, Bool.false_eq_true, if_false]
    exact hkept i hi

/-- The re-stick loop on a child that is neither dropping nor stable. -/
theorem stickObject_anchored (floors : List (Floor α)) (drops : List (Drop α))
    (o : Object3D α) (hdrop : drops.filter (fun d => decide (d.obj = o.id)) = [])
    (hst : o.userData.isStable = false) :
    (stickObject floors drops o).1 =
      match floorAt floors (lockedFloorOr o 0) with
      | none => o
      | some floor => nudge floor o := by
  unfold stickObject
  have : drops.any (fun d => decide (d.obj = o.id)) = false := by
    rw [List.filter_eq_nil_iff] at hdrop
    rw [List.any_eq_false]
    exact hdrop
  simp only [this, Bool.false_eq_true, if_false, hst]
  cases floorAt floors (lockedFloorOr o 0) <;> rfl

/-- The re-stick loop on a child that is not dropping and is flagged stable. -/
theorem stickObject_stable (floors : List (Floor α)) (drops : List (Drop α))
    (o : Object3D α) (hdrop : drops.filter (fun d => decide (d.obj = o.id)) = [])
    (hst : o.userData.isStable = true) :
    (stickObject floors drops o).1 =
      match floorAt floors (lockedFloorOr o 0), o.userData.lastStablePosition,
        o.userData.lastStableFloorY with
      | some floor, some _, some lastY =>
        if 0.1 < |floor.positionY - lastY| then stabilized floor o else o
      | _, _, _ => o := by
  unfold stickObject
  have : drops.any (fun d => decide (d.obj = o.id)) = false := by
    rw [List.filter_eq_nil_iff] at hdrop
    rw [List.any_eq_false]
    exact hdrop
  simp only [this, Bool.false_eq_true, if_false, hst, if_true]
  cases floorAt floors (lockedFloorOr o 0) with
  | none => rfl
  | some floor =>
    cases o.userData.lastStablePosition with
    | none => rfl
    | some p =>
      cases o.userData.lastStableFloorY with
      | none => rfl
      | some lastY =>
        simp only
        split_ifs <;> rfl

end

section
variable {α : Type} [LinearOrderedField α]

/-- C12 (as amended): in a settle tick outside a drag, every anchored (no falling entry),
non-stable object whose floor exists gets the height `nudgeY target y` and is otherwise
unchanged: it moves towards its target height, never past it, by at most 0.052 (a step of at
most 0.05 plus the final snap within 0.002), and it does not move at all when it is within
0.001 of the target; an object whose floor is missing is not moved. -/
theorem updateGravity_nudge_bounded (s : Designer α) (delta : α) (hd : s.isDragging = false)
    (hk : KeysUnique s) :
    ∃ F : Object3D α → Object3D α, (updateGravity s delta).children = s.children.map F ∧
      ∀ o, dropsOf s o.id = [] → o.userData.isStable = false →
        (floorAt s.floors (lockedFloorOr o 0) = none → F o = o) ∧
        ∀ floor, floorAt s.floors (lockedFloorOr o 0) = some floor →
          F o = setY (nudgeY (targetHeight floor o) o.position.y) o ∧
          |(F o).position.y - o.position.y| ≤ 0.052 ∧
          |targetHeight floor o - (F o).position.y| ≤ |targetHeight floor o - o.position.y| ∧
          0 ≤ ((F o).position.y - o.position.y) * (targetHeight floor o - o.position.y) ∧
          0 ≤ (targetHeight floor o - (F o).position.y) *
            (targetHeight floor o - o.position.y) ∧
          (|targetHeight floor o - o.position.y| ≤ 0.001 → F o = o) := by
  obtain ⟨g, -, hg, hch, -, -, hdrops⟩ := updateGravity_children s delta hd hk
  refine ⟨_, hch, ?_⟩
  intro o ho hst
  have hgo : g o = o := hg o ho
  have hstick := stickObject_anchored s.floors (updateGravity s delta).activeDrops o
    (hdrops o.id ho) hst
  simp only [hgo]
  constructor
  · intro hnone
    rw [hstick, hnone]
  · intro floor hfloor
    rw [hstick, hfloor]
    simp only
    rw [nudge_eq_setY]
    obtain ⟨h1, h2, h3, h4⟩ := nudgeY_bounds (targetHeight floor o) o.position.y
    refine ⟨rfl, h1, h2, h3, h4, ?_⟩
    intro hnear
    rw [(nudgeY_cases (targetHeight floor o) o.position.y).1 hnear]
    exact setY_self o

/-- C13 (as amended): in a settle tick outside a drag, an anchored object whose stable flag
is set is left untouched as long as its floor is missing, has no recorded stable position, or
stands within 0.1 of the elevation recorded when the flag was set; once the floor has moved by
more than 0.1 the tick puts the object directly on its current target height (and renews the
flag). -/
theorem updateGravity_stable (s : Designer α) (delta : α) (hd : s.isDragging = false)
    (hk : KeysUnique s) :
    ∃ F : Object3D α → Object3D α, (updateGravity s delta).children = s.children.map F ∧
      ∀ o, dropsOf s o.id = [] → o.userData.isStable = true →
        (floorAt s.floors (lockedFloorOr o 0) = none → F o = o) ∧
        (o.userData.lastStablePosition = none → F o = o) ∧
        (o.userData.lastStableFloorY = none → F o = o) ∧
        ∀ floor p lastY, floorAt s.floors (lockedFloorOr o 0) = some floor →
          o.userData.lastStablePosition = some p → o.userData.lastStableFloorY = some lastY →
          (|floor.positionY - lastY| ≤ 0.1 → F o = o) ∧
          (0.1 < |floor.positionY - lastY| →
            F o = stabilized floor o ∧ (F o).position.y = targetHeight floor o) := by
  obtain ⟨g, -, hg, hch, -, -, hdrops⟩ := updateGravity_children s delta hd hk
  refine ⟨_, hch, ?_⟩
  intro o ho hst
  have hgo : g o = o := hg o ho
  have hstick := stickObject_stable s.floors (updateGravity s delta).activeDrops o
    (hdrops o.id ho) hst
  simp only [hgo]
  refine ⟨?_, ?_, ?_, ?_⟩
  · intro hnone
    rw [hstick, hnone]
  · intro hnone
    rw [hstick, hnone]
    cases floorAt s.floors (lockedFloorOr o 0) <;> rfl
  · intro hnone
    rw [hstick, hnone]
    cases floorAt s.floors (lockedFloorOr o 0) <;> cases o.userData.lastStablePosition <;> rfl
  · intro floor p lastY hfloor hp hl
    rw [hstick, hfloor, hp, hl]
    simp only
    constructor
    · intro hle
      rw [if_neg (not_lt.2 hle)]
    · intro hlt
      rw [if_pos hlt]
      exact ⟨rfl, rfl⟩

end

theorem anchoredDesigner_keys (y : ℚ) : KeysUnique (anchoredDesigner y) := by
  simp [KeysUnique, keysOf, anchoredDesigner, furnitureAt]

/-- An anchored object 0.15 below its target height 0.65 is raised by 0.05 in one tick. -/
theorem updateGravity_nudge_bounded_witness :
    ∃ F : Object3D ℚ → Object3D ℚ,
      (updateGravity (anchoredDesigner (0.5 : ℚ)) 0.033).children =
        [F (furnitureAt 0 0 0 0.5 0)] ∧
      (F (furnitureAt 0 0 0 0.5 0)).position.y = 0.55 ∧
      |(F (furnitureAt 0 0 0 0.5 0)).position.y - 0.5| ≤ 0.052 := by
  obtain ⟨F, hch, hF⟩ := updateGravity_nudge_bounded (anchoredDesigner (0.5 : ℚ)) 0.033 rfl
    (anchoredDesigner_keys _)
  obtain ⟨-, hfl⟩ := hF (furnitureAt 0 0 0 0.5 0) rfl rfl
  obtain ⟨h1, h2, -⟩ := hfl { positionY := 0 } rfl
  have ht : targetHeight ({ positionY := 0 } : Floor ℚ) (furnitureAt 0 0 0 (0.5 : ℚ) 0) = 0.65 := by
    simp [targetHeight, furnitureAt, floorThickness]
    norm_num
  have hy : (furnitureAt 0 0 0 (0.5 : ℚ) 0).position.y = 0.5 := rfl
  rw [ht, hy] at h1
  rw [hy] at h2
  have hn : nudgeY (0.65 : ℚ) 0.5 = 0.55 := by
    rw [(nudgeY_cases (0.65 : ℚ) 0.5).2.2.1 (by norm_num)]
    norm_num
  refine ⟨F, hch, ?_, h2⟩
  rw [h1, hn]
  rfl

/-- C12 (counterexample): an anchored, non-stable object 0.051 below its target height 0.65 is
put on the target by one tick: it moves by 0.051, more than 0.05. -/
theorem updateGravity_nudge_exceeds_step :
    (updateGravity (anchoredDesigner (0.599 : ℚ)) 0.033).children.map
        (fun o => o.position.y) = [0.65] ∧
      (0.05 : ℚ) < |0.65 - 0.599| := by
  constructor
  · obtain ⟨g, -, hg, hch, -, -, hdrops⟩ := updateGravity_children
      (anchoredDesigner (0.599 : ℚ)) 0.033 rfl (anchoredDesigner_keys _)
    rw [hch]
    have hgo : g (furnitureAt 0 0 0 (0.599 : ℚ) 0) = furnitureAt 0 0 0 0.599 0 := hg _ rfl
    have hstick := stickObject_anchored (anchoredDesigner (0.599 : ℚ)).floors
      (updateGravity (anchoredDesigner (0.599 : ℚ)) 0.033).activeDrops
      (furnitureAt 0 0 0 (0.599 : ℚ) 0) (hdrops 0 rfl) rfl
    have hfl : floorAt (anchoredDesigner (0.599 : ℚ)).floors
        (lockedFloorOr (furnitureAt 0 0 0 (0.599 : ℚ) 0) 0) = some { positionY := 0 } := rfl
    rw [hfl] at hstick
    simp only at hstick
    have ht : targetHeight ({ positionY := 0 } : Floor ℚ) (furnitureAt 0 0 0 (0.599 : ℚ) 0) =
        0.65 := by
      simp [targetHeight, furnitureAt, floorThickness]
      norm_num
    have hy : (furnitureAt 0 0 0 (0.599 : ℚ) 0).position.y = 0.599 := rfl
    have hn : nudgeY (0.65 : ℚ) 0.599 = 0.65 :=
      (nudgeY_cases (0.65 : ℚ) 0.599).2.1 (by norm_num [abs_of_pos])
        (by norm_num [abs_of_pos])
    rw [nudge_eq_setY, ht, hy, hn] at hstick
    show List.map (fun (o : Object3D ℚ) => o.position.y)
      (List.map _ [furnitureAt 0 0 0 (0.599 : ℚ) 0]) = [0.65]
    simp only [List.map_cons, List.map_nil, hgo, hstick]
    rfl
  · norm_num [abs_of_pos]

theorem stableDesigner_keys (floorY : ℚ) : KeysUnique (stableDesigner floorY) := by
  simp [KeysUnique, keysOf, stableDesigner, stableFurniture, furnitureAt]

/-- A stable object whose floor has moved by 0.05 since the flag was set is left at its
height by a tick. -/
theorem updateGravity_stable_witness :
    ∃ F : Object3D ℚ → Object3D ℚ,
      (updateGravity (stableDesigner (0.05 : ℚ)) 0.033).children = [F stableFurniture] ∧
      F stableFurniture = stableFurniture := by
  obtain ⟨F, hch, hF⟩ := updateGravity_stable (stableDesigner (0.05 : ℚ)) 0.033 rfl
    (stableDesigner_keys _)
  obtain ⟨-, -, -, h⟩ := hF stableFurniture rfl rfl
  obtain ⟨h1, -⟩ := h { positionY := 0.05 } { x := 0, y := 0.65, z := 0 } 0 rfl rfl rfl
  exact ⟨F, hch, h1 (by norm_num [abs_of_pos])⟩

/-- C13 (counterexample): a stable object at height 0.65 whose floor has been raised from
elevation 0 to 3 since the flag was set is moved to height 3.65 by one tick. -/
theorem updateGravity_moves_stable :
    (stableFurniture : Object3D ℚ).userData.isStable = true ∧
      (stableFurniture : Object3D ℚ).position.y = 0.65 ∧
      (updateGravity (stableDesigner (3 : ℚ)) 0.033).children.map
        (fun o => o.position.y) = [3.65] := by
  refine ⟨rfl, rfl, ?_⟩
  obtain ⟨g, -, hg, hch, -, -, hdrops⟩ := updateGravity_children
    (stableDesigner (3 : ℚ)) 0.033 rfl (stableDesigner_keys _)
  rw [hch]
  have hgo : g (stableFurniture : Object3D ℚ) = stableFurniture := hg _ rfl
  have hstick := stickObject_stable (stableDesigner (3 : ℚ)).floors
    (updateGravity (stableDesigner (3 : ℚ)) 0.033).activeDrops
    (stableFurniture : Object3D ℚ) (hdrops 0 rfl) rfl
  have hfl : floorAt (stableDesigner (3 : ℚ)).floors
      (lockedFloorOr (stableFurniture : Object3D ℚ) 0) = some { positionY := 3 } := rfl
  have hp : (stableFurniture : Object3D ℚ).userData.lastStablePosition =
      some { x := 0, y := 0.65, z := 0 } := rfl
  have hl : (stableFurniture : Object3D ℚ).userData.lastStableFloorY = some 0 := rfl
  rw [hfl, hp, hl] at hstick
  simp only at hstick
  rw [if_pos (by norm_num [abs_of_pos])] at hstick
  show List.map (fun (o : Object3D ℚ) => o.position.y)
    (List.map _ [(stableFurniture : Object3D ℚ)]) = [3.65]
  simp only [List.map_cons, List.map_nil, hgo, hstick]
  simp [stabilized, stableFurniture, furnitureAt, floorThickness]
  norm_num

section
variable {α : Type} [LinearOrderedField α]

theorem stickObject_key (floors : List (Floor α)) (drops : List (Drop α)) (o : Object3D α) :
    (stickObject floors drops o).1.userData.furnitureKey = o.userData.furnitureKey := by
  unfold stickObject
  split_ifs
  · rfl
  · split
    · split_ifs <;> rfl
    · rfl
  · split
    · rfl
    · rw [(nudge_frame _ o).2.2]

/-- A frame outside a drag keeps the keys of the children distinct. -/
theorem updateGravity_keysUnique (s : Designer α) (delta : α) (hd : s.isDragging = false)
    (hk : KeysUnique s) : KeysUnique (updateGravity s delta) := by
  obtain ⟨g, hg, -, hch, -, -, -⟩ := updateGravity_children s delta hd hk
  unfold KeysUnique keysOf at hk ⊢
  rw [hch, List.filterMap_map]
  have : ((fun o : Object3D α => o.userData.furnitureKey) ∘ fun o =>
      (stickObject s.floors (updateGravity s delta).activeDrops (g o)).1) =
      fun o => o.userData.furnitureKey := by
    funext o
    obtain ⟨y, hy⟩ := hg o
    simp only [Function.comp, stickObject_key, hy]
    rfl
  rw [this]
  exact hk

/-- One frame on an anchored, non-stable object: it stays anchored on the same slab and its
height is passed through `nudgeY` once. -/
theorem anchoredAt_step (s : Designer α) (delta : α) (i : Nat) (floor : Floor α) (h y : α)
    (hA : AnchoredAt s i floor h y) :
    AnchoredAt (updateGravity s delta) i floor h
      (nudgeY (floor.positionY + floorThickness / 2 + h / 2) y) := by
  obtain ⟨hk, hd, hdr, o, hfind, hfl, hy, hh, hst⟩ := hA
  obtain ⟨g, hgy, hg, hch, hfloors, hdrag, hdrops⟩ := updateGravity_children s delta hd hk
  have hid : o.id = i := by
    have := List.find?_some hfind
    simpa using this
  have hgo : g o = o := hg o (by rw [hid]; exact hdr)
  have hstick := stickObject_anchored s.floors (updateGravity s delta).activeDrops o
    (by rw [hid]; exact hdrops i hdr) hst
  rw [hfl] at hstick
  simp only at hstick
  rw [nudge_eq_setY] at hstick
  have ht : targetHeight floor o = floor.positionY + floorThickness / 2 + h / 2 := by
    unfold targetHeight
    rw [hh]
  rw [ht, hy] at hstick
  refine ⟨updateGravity_keysUnique s delta hd hk, hdrag, hdrops i hdr,
    setY (nudgeY (floor.positionY + floorThickness / 2 + h / 2) y) o, ?_, ?_, rfl, hh, hst⟩
  · rw [hch, List.find?_map]
    have hp : ((fun c : Object3D α => decide (c.id = i)) ∘ fun o =>
        (stickObject s.floors (updateGravity s delta).activeDrops (g o)).1) =
        fun c => decide (c.id = i) := by
      funext c
      obtain ⟨y', hy'⟩ := hgy c
      simp only [Function.comp, (stickObject_frame _ _ _).1, hy']
      rfl
    rw [hp, hfind]
    simp only [Option.map_some', hgo, hstick]
  · rw [hfloors]
    exact hfl

/-- The heights of an object below its target `t` under repeated re-stick steps: they rise
towards `t` without passing it, by 0.05 per step until the final snap. -/
theorem nudgeY_iterate (t y : α) (hgap : 0.001 < t - y) (n : Nat) :
    ((nudgeY t)^[n] y = t ∨
      ((nudgeY t)^[n] y = y + 0.05 * n ∧ 0.001 < t - (nudgeY t)^[n] y)) ∧
      (nudgeY t)^[n] y ≤ (nudgeY t)^[n + 1] y ∧ (nudgeY t)^[n + 1] y ≤ t := by
  have hstep : ∀ z, (z = t ∨ 0.001 < t - z) → z ≤ nudgeY t z ∧ nudgeY t z ≤ t := by
    intro z hz
    obtain ⟨h1, h2, h3, -⟩ := nudgeY_cases t z
    rcases hz with hz | hz
    · have : nudgeY t z = z := h1 (by rw [hz, sub_self, abs_zero]; norm_num)
      rw [this, hz]
      exact ⟨le_refl _, le_refl _⟩
    · have hpos : 0 < t - z := lt_trans (by norm_num) hz
      rcases le_or_lt (t - z) 0.052 with hb | hb
      · rw [h2 (by rw [abs_of_pos hpos]; exact hz) (by rw [abs_of_pos hpos]; exact hb)]
        exact ⟨by linarith, le_refl _⟩
      · rw [h3 hb]
        constructor <;> linarith
  have hinv : ∀ n, (nudgeY t)^[n] y = t ∨
      ((nudgeY t)^[n] y = y + 0.05 * n ∧ 0.001 < t - (nudgeY t)^[n] y) := by
    intro n
    induction n with
    | zero =>
      right
      simp only [Function.iterate_zero, id_eq, Nat.cast_zero, mul_zero, add_zero, true_and]
      exact hgap
    | succ n ih =>
      rw [Function.iterate_succ_apply']
      obtain ⟨h1, h2, h3, -⟩ := nudgeY_cases t ((nudgeY t)^[n] y)
      rcases ih with ih | ⟨ih, hlt⟩
      · left
        rw [ih]
        exact (nudgeY_cases t t).1 (by rw [sub_self, abs_zero]; norm_num)
      · have hpos : 0 < t - (nudgeY t)^[n] y := lt_trans (by norm_num) hlt
        rcases le_or_lt (t - (nudgeY t)^[n] y) 0.052 with hb | hb
        · left
          exact h2 (by rw [abs_of_pos hpos]; exact hlt) (by rw [abs_of_pos hpos]; exact hb)
        · right
          rw [h3 hb, ih]
          constructor
          · push_cast
            ring
          · rw [ih] at hb
            linarith
  refine ⟨hinv n, ?_⟩
  rw [Function.iterate_succ_apply']
  apply hstep
  rcases hinv n with h | h
  · exact Or.inl h
  · exact Or.inr h.2

/-- C11 (as amended): an anchored, non-stable object that rests on the target height of its
slab, after the slab is raised by more than 0.001, stays anchored over the following ticks
while its height rises monotonically, never passing the new target height, and is exactly on
the new target height from tick `⌈Δ / 0.05⌉` on. -/
theorem runGravity_reanchors [FloorRing α] (s : Designer α) (deltas : Nat → α) (i : Nat)
    (floor : Floor α) (h raise : α)
    (hA : AnchoredAt s i floor h (floor.positionY - raise + floorThickness / 2 + h / 2))
    (hraise : 0.001 < raise) :
    ∃ ys : Nat → α, ys 0 = floor.positionY - raise + floorThickness / 2 + h / 2 ∧
      (∀ n, AnchoredAt (runGravity deltas n s) i floor h (ys n)) ∧
      (∀ n, ys n ≤ ys (n + 1) ∧ ys (n + 1) ≤ floor.positionY + floorThickness / 2 + h / 2) ∧
      (∀ n, ⌈raise / 0.05⌉₊ ≤ n → ys n = floor.positionY + floorThickness / 2 + h / 2) := by
  have hgap : 0.001 < floor.positionY + floorThickness / 2 + h / 2 -
      (floor.positionY - raise + floorThickness / 2 + h / 2) := by
    have : floor.positionY + floorThickness / 2 + h / 2 -
      (floor.positionY - raise + floorThickness / 2 + h / 2) = raise := by ring
    rw [this]
    exact hraise
  refine ⟨fun n => (nudgeY (floor.positionY + floorThickness / 2 + h / 2))^[n]
    (floor.positionY - raise + floorThickness / 2 + h / 2), rfl, ?_, ?_, ?_⟩
  · intro n
    induction n with
    | zero => exact hA
    | succ n ih =>
      simp only [Function.iterate_succ_apply']
      exact anchoredAt_step _ (deltas n) i floor h _ ih
  · intro n
    exact (nudgeY_iterate _ _ hgap n).2
  · intro n hn
    rcases (nudgeY_iterate _ _ hgap n).1 with hq | ⟨hq, hlt⟩
    · exact hq
    · exfalso
      rw [hq] at hlt
      have h1 : raise / 0.05 ≤ (n : α) := le_trans (Nat.le_ceil _) (by exact_mod_cast hn)
      have h2 : raise ≤ 0.05 * (n : α) := by
        rw [div_le_iff₀ (by norm_num)] at h1
        linarith
      linarith

end

theorem raisedFloorDesigner_anchored (raise : ℚ) :
    AnchoredAt (raisedFloorDesigner raise) 0 { positionY := raise } 1
      (raise - raise + floorThickness / 2 + 1 / 2) := by
  refine ⟨?_, rfl, rfl, furnitureAt 0 0 0 (0.65 : ℚ) 0, rfl, rfl, ?_, rfl, rfl⟩
  · simp [KeysUnique, keysOf, raisedFloorDesigner, anchoredDesigner, furnitureAt]
  · simp [furnitureAt, floorThickness]
    norm_num

/-- After its slab is raised by 0.12 the object of `raisedFloorDesigner` is back on its
target height 0.77 after three ticks. -/
theorem runGravity_reanchors_witness :
    ∃ y : ℚ, AnchoredAt (runGravity (fun _ => (0.033 : ℚ)) 3 (raisedFloorDesigner 0.12)) 0
      { positionY := 0.12 } 1 y ∧ y = 0.77 := by
  obtain ⟨ys, -, hA, -, hreach⟩ := runGravity_reanchors (raisedFloorDesigner (0.12 : ℚ))
    (fun _ => 0.033) 0 { positionY := 0.12 } 1 0.12 (raisedFloorDesigner_anchored _)
    (by norm_num)
  refine ⟨ys 3, hA 3, ?_⟩
  rw [hreach 3 (by rw [Nat.ceil_le]; norm_num)]
  simp [floorThickness]
  norm_num

theorem updateGravity_dead_band :
    updateGravity (raisedFloorDesigner (0.001 : ℚ)) 0.033 = raisedFloorDesigner 0.001 := by
  have hn : nudge ({ positionY := 0.001 } : Floor ℚ) (furnitureAt 0 0 0 (0.65 : ℚ) 0) =
      furnitureAt 0 0 0 0.65 0 := by
    rw [nudge_eq_setY]
    have ht : targetHeight ({ positionY := 0.001 } : Floor ℚ)
        (furnitureAt 0 0 0 (0.65 : ℚ) 0) = 0.651 := by
      simp [targetHeight, furnitureAt, floorThickness]
      norm_num
    have hy : (furnitureAt 0 0 0 (0.65 : ℚ) 0).position.y = 0.65 := rfl
    rw [ht, hy, (nudgeY_cases (0.651 : ℚ) 0.65).1 (by norm_num [abs_of_pos])]
    exact setY_self _
  have hs : stickObject [({ positionY := 0.001 } : Floor ℚ)] []
      (furnitureAt 0 0 0 (0.65 : ℚ) 0) = (furnitureAt 0 0 0 0.65 0, false) := by
    have h := stickObject_anchored [({ positionY := 0.001 } : Floor ℚ)] []
      (furnitureAt 0 0 0 (0.65 : ℚ) 0) rfl rfl
    have hfl : floorAt [({ positionY := 0.001 } : Floor ℚ)]
        (lockedFloorOr (furnitureAt 0 0 0 (0.65 : ℚ) 0) 0) = some { positionY := 0.001 } := rfl
    rw [hfl] at h
    simp only [hn] at h
    have h2 : (stickObject [({ positionY := 0.001 } : Floor ℚ)] []
      (furnitureAt 0 0 0 (0.65 : ℚ) 0)).2 = false := by
      unfold stickObject
      rw [hfl]
      simp [furnitureAt]
    exact Prod.ext h h2
  unfold updateGravity
  simp only [removeDuplicates, raisedFloorDesigner, anchoredDesigner, oneObjectDesigner,
    freshDesigner, dedupKeep, dedupDrop, dropAll, List.map_cons, List.map_nil, hs]
  have hkey : (furnitureAt 0 0 0 (0.65 : ℚ) 0).userData.furnitureKey =
      some { counter := 0, floor := 0 } := rfl
  simp [hkey, hs]

/-- C11 (counterexample): the object rests on its target height 0.65 and its slab is raised
by 0.001; after `⌈0.001 / 0.05⌉ = 1` tick, and after 50 ticks, the object is still at height
0.65 and not on the new target height 0.651. -/
theorem runGravity_dead_band :
    ⌈(0.001 : ℚ) / 0.05⌉₊ = 1 ∧
      (runGravity (fun _ => (0.033 : ℚ)) 1 (raisedFloorDesigner 0.001)).children.map
        (fun o => o.position.y) = [0.65] ∧
      (runGravity (fun _ => (0.033 : ℚ)) 50 (raisedFloorDesigner 0.001)).children.map
        (fun o => o.position.y) = [0.65] ∧
      targetHeight ({ positionY := 0.001 } : Floor ℚ) (furnitureAt 0 0 0 0.65 0) = 0.651 := by
  have hfix : ∀ n, runGravity (fun _ => (0.033 : ℚ)) n (raisedFloorDesigner 0.001) =
      raisedFloorDesigner 0.001 := by
    intro n
    induction n with
    | zero => rfl
    | succ n ih =>
      show updateGravity (runGravity (fun _ => (0.033 : ℚ)) n (raisedFloorDesigner 0.001))
        0.033 = _
      rw [ih]
      exact updateGravity_dead_band
  refine ⟨?_, ?_, ?_, ?_⟩
  · rw [Nat.ceil_eq_iff (by norm_num)]
    norm_num
  · rw [hfix]
    rfl
  · rw [hfix]
    rfl
  · simp [targetHeight, furnitureAt, floorThickness]
    norm_num

/-! ## Floor rebuilds -/

section
variable {α : Type} [LinearOrderedField α]

theorem buildFloorSlabs_length (n : Nat) (height : α) :
    (buildFloorSlabs (n : Int) height).length = n := by
  simp [buildFloorSlabs]

theorem buildFloorSlabs_getElem? (n : Nat) (height : α) (i : Nat) (hi : i < n) :
    (buildFloorSlabs (n : Int) height)[i]? =
      some { positionY := -height / 2 + ((i : α) + 1) * (height / ((n : α) + 1))
             floorIndex := (i : Int)
             baseY := none } := by
  simp [buildFloorSlabs, List.getElem?_map, List.getElem?_range hi]

theorem anchorToFloor_nil (o : Object3D α) : anchorToFloor [] o = o := by
  unfold anchorToFloor floorAt
  split_ifs <;> rfl

theorem anchorToFloor_idem (floors : List (Floor α)) (o : Object3D α) :
    anchorToFloor floors (anchorToFloor floors o) = anchorToFloor floors o := by
  unfold anchorToFloor
  cases h : floorAt floors (lockedFloorOr o 0) with
  | none =>
    simp only [h]
  | some floor =>
    simp only
    have h2 : floorAt floors (lockedFloorOr (setY (targetHeight floor o) o) 0) = some floor := h
    rw [h2]
    rfl

end

theorem buildFloors_floors (w : Workspace ℝ) (h : 1 ≤ w.numFloors) :
    (buildFloors w).designer.floors = buildFloorSlabs w.numFloors w.currentHeight := by
  unfold buildFloors
  rw [if_neg (not_lt.2 h)]

theorem buildFloors_children (w : Workspace ℝ) :
    (buildFloors w).designer.children =
      w.designer.children.map (anchorToFloor (buildFloors w).designer.floors) := by
  unfold buildFloors
  split_ifs
  · simp only
    rw [List.map_congr_left (fun o _ => anchorToFloor_nil o)]
    simp
  · rfl

/-- C17: for a floor count `N ≥ 1`, `buildFloors` leaves exactly `N` slabs; slab `i` carries
`floorIndex` `i` and the elevation `-H / 2 + (i + 1) * gap` with `gap = H / (N + 1)`;
consecutive slabs are `gap` apart, and for `H > 0` the elevations increase strictly and lie
strictly between `-H / 2` and `H / 2`. -/
theorem buildFloors_slabs (w : Workspace ℝ) (N : Nat) (hN : 1 ≤ N)
    (hw : w.numFloors = (N : Int)) :
    (buildFloors w).designer.floors.length = N ∧
      (∀ i, i < N → (buildFloors w).designer.floors[i]? =
        some { positionY :=
                 -w.currentHeight / 2 + ((i : ℝ) + 1) * (w.currentHeight / ((N : ℝ) + 1))
               floorIndex := (i : Int)
               baseY := none }) ∧
      (∀ i f g, (buildFloors w).designer.floors[i]? = some f →
        (buildFloors w).designer.floors[i + 1]? = some g →
        g.positionY - f.positionY = w.currentHeight / ((N : ℝ) + 1) ∧
          (0 < w.currentHeight → f.positionY < g.positionY)) ∧
      (0 < w.currentHeight → ∀ f ∈ (buildFloors w).designer.floors,
        -w.currentHeight / 2 < f.positionY ∧ f.positionY < w.currentHeight / 2) := by
  have h1 : 1 ≤ w.numFloors := by
    rw [hw]
    exact_mod_cast hN
  have hfl : (buildFloors w).designer.floors = buildFloorSlabs (N : Int) w.currentHeight := by
    rw [buildFloors_floors w h1, hw]
  have hlen := buildFloorSlabs_length N w.currentHeight
  have hget := buildFloorSlabs_getElem? N w.currentHeight
  have hpos : (0 : ℝ) < (N : ℝ) + 1 := by positivity
  rw [hfl]
  refine ⟨hlen, hget, ?_, ?_⟩
  · intro i f g hf hg
    have hi1 : i + 1 < N := by
      have := (List.getElem?_eq_some_iff.1 hg).1
      rwa [hlen] at this
    rw [hget i (by omega)] at hf
    rw [hget (i + 1) hi1] at hg
    cases hf
    cases hg
    simp only
    push_cast
    constructor
    · ring
    · intro hH
      have : 0 < w.currentHeight / ((N : ℝ) + 1) := div_pos hH hpos
      nlinarith
  · intro hH f hf
    obtain ⟨i, hi, hfi⟩ := List.getElem_of_mem hf
    rw [hlen] at hi
    have hsome : (buildFloorSlabs (N : Int) w.currentHeight)[i]? = some f := by
      rw [List.getElem?_eq_some_iff]
      exact ⟨by rw [hlen]; exact hi, hfi⟩
    rw [hget i hi] at hsome
    cases hsome
    simp only
    have hgap : 0 < w.currentHeight / ((N : ℝ) + 1) := div_pos hH hpos
    have hi' : ((i : ℝ) + 1) ≤ (N : ℝ) := by exact_mod_cast hi
    have hmul : ((N : ℝ) + 1) * (w.currentHeight / ((N : ℝ) + 1)) = w.currentHeight := by
      field_simp
    constructor
    · have : 0 < ((i : ℝ) + 1) * (w.currentHeight / ((N : ℝ) + 1)) := by positivity
      linarith
    · have : ((i : ℝ) + 1) * (w.currentHeight / ((N : ℝ) + 1)) <
          ((N : ℝ) + 1) * (w.currentHeight / ((N : ℝ) + 1)) :=
        mul_lt_mul_of_pos_right (by linarith) hgap
      linarith

/-- Three floors in a habitat of height 8: the gap is 2 and the slabs stand at -2, 0 and 2. -/
theorem buildFloors_slabs_witness :
    (buildFloors (habitatWorkspace (8 : ℝ) 3)).designer.floors.length = 3 ∧
      (buildFloors (habitatWorkspace (8 : ℝ) 3)).designer.floors[0]? =
        some { positionY := -2, floorIndex := 0, baseY := none } ∧
      (buildFloors (habitatWorkspace (8 : ℝ) 3)).designer.floors[1]? =
        some { positionY := 0, floorIndex := 1, baseY := none } ∧
      (buildFloors (habitatWorkspace (8 : ℝ) 3)).designer.floors[2]? =
        some { positionY := 2, floorIndex := 2, baseY := none } := by
  obtain ⟨hlen, hget, -, -⟩ := buildFloors_slabs (habitatWorkspace (8 : ℝ) 3) 3 (by decide) rfl
  have h0 := hget 0 (by decide)
  have h1 := hget 1 (by decide)
  have h2 := hget 2 (by decide)
  have e : (habitatWorkspace (8 : ℝ) 3).currentHeight = 8 := rfl
  rw [e] at h0 h1 h2
  refine ⟨hlen, ?_, ?_, ?_⟩
  · rw [h0]
    norm_num
  · rw [h1]
    norm_num
  · rw [h2]
    norm_num

/-- C18: running `buildFloors` a second time with the same inputs changes nothing: the state
after two runs (floor slabs, partition walls with their segments, heights, thicknesses and
floor indices, and the furniture) is the state after one run. -/
theorem buildFloors_idempotent (w : Workspace ℝ) :
    buildFloors (buildFloors w) = buildFloors w := by
  by_cases h : w.numFloors < 1
  · have e : buildFloors w =
        { w with designer := { w.designer with floors := [] }, partitions := [] } := by
      unfold buildFloors
      rw [if_pos h]
    rw [e]
    unfold buildFloors
    rw [if_pos h]
  · have e : buildFloors w =
        { w with
          designer :=
            { w.designer with
              floors := buildFloorSlabs w.numFloors w.currentHeight
              children := w.designer.children.map
                (anchorToFloor (buildFloorSlabs w.numFloors w.currentHeight)) }
          partitions := buildFloorPartitions
            { w with
              designer :=
                { w.designer with
                  floors := buildFloorSlabs w.numFloors w.currentHeight
                  children := w.designer.children.map
                    (anchorToFloor (buildFloorSlabs w.numFloors w.currentHeight)) } } } := by
      unfold buildFloors
      rw [if_neg h]
    rw [e]
    unfold buildFloors
    simp only [if_neg h, List.map_map]
    have hc : (anchorToFloor (buildFloorSlabs w.numFloors w.currentHeight) ∘
        anchorToFloor (buildFloorSlabs w.numFloors w.currentHeight)) =
        anchorToFloor (buildFloorSlabs w.numFloors w.currentHeight) := by
      funext o
      exact anchorToFloor_idem _ o
    rw [hc]
    rfl

/-- C19: `buildFloors` passes every furniture object through one and the same update `F` and
keeps their number and order (and the detached objects); `F` keeps the object's identity, `x`,
`z`, rotation, vertical extent, visibility and all of `userData` (so `lockedFloor`), and when
`lockedFloor = k` indexes a rebuilt slab it sets `position.y` to that slab's elevation
`+ floorThickness / 2 +` half the vertical extent; an object whose slab is missing is left
untouched. -/
theorem buildFloors_furniture (w : Workspace ℝ) :
    ∃ F : Object3D ℝ → Object3D ℝ,
      (buildFloors w).designer.children = w.designer.children.map F ∧
      (buildFloors w).designer.children.length = w.designer.children.length ∧
      (buildFloors w).designer.detached = w.designer.detached ∧
      ∀ o, (F o).id = o.id ∧ (F o).position.x = o.position.x ∧
        (F o).position.z = o.position.z ∧ (F o).rotationY = o.rotationY ∧
        (F o).height = o.height ∧ (F o).visible = o.visible ∧ (F o).userData = o.userData ∧
        (∀ k floor, o.userData.lockedFloor = some k →
          floorAt (buildFloors w).designer.floors k = some floor →
          (F o).position.y = floor.positionY + floorThickness / 2 + o.height / 2) ∧
        (floorAt (buildFloors w).designer.floors (lockedFloorOr o 0) = none → F o = o) := by
  refine ⟨anchorToFloor (buildFloors w).designer.floors, buildFloors_children w, ?_, ?_, ?_⟩
  · rw [buildFloors_children w, List.length_map]
  · unfold buildFloors
    split_ifs <;> rfl
  · intro o
    have hframe : ∀ fl : List (Floor ℝ), (anchorToFloor fl o).id = o.id ∧
        (anchorToFloor fl o).position.x = o.position.x ∧
        (anchorToFloor fl o).position.z = o.position.z ∧
        (anchorToFloor fl o).rotationY = o.rotationY ∧
        (anchorToFloor fl o).height = o.height ∧ (anchorToFloor fl o).visible = o.visible ∧
        (anchorToFloor fl o).userData = o.userData := by
      intro fl
      unfold anchorToFloor
      cases floorAt fl (lockedFloorOr o 0) <;> exact ⟨rfl, rfl, rfl, rfl, rfl, rfl, rfl⟩
    obtain ⟨h1, h2, h3, h4, h5, h6, h7⟩ := hframe (buildFloors w).designer.floors
    refine ⟨h1, h2, h3, h4, h5, h6, h7, ?_, ?_⟩
    · intro k floor hk hfloor
      have hl : lockedFloorOr o 0 = k := by
        unfold lockedFloorOr
        rw [hk]
      unfold anchorToFloor
      rw [hl, hfloor]
      rfl
    · intro hnone
      unfold anchorToFloor
      rw [hnone]

/-! ## The registry of furniture keys -/

section
variable {α : Type} [LinearOrderedField α]

omit [LinearOrderedField α] in
theorem keysBelowCounter_append (s : Designer α) (o : Object3D α) (k : FurnitureKey)
    (h : KeysBelowCounter s) (hk : o.userData.furnitureKey = some k)
    (hc : k.counter = s.furnitureKeyCounter) (s' : Designer α)
    (hch : s'.children = s.children ++ [o])
    (hcnt : s'.furnitureKeyCounter = s.furnitureKeyCounter + 1) : KeysBelowCounter s' := by
  obtain ⟨h1, h2⟩ := h
  constructor
  · intro c hcm
    rw [hch, List.mem_append, List.mem_singleton] at hcm
    rcases hcm with hcm | hcm
    · obtain ⟨k', hk', hlt⟩ := h1 c hcm
      exact ⟨k', hk', by rw [hcnt]; omega⟩
    · subst hcm
      exact ⟨k, hk, by rw [hcnt, hc]; omega⟩
  · rw [hch, List.pairwise_append]
    refine ⟨h2, List.pairwise_singleton _ _, ?_⟩
    intro a ha b hb
    rw [List.mem_singleton] at hb
    subst hb
    obtain ⟨k', hk', hlt⟩ := h1 a ha
    rw [hk', hk]
    intro he
    cases he
    omega

/-- One registry request: either no key is issued, the counter stays and the children are a
sublist of the former children, or exactly one key is issued, with the former counter value,
the counter grows by one and its object is appended to the children. -/
theorem applyOp_issues (s : Designer α) (op : RegistryOp α) (h : KeysBelowCounter s) :
    KeysBelowCounter (applyOp s op) ∧
      ((issuedKeys s op = [] ∧ (applyOp s op).furnitureKeyCounter = s.furnitureKeyCounter ∧
          (applyOp s op).children.Sublist s.children) ∨
        ∃ o k, issuedKeys s op = [k] ∧ k.counter = s.furnitureKeyCounter ∧
          o.userData.furnitureKey = some k ∧
          (applyOp s op).furnitureKeyCounter = s.furnitureKeyCounter + 1 ∧
          (applyOp s op).children = s.children ++ [o]) := by
  have hsame : ∀ s' : Designer α, s'.children = s.children →
      s'.furnitureKeyCounter = s.furnitureKeyCounter →
      KeysBelowCounter s' ∧ keysOf (s'.children.drop s.children.length) = [] ∧
        s'.furnitureKeyCounter = s.furnitureKeyCounter ∧ s'.children.Sublist s.children := by
    intro s' hch hcnt
    refine ⟨?_, ?_, hcnt, by rw [hch]⟩
    · unfold KeysBelowCounter
      rw [hch, hcnt]
      exact h
    · rw [hch, List.drop_length]
      rfl
  have hnew : ∀ (s' : Designer α) (o : Object3D α) (k : FurnitureKey),
      o.userData.furnitureKey = some k → k.counter = s.furnitureKeyCounter →
      s'.children = s.children ++ [o] →
      s'.furnitureKeyCounter = s.furnitureKeyCounter + 1 →
      KeysBelowCounter s' ∧ ∃ o k, keysOf (s'.children.drop s.children.length) = [k] ∧
        k.counter = s.furnitureKeyCounter ∧ o.userData.furnitureKey = some k ∧
        s'.furnitureKeyCounter = s.furnitureKeyCounter + 1 ∧
        s'.children = s.children ++ [o] := by
    intro s' o k hk hc hch hcnt
    refine ⟨keysBelowCounter_append s o k h hk hc s' hch hcnt, o, k, ?_, hc, hk, hcnt, hch⟩
    rw [hch, List.drop_left]
    simp [keysOf, hk]
  cases op with
  | place now box worldPoint floorIdx =>
    unfold issuedKeys
    simp only [applyOp]
    unfold placeObjectAt
    split_ifs
    · obtain ⟨a, b, c, d⟩ := hsame s rfl rfl
      exact ⟨a, Or.inl ⟨b, c, d⟩⟩
    · obtain ⟨a, b, c, d⟩ := hsame s rfl rfl
      exact ⟨a, Or.inl ⟨b, c, d⟩⟩
    · cases hfl : floorAt s.floors floorIdx with
      | none =>
        obtain ⟨a, b, c, d⟩ := hsame { s with lastPlacementTime := now } rfl rfl
        exact ⟨a, Or.inl ⟨b, c, d⟩⟩
      | some floor =>
        obtain ⟨a, b⟩ := hnew _ (newFurniture s box worldPoint floorIdx floor)
          { counter := s.furnitureKeyCounter, floor := floorIdx } rfl rfl
          (rfl : ({ s with
            lastPlacementTime := now
            furnitureKeyCounter := s.furnitureKeyCounter + 1
            nextId := s.nextId + 1
            children := s.children ++ [newFurniture s box worldPoint floorIdx floor]
            selectedObject := some (newFurniture s box worldPoint floorIdx floor).id
            activeDrops := s.activeDrops ++
              [{ obj := (newFurniture s box worldPoint floorIdx floor).id, vy := 0 }] } :
            Designer α).children = _) rfl
        exact ⟨a, Or.inr b⟩
  | duplicate id =>
    unfold issuedKeys
    simp only [applyOp]
    unfold duplicateObject
    cases hfind : findObject s id with
    | none =>
      obtain ⟨a, b, c, d⟩ := hsame s rfl rfl
      exact ⟨a, Or.inl ⟨b, c, d⟩⟩
    | some object =>
      obtain ⟨a, b⟩ := hnew _ (cloneOf s.nextId s.furnitureKeyCounter object)
        { counter := s.furnitureKeyCounter, floor := object.userData.lockedFloor.getD 0 }
        rfl rfl
        (rfl : ({ s with
          furnitureKeyCounter := s.furnitureKeyCounter + 1
          nextId := s.nextId + 1
          children := s.children ++ [cloneOf s.nextId s.furnitureKeyCounter object]
          selectedObject := some (cloneOf s.nextId s.furnitureKeyCounter object).id } :
          Designer α).children = _) rfl
      exact ⟨a, Or.inr b⟩
  | delete id =>
    unfold issuedKeys
    simp only [applyOp]
    unfold deleteObject
    have hsub : (s.children.filter (fun o => decide (o.id ≠ id))).Sublist s.children :=
      List.filter_sublist _
    refine ⟨⟨?_, h.2.sublist hsub⟩, Or.inl ⟨?_, rfl, hsub⟩⟩
    · intro o ho
      exact h.1 o (hsub.subset ho)
    · rw [List.drop_eq_nil_of_le hsub.length_le]
      rfl

/-- A session from a state whose keys are below the counter: the issued keys carry the
consecutive counter values from the initial to the final counter, and every child of the final
state carries a key of the initial state or an issued key. -/
theorem session_issues (ops : List (RegistryOp α)) (s : Designer α)
    (h : KeysBelowCounter s) :
    KeysBelowCounter (session s ops).1 ∧
      s.furnitureKeyCounter ≤ (session s ops).1.furnitureKeyCounter ∧
      (session s ops).2.map (fun k => k.counter) =
        List.range' s.furnitureKeyCounter
          ((session s ops).1.furnitureKeyCounter - s.furnitureKeyCounter) ∧
      ∀ o ∈ (session s ops).1.children,
        o ∈ s.children ∨ ∃ k ∈ (session s ops).2, o.userData.furnitureKey = some k := by
  induction ops generalizing s with
  | nil =>
    refine ⟨h, le_refl _, ?_, fun o ho => Or.inl ho⟩
    simp [session]
  | cons op rest ih =>
    obtain ⟨hinv, hcase⟩ := applyOp_issues s op h
    obtain ⟨i1, i2, i3, i4⟩ := ih (applyOp s op) hinv
    simp only [session]
    rcases hcase with ⟨hk, hc, hsub⟩ | ⟨o, k, hk, hkc, hok, hc, hch⟩
    · rw [hc] at i2 i3
      refine ⟨i1, i2, ?_, ?_⟩
      · rw [hk, List.nil_append]
        exact i3
      · intro c hcm
        rcases i4 c hcm with hm | ⟨k, hkm, hkk⟩
        · exact Or.inl (hsub.subset hm)
        · exact Or.inr ⟨k, List.mem_append_right _ hkm, hkk⟩
    · rw [hc] at i2 i3
      refine ⟨i1, by omega, ?_, ?_⟩
      · rw [hk, List.map_append, i3, List.map_cons, List.map_nil, hkc]
        have e : (session (applyOp s op) rest).1.furnitureKeyCounter - s.furnitureKeyCounter =
            ((session (applyOp s op) rest).1.furnitureKeyCounter -
              (s.furnitureKeyCounter + 1)) + 1 := by omega
        rw [e, List.range'_succ]
        rfl
      · intro c hcm
        rcases i4 c hcm with hm | ⟨k', hkm, hkk⟩
        · rw [hch, List.mem_append, List.mem_singleton] at hm
          rcases hm with hm | hm
          · exact Or.inl hm
          · subst hm
            exact Or.inr ⟨k, by rw [hk]; exact List.mem_append_left _ (List.mem_singleton_self _),
              hok⟩
        · exact Or.inr ⟨k', List.mem_append_right _ hkm, hkk⟩

/-- C16: in a session of placements, duplications and deletions that starts from the fresh
state, the issued keys carry the counter values 0, 1, 2, ... in this order, up to the final
value of `furnitureKeyCounter` (which no deletion lowers), so each issued key differs from
all keys issued before, also from those of deleted objects; every object of the registry
carries an issued key, and no two objects of the registry carry the same key. -/
theorem session_keys_never_reused (radius : α) (floors : List (Floor α))
    (ops : List (RegistryOp α)) :
    (session (freshDesigner radius floors) ops).2.map (fun k => k.counter) =
        List.range (session (freshDesigner radius floors) ops).1.furnitureKeyCounter ∧
      (session (freshDesigner radius floors) ops).2.Nodup ∧
      (∀ o ∈ (session (freshDesigner radius floors) ops).1.children,
        ∃ k ∈ (session (freshDesigner radius floors) ops).2,
          o.userData.furnitureKey = some k) ∧
      (session (freshDesigner radius floors) ops).1.children.Pairwise
        (fun a b => a.userData.furnitureKey ≠ b.userData.furnitureKey) := by
  have h0 : KeysBelowCounter (freshDesigner radius floors) :=
    ⟨fun o ho => absurd ho (List.not_mem_nil _), List.Pairwise.nil⟩
  obtain ⟨h1, -, h3, h4⟩ := session_issues ops (freshDesigner radius floors) h0
  have hz : (freshDesigner radius floors).furnitureKeyCounter = 0 := rfl
  rw [hz, Nat.sub_zero] at h3
  have hr : (session (freshDesigner radius floors) ops).2.map (fun k => k.counter) =
      List.range (session (freshDesigner radius floors) ops).1.furnitureKeyCounter := by
    rw [h3, List.range_eq_range']
  refine ⟨hr, ?_, ?_, h1.2⟩
  · apply List.Nodup.of_map (fun k : FurnitureKey => k.counter)
    rw [hr]
    exact List.nodup_range _
  · intro o ho
    rcases h4 o ho with hm | hm
    · exact absurd hm (List.not_mem_nil _)
    · exact hm

end

/-! ## Floor locks -/

section
variable {α : Type}

theorem lockOk_floorAt (floors : List (Floor α)) (o : Object3D α) (dflt : Int)
    (h : LockOk floors.length o) :
    ∃ k floor, o.userData.lockedFloor = some k ∧ lockedFloorOr o dflt = k ∧
      floorAt floors k = some floor := by
  obtain ⟨k, hk, h0, hlt⟩ := h
  refine ⟨k, floors.get ⟨k.toNat, hlt⟩, hk, ?_, ?_⟩
  · unfold lockedFloorOr
    rw [hk]
  · unfold floorAt
    rw [if_pos h0]
    exact List.getElem?_eq_getElem hlt

theorem lockOk_of_floorAt (floors : List (Floor α)) (o : Object3D α) (k : Int)
    (floor : Floor α) (hk : o.userData.lockedFloor = some k)
    (hf : floorAt floors k = some floor) : LockOk floors.length o := by
  unfold floorAt at hf
  split_ifs at hf with h0
  exact ⟨k, hk, h0, (List.getElem?_eq_some_iff.1 hf).1⟩

/-- The locks stay valid when every object afterwards carries the lock of an object before
and no slab is removed. -/
theorem locksValid_of_same (s s' : Designer α) (h : LocksValid s)
    (hlen : s.floors.length ≤ s'.floors.length)
    (hsame : ∀ o' ∈ s'.children ++ s'.detached, ∃ o ∈ s.children ++ s.detached,
      o'.userData.lockedFloor = o.userData.lockedFloor) : LocksValid s' := by
  intro o' ho'
  obtain ⟨o, ho, he⟩ := hsame o' ho'
  obtain ⟨k, hk, h0, hlt⟩ := h o ho
  exact ⟨k, by rw [he, hk], h0, lt_of_lt_of_le hlt hlen⟩

theorem locksValid_mapObjects (s : Designer α) (g : Object3D α → Object3D α)
    (hg : ∀ o, (g o).userData.lockedFloor = o.userData.lockedFloor) (h : LocksValid s) :
    LocksValid (mapObjects s g) := by
  refine locksValid_of_same s _ h (le_refl _) ?_
  intro o' ho'
  have : o' ∈ (s.children ++ s.detached).map g := by
    rw [List.map_append]
    exact ho'
  obtain ⟨o, ho, rfl⟩ := List.mem_map.1 this
  exact ⟨o, ho, hg o⟩

theorem locksValid_updateObject (s : Designer α) (id : Nat) (f : Object3D α → Object3D α)
    (hf : ∀ o, (f o).userData.lockedFloor = o.userData.lockedFloor) (h : LocksValid s) :
    LocksValid (updateObject s id f) := by
  rw [updateObject_eq_mapObjects]
  refine locksValid_mapObjects s _ ?_ h
  intro o
  split_ifs
  · exact hf o
  · rfl

theorem findObject_mem (s : Designer α) (id : Nat) (o : Object3D α)
    (h : findObject s id = some o) : o ∈ s.children ++ s.detached :=
  List.mem_of_find?_eq_some h

theorem locksValid_deleteObject (s : Designer α) (id : Nat) (h : LocksValid s) :
    LocksValid (deleteObject s id) := by
  refine locksValid_of_same s _ h (le_refl _) ?_
  intro o' ho'
  refine ⟨o', ?_, rfl⟩
  simp only [deleteObject, List.mem_append, List.mem_filter] at ho' ⊢
  tauto

theorem locksValid_reparentSelected (s : Designer α) (sel : Nat) (selected : Object3D α)
    (hsel : selected ∈ s.children ++ s.detached) (h : LocksValid s) :
    LocksValid (reparentSelected s sel selected) := by
  unfold reparentSelected
  split_ifs
  · exact h
  · refine locksValid_of_same s _ h (le_refl _) ?_
    intro o' ho'
    refine ⟨o', ?_, rfl⟩
    simp only [List.mem_append, List.mem_filter, List.mem_singleton] at ho' hsel ⊢
    rcases ho' with (ho' | ho') | ho'
    · exact Or.inl ho'
    · rw [ho']
      exact hsel
    · exact Or.inr ho'.1

theorem locksValid_removeDuplicatesOf (s : Designer α) (sel : Nat)
    (objectKey : Option FurnitureKey) (h : LocksValid s) :
    LocksValid (removeDuplicatesOf s sel objectKey) := by
  refine locksValid_of_same s _ h (le_refl _) ?_
  intro o' ho'
  refine ⟨o', ?_, rfl⟩
  simp only [removeDuplicatesOf, List.mem_append, List.mem_filter] at ho' ⊢
  tauto

theorem locksValid_removeDuplicates (s : Designer α) (h : LocksValid s) :
    LocksValid (removeDuplicates s) := by
  refine locksValid_of_same s _ h (le_refl _) ?_
  intro o' ho'
  refine ⟨o', ?_, rfl⟩
  have hdrop : ∀ (l : List (Object3D α)) (seen : List FurnitureKey),
      (dedupDrop seen l).Sublist l := by
    intro l
    induction l with
    | nil => intro seen; exact List.Sublist.refl _
    | cons a l ih =>
      intro seen
      unfold dedupDrop
      split
      · split_ifs
        · exact (ih _).cons₂ _
        · exact (ih _).cons _
      · exact (ih _).cons _
  simp only [removeDuplicates, List.mem_append] at ho' ⊢
  rcases ho' with ho' | ho' | ho'
  · exact Or.inl ((dedupKeep_sublist [] s.children).subset ho')
  · exact Or.inr ho'
  · exact Or.inl ((hdrop s.children []).subset ho')

end

section
variable {α : Type} [LinearOrderedField α]

theorem locksValid_placeObjectAt (s : Designer α) (now : Int) (box : PrefabBox α)
    (worldPoint : Vector3 α) (floorIdx : Int) (h : LocksValid s) :
    LocksValid (placeObjectAt s now box worldPoint floorIdx).1 := by
  unfold placeObjectAt
  split_ifs
  · exact h
  · exact h
  · cases hfl : floorAt s.floors floorIdx with
    | none => exact h
    | some floor =>
      intro o ho
      simp only [List.mem_append, List.mem_singleton] at ho
      rcases ho with (ho | ho) | ho
      · exact h o (List.mem_append_left _ ho)
      · rw [ho]
        exact lockOk_of_floorAt s.floors _ floorIdx floor rfl hfl
      · exact h o (List.mem_append_right _ ho)

theorem locksValid_duplicateObject (s : Designer α) (id : Nat) (h : LocksValid s) :
    LocksValid (duplicateObject s id) := by
  unfold duplicateObject
  cases hfind : findObject s id with
  | none => exact h
  | some object =>
    refine locksValid_of_same s _ h (le_refl _) ?_
    intro o' ho'
    simp only [List.mem_append, List.mem_singleton] at ho'
    rcases ho' with (ho' | ho') | ho'
    · exact ⟨o', List.mem_append_left _ ho', rfl⟩
    · rw [ho']
      exact ⟨object, findObject_mem s id object hfind, rfl⟩
    · exact ⟨o', List.mem_append_right _ ho', rfl⟩

omit [LinearOrderedField α] in
theorem locksValid_startDrag (s : Designer α) (now : Int) (id : Nat) (h : LocksValid s) :
    LocksValid (startDrag s now id) := by
  unfold startDrag
  split_ifs
  · exact h
  · exact h
  · cases hfind : findObject s id with
    | none => exact h
    | some object =>
      exact locksValid_updateObject s id _ (fun _ => rfl) h

theorem locksValid_updateDrag (s : Designer α) (h : LocksValid s) :
    LocksValid (updateDrag s) := by
  unfold updateDrag
  split
  · split
    · exact h
    · exact locksValid_updateObject s _ _ (fun _ => rfl) h
  · exact h

theorem locksValid_setStableObjectPosition (s : Designer α) (id : Nat) (h : LocksValid s) :
    LocksValid (setStableObjectPosition s id) := by
  unfold setStableObjectPosition
  split
  · exact h
  · split
    · exact h
    · exact locksValid_updateObject s id _ (fun _ => rfl) h

theorem locksValid_updateFurniturePositions (s : Designer α) (h : LocksValid s) :
    LocksValid (updateFurniturePositions s) := by
  refine locksValid_of_same s _ h (le_refl _) ?_
  intro o' ho'
  simp only [updateFurniturePositions, List.mem_append, List.mem_map] at ho'
  rcases ho' with ⟨o, ho, rfl⟩ | ho'
  · refine ⟨o, List.mem_append_left _ ho, ?_⟩
    unfold anchorToFloor
    split <;> rfl
  · exact ⟨o', List.mem_append_right _ ho', rfl⟩

theorem locksValid_updateGravity (s : Designer α) (delta : α) (h : LocksValid s) :
    LocksValid (updateGravity s delta) := by
  have h0 := locksValid_removeDuplicates s h
  unfold updateGravity
  simp only
  split_ifs
  · exact h0
  · obtain ⟨g, hg, -, hr⟩ := dropAll_onlyY (frameStep delta) (removeDuplicates s).activeDrops
      (removeDuplicates s)
    have h1 : LocksValid (dropAll (frameStep delta) (removeDuplicates s)
        (removeDuplicates s).activeDrops).1 := by
      rw [hr]
      refine locksValid_mapObjects _ g ?_ h0
      intro o
      obtain ⟨y, hy⟩ := hg o
      rw [hy]
      rfl
    refine locksValid_of_same _ _ h1 (le_refl _) ?_
    intro o' ho'
    simp only [List.mem_append, List.mem_map, List.map_map] at ho'
    rcases ho' with ⟨o, ho, rfl⟩ | ho'
    · exact ⟨o, List.mem_append_left _ ho, (stickObject_frame _ _ o).2.2.1⟩
    · exact ⟨o', List.mem_append_right _ ho', rfl⟩

theorem popOutFloors_length (index : Int) (floors : List (Floor α)) :
    (popOutFloors index floors).length = floors.length := by
  simp [popOutFloors]

theorem locksValid_setSelectedFloor (w : Workspace α) (index : Int)
    (h : LocksValid w.designer) : LocksValid (setSelectedFloor w index).designer := by
  have h1 : LocksValid
      ({ w.designer with
        floors := popOutFloors index w.designer.floors
        children := w.designer.children.map (fun obj =>
          { obj with visible := decide (lockedFloorOr obj (-1) = index) }) } : Designer α) := by
    refine locksValid_of_same w.designer _ h (le_of_eq (popOutFloors_length _ _).symm) ?_
    intro o' ho'
    simp only [List.mem_append, List.mem_map] at ho'
    rcases ho' with ⟨o, ho, rfl⟩ | ho'
    · exact ⟨o, List.mem_append_left _ ho, rfl⟩
    · exact ⟨o', List.mem_append_right _ ho', rfl⟩
  unfold setSelectedFloor
  simp only
  split
  · exact h1
  · exact locksValid_updateFurniturePositions _ h1

theorem locksValid_resetFloorFocus (w : Workspace α) (h : LocksValid w.designer) :
    LocksValid (resetFloorFocus w).designer := by
  have h1 : LocksValid
      ({ w.designer with
        floors := w.designer.floors.map
          (fun f => { f with positionY := f.baseY.getD f.positionY })
        children := w.designer.children.map setVisible } : Designer α) := by
    refine locksValid_of_same w.designer _ h (le_of_eq (List.length_map _ _).symm) ?_
    intro o' ho'
    simp only [List.mem_append, List.mem_map] at ho'
    rcases ho' with ⟨o, ho, rfl⟩ | ho'
    · exact ⟨o, List.mem_append_left _ ho, rfl⟩
    · exact ⟨o', List.mem_append_right _ ho', rfl⟩
  exact locksValid_updateFurniturePositions _ h1

end

theorem locksValid_validateAndFixDragPosition (s : Designer ℝ) (id : Nat)
    (h : LocksValid s) : LocksValid (validateAndFixDragPosition s id) := by
  unfold validateAndFixDragPosition
  cases hfind : findObject s id with
  | none => exact h
  | some object =>
    obtain ⟨k, floor, -, hk, hfl⟩ := lockOk_floorAt s.floors object 0
      (h object (findObject_mem s id object hfind))
    simp only [hk, hfl]
    exact locksValid_updateObject s id _ (fun _ => rfl) h

theorem locksValid_releaseSelected (s1 : Designer ℝ) (sel : Nat) (selected : Object3D ℝ)
    (hsel : selected ∈ s1.children ++ s1.detached) (h : LocksValid s1) :
    LocksValid (releaseSelected s1 sel selected) := by
  have h2 := locksValid_reparentSelected s1 sel selected hsel h
  have h3 := locksValid_updateObject (reparentSelected s1 sel selected) sel setVisible
    (fun _ => rfl) h2
  have h4 := locksValid_removeDuplicatesOf
    (updateObject (reparentSelected s1 sel selected) sel setVisible) sel
    selected.userData.furnitureKey h3
  have h5 := locksValid_validateAndFixDragPosition
    (removeDuplicatesOf (updateObject (reparentSelected s1 sel selected) sel setVisible) sel
      selected.userData.furnitureKey) sel h4
  unfold releaseSelected
  simp only
  apply locksValid_setStableObjectPosition
  split_ifs
  · exact locksValid_updateObject _ sel snapToGrid (fun _ => rfl) h5
  · exact h5

theorem locksValid_endDrag (s : Designer ℝ) (h : LocksValid s) : LocksValid (endDrag s) := by
  unfold endDrag
  split_ifs
  · exact h
  · split
    · exact h
    · split
      · exact h
      · rename_i sel _ _ selected hfind
        exact locksValid_releaseSelected { s with isDragging := false } sel selected
          (findObject_mem s sel selected hfind) h

theorem locksValid_buildFloors (w : Workspace ℝ) (h : LocksValid w.designer)
    (hlen : (w.designer.floors.length : Int) ≤ w.numFloors) :
    LocksValid (buildFloors w).designer := by
  refine locksValid_of_same w.designer _ h ?_ ?_
  · by_cases h1 : w.numFloors < 1
    · have : w.designer.floors.length = 0 := by omega
      rw [this]
      exact Nat.zero_le _
    · rw [buildFloors_floors w (not_lt.1 h1)]
      have e : w.numFloors = ((w.numFloors.toNat : Nat) : Int) := by
        rw [Int.toNat_of_nonneg]
        omega
      rw [e, buildFloorSlabs_length]
      omega
  · intro o' ho'
    rw [buildFloors_children w] at ho'
    have hdet : (buildFloors w).designer.detached = w.designer.detached := by
      unfold buildFloors
      split_ifs <;> rfl
    rw [hdet] at ho'
    simp only [List.mem_append, List.mem_map] at ho'
    rcases ho' with ⟨o, ho, rfl⟩ | ho'
    · refine ⟨o, List.mem_append_left _ ho, ?_⟩
      unfold anchorToFloor
      split <;> rfl
    · exact ⟨o', List.mem_append_right _ ho', rfl⟩

theorem locksValid_stepWorkspace (w : Workspace ℝ) (op : WorkspaceOp)
    (h : LocksValid w.designer) (hop : KeepsFloors w op) :
    LocksValid (stepWorkspace w op).designer := by
  cases op with
  | place now box worldPoint floorIdx => exact locksValid_placeObjectAt _ _ _ _ _ h
  | duplicate id => exact locksValid_duplicateObject _ _ h
  | delete id => exact locksValid_deleteObject _ _ h
  | startDrag now id => exact locksValid_startDrag _ _ _ h
  | drag pointer =>
    exact locksValid_updateDrag _ (h : LocksValid ({ w.designer with pointer := pointer }))
  | release => exact locksValid_endDrag _ h
  | tick delta => exact locksValid_updateGravity _ _ h
  | selectFloor index => exact locksValid_setSelectedFloor _ _ h
  | resetFocus => exact locksValid_resetFloorFocus _ h
  | rebuild floors =>
    exact locksValid_buildFloors { w with numFloors := floors } h hop

/-- C20 (as amended): in every workspace reached from one without furniture by placements,
duplications, deletions, drags and releases, ticks, floor selections and floor rebuilds, as
long as no rebuild lowers the number of floor slabs, every furniture object's `lockedFloor` is
the index of an existing floor slab. -/
theorem reachable_locks_valid (w : Workspace ℝ) (h : Reachable w) :
    ∀ o ∈ w.designer.children, ∃ k floor, o.userData.lockedFloor = some k ∧
      floorAt w.designer.floors k = some floor := by
  have hinv : LocksValid w.designer := by
    induction h with
    | init w hc hd =>
      intro o ho
      rw [hc, hd] at ho
      exact absurd ho (List.not_mem_nil _)
    | step w op _ hop ih => exact locksValid_stepWorkspace w op ih hop
  intro o ho
  obtain ⟨k, floor, hk, -, hfl⟩ := lockOk_floorAt w.designer.floors o 0
    (hinv o (List.mem_append_left _ ho))
  exact ⟨k, floor, hk, hfl⟩

theorem buildFloors_locks (w : Workspace ℝ) :
    (buildFloors w).designer.children.map (fun o => o.userData.lockedFloor) =
      w.designer.children.map (fun o => o.userData.lockedFloor) := by
  rw [buildFloors_children w, List.map_map]
  apply List.map_congr_left
  intro o _
  simp only [Function.comp]
  unfold anchorToFloor
  split <;> rfl

theorem applyFloors_fresh :
    (applyFloors (habitatWorkspace (8 : ℝ) 0) 3).designer =
      freshDesigner 10 (buildFloorSlabs 3 8) := by
  unfold applyFloors buildFloors
  rw [if_neg (by norm_num)]
  rfl

theorem growSession_children :
    (runWorkspace (habitatWorkspace (8 : ℝ) 0) growSession).designer.children.map
      (fun o => o.userData.lockedFloor) = [some 2] := by
  have hrun : (runWorkspace (habitatWorkspace (8 : ℝ) 0) growSession).designer =
      (placeObjectAt (freshDesigner (10 : ℝ) (buildFloorSlabs 3 8)) 1000 bedBox
        { x := 0, y := 0, z := 0 } 2).1 := by
    rw [← applyFloors_fresh]
    rfl
  rw [hrun]
  have hfl : floorAt (freshDesigner (10 : ℝ) (buildFloorSlabs 3 8)).floors 2 =
      some { positionY := -8 / 2 + (((2 : Nat) : ℝ) + 1) * (8 / (((3 : Nat) : ℝ) + 1))
             floorIndex := 2
             baseY := none } := by
    have := buildFloorSlabs_getElem? 3 (8 : ℝ) 2 (by decide)
    unfold floorAt
    rw [if_pos (by decide)]
    exact this
  have hv : validatePlacementPosition (freshDesigner (10 : ℝ) (buildFloorSlabs 3 8)) 1000
      { x := 0, y := 0, z := 0 } 2 = true := by
    rw [validatePlacementPosition_eq_true]
    refine ⟨rfl, by decide, by rw [hfl]; rfl, ?_, by decide, ?_⟩
    · simp only [sqrtGt, freshDesigner]
      norm_num
    · simp [checkMinimumDistance, getObjectsOnFloor, freshDesigner]
  unfold placeObjectAt
  simp only [hv, hfl]
  simp [freshDesigner, newFurniture]

/-- The workspace after `growSession` is reached without a rebuild that removes a slab; its
object is locked to floor 2, and slab 2 exists. -/
theorem reachable_locks_valid_witness :
    Reachable (runWorkspace (habitatWorkspace (8 : ℝ) 0) growSession) ∧
      ∀ o ∈ (runWorkspace (habitatWorkspace (8 : ℝ) 0) growSession).designer.children,
        ∃ k floor, o.userData.lockedFloor = some k ∧
          floorAt (runWorkspace (habitatWorkspace (8 : ℝ) 0) growSession).designer.floors k =
            some floor := by
  have hr : Reachable (runWorkspace (habitatWorkspace (8 : ℝ) 0) growSession) :=
    Reachable.step _ (.place 1000 bedBox { x := 0, y := 0, z := 0 } 2)
      (Reachable.step _ (.rebuild 3) (Reachable.init _ rfl rfl)
        (by simp [KeepsFloors, habitatWorkspace, freshDesigner]))
      trivial
  exact ⟨hr, reachable_locks_valid _ hr⟩

/-- C20 (counterexample): after three floors are built, an object is placed on floor 2 and
the floors are rebuilt with a floor count of 1, the object is still locked to floor 2 while
only slab 0 exists. -/
theorem rebuild_leaves_dangling_lock :
    (runWorkspace (habitatWorkspace (8 : ℝ) 0) shrinkSession).designer.children.map
        (fun o => o.userData.lockedFloor) = [some 2] ∧
      (runWorkspace (habitatWorkspace (8 : ℝ) 0) shrinkSession).designer.floors.length = 1 ∧
      floorAt (runWorkspace (habitatWorkspace (8 : ℝ) 0) shrinkSession).designer.floors 2 =
        none := by
  have hrun : runWorkspace (habitatWorkspace (8 : ℝ) 0) shrinkSession =
      buildFloors { runWorkspace (habitatWorkspace (8 : ℝ) 0) growSession with
        numFloors := 1 } := rfl
  have hlen : (runWorkspace (habitatWorkspace (8 : ℝ) 0) shrinkSession).designer.floors.length
      = 1 := by
    rw [hrun, buildFloors_floors _ (le_refl _)]
    exact buildFloorSlabs_length 1 _
  refine ⟨?_, hlen, ?_⟩
  · rw [hrun, buildFloors_locks]
    exact growSession_children
  · unfold floorAt
    rw [if_pos (by decide), List.getElem?_eq_none_iff, hlen]
    decide

/-! ## Partition walls -/

theorem floorWalls_eq (radius gap : ℝ) (purpose : List String) (crewSize : Int) (i : Nat)
    (y : ℝ) :
    floorWalls radius gap purpose crewSize i y =
      verticalWalls radius gap purpose crewSize i y ++
        horizontalWalls radius gap purpose crewSize i y ++ boundaryWalls radius gap i y := by
  unfold floorWalls verticalWalls horizontalWalls boundaryWalls
  simp only [List.append_assoc]

theorem densityFactor_cases (crewSize : Int) :
    (crewSize ≤ 12 → densityFactor crewSize = 1.0) ∧
      (12 < crewSize → crewSize ≤ 24 → densityFactor crewSize = 1.1) ∧
      (24 < crewSize → densityFactor crewSize = 1.3) := by
  unfold densityFactor
  refine ⟨?_, ?_, ?_⟩
  · intro h
    rw [if_neg (by omega), if_neg (by omega)]
  · intro h1 h2
    rw [if_neg (by omega), if_pos (by omega)]
  · intro h
    rw [if_pos (by omega)]

theorem densityFactor_bounds (crewSize : Int) :
    1 ≤ densityFactor crewSize ∧ densityFactor crewSize ≤ 1.3 := by
  unfold densityFactor
  split_ifs <;> constructor <;> norm_num

theorem roomCount_pos (extent : ℝ) (purpose : List String) : 1 ≤ roomCount extent purpose :=
  le_max_left _ _

theorem gridCount_pos (rooms crewSize : Int) : 1 ≤ gridCount rooms crewSize :=
  le_max_left _ _

/-- For a room count of at least 1 the clamp of `gridCount` is idle: the grid count is
`rooms * density` rounded to the nearest integer, halves rounded up. -/
theorem gridCount_round (rooms crewSize : Int) (h : 1 ≤ rooms) :
    gridCount rooms crewSize = ⌊(rooms : ℝ) * densityFactor crewSize + 0.5⌋ ∧
      (gridCount rooms crewSize : ℝ) - 0.5 ≤ (rooms : ℝ) * densityFactor crewSize ∧
      (rooms : ℝ) * densityFactor crewSize < (gridCount rooms crewSize : ℝ) + 0.5 := by
  have hd := (densityFactor_bounds crewSize).1
  have hr : (1 : ℝ) ≤ (rooms : ℝ) := by exact_mod_cast h
  have hv : (1 : ℝ) ≤ (rooms : ℝ) * densityFactor crewSize := by nlinarith
  have hfl : 1 ≤ ⌊(rooms : ℝ) * densityFactor crewSize + 0.5⌋ := by
    rw [Int.le_floor]
    push_cast
    linarith
  have he : gridCount rooms crewSize = ⌊(rooms : ℝ) * densityFactor crewSize + 0.5⌋ :=
    max_eq_right hfl
  refine ⟨he, ?_, ?_⟩
  · rw [he]
    have := Int.floor_le ((rooms : ℝ) * densityFactor crewSize + 0.5)
    linarith
  · rw [he]
    have := Int.lt_floor_add_one ((rooms : ℝ) * densityFactor crewSize + 0.5)
    linarith

theorem gridCount_one (crewSize : Int) : gridCount 1 crewSize = 1 := by
  obtain ⟨h1, h2⟩ := densityFactor_bounds crewSize
  unfold gridCount
  have : ⌊((1 : Int) : ℝ) * densityFactor crewSize + 0.5⌋ = 1 := by
    rw [Int.floor_eq_iff]
    push_cast
    constructor <;> linarith
  rw [this]
  rfl

/-- A footprint whose quotient `extent / sqrt(area)` floors to 0 or less: room count 1, grid
count 1, no interior walls. -/
theorem degenerate_grid (radius gap : ℝ) (purpose : List String) (crewSize : Int) (i : Nat)
    (y : ℝ) (h : ⌊radius * 2.2 / Real.sqrt (targetRoomArea purpose)⌋ ≤ 0) :
    roomCount (radius * 2.2) purpose = 1 ∧
      gridCount (roomCount (radius * 2.2) purpose) crewSize = 1 ∧
      verticalWalls radius gap purpose crewSize i y = [] ∧
      horizontalWalls radius gap purpose crewSize i y = [] ∧
      floorWalls radius gap purpose crewSize i y = boundaryWalls radius gap i y := by
  have hr : roomCount (radius * 2.2) purpose = 1 := by
    unfold roomCount
    exact max_eq_left (by omega)
  have hg : gridCount (roomCount (radius * 2.2) purpose) crewSize = 1 := by
    rw [hr]
    exact gridCount_one crewSize
  have hv : verticalWalls radius gap purpose crewSize i y = [] := by
    unfold verticalWalls
    simp only [hg]
    rfl
  have hh : horizontalWalls radius gap purpose crewSize i y = [] := by
    unfold horizontalWalls
    simp only [hg]
    rfl
  refine ⟨hr, hg, hv, hh, ?_⟩
  rw [floorWalls_eq, hv, hh]
  rfl

/-- C21: `buildFloorPartitions` uses the target room area 16 for Research, else 20 for
Mixed-use, else 12; the room count over an extent is `floor(extent / sqrt(area))` clamped to
at least 1; the density factor is 1.0 for a crew of at most 12, 1.1 for 13 to 24 and 1.3
above; the grid count is `rooms * density` rounded to the nearest integer, which is at least
1; and a footprint whose quotient `extent / sqrt(area)` floors to 0 or less gets the room
count 1, the grid count 1 and no interior wall: the walls of each floor are the boundary
walls. -/
theorem gridResolution (radius gap : ℝ) (purpose : List String) (crewSize : Int) (i : Nat)
    (y : ℝ) :
    (("Research" ∈ purpose → targetRoomArea purpose = 16) ∧
      ("Research" ∉ purpose → "Mixed-use" ∈ purpose → targetRoomArea purpose = 20) ∧
      ("Research" ∉ purpose → "Mixed-use" ∉ purpose → targetRoomArea purpose = 12)) ∧
    ((crewSize ≤ 12 → densityFactor crewSize = 1.0) ∧
      (12 < crewSize → crewSize ≤ 24 → densityFactor crewSize = 1.1) ∧
      (24 < crewSize → densityFactor crewSize = 1.3)) ∧
    (1 ≤ roomCount (radius * 2.2) purpose ∧
      (1 ≤ ⌊radius * 2.2 / Real.sqrt (targetRoomArea purpose)⌋ →
        roomCount (radius * 2.2) purpose =
          ⌊radius * 2.2 / Real.sqrt (targetRoomArea purpose)⌋) ∧
      (⌊radius * 2.2 / Real.sqrt (targetRoomArea purpose)⌋ ≤ 0 →
        roomCount (radius * 2.2) purpose = 1)) ∧
    (1 ≤ gridCount (roomCount (radius * 2.2) purpose) crewSize ∧
      gridCount (roomCount (radius * 2.2) purpose) crewSize =
        ⌊(roomCount (radius * 2.2) purpose : ℝ) * densityFactor crewSize + 0.5⌋ ∧
      (gridCount (roomCount (radius * 2.2) purpose) crewSize : ℝ) - 0.5 ≤
        (roomCount (radius * 2.2) purpose : ℝ) * densityFactor crewSize ∧
      (roomCount (radius * 2.2) purpose : ℝ) * densityFactor crewSize <
        (gridCount (roomCount (radius * 2.2) purpose) crewSize : ℝ) + 0.5) ∧
    (⌊radius * 2.2 / Real.sqrt (targetRoomArea purpose)⌋ ≤ 0 →
      gridCount (roomCount (radius * 2.2) purpose) crewSize = 1 ∧
      verticalWalls radius gap purpose crewSize i y = [] ∧
      horizontalWalls radius gap purpose crewSize i y = [] ∧
      floorWalls radius gap purpose crewSize i y = boundaryWalls radius gap i y) := by
  refine ⟨⟨?_, ?_, ?_⟩, densityFactor_cases crewSize, ⟨roomCount_pos _ _, ?_,
      fun h => (degenerate_grid radius gap purpose crewSize i y h).1⟩,
    ⟨gridCount_pos _ _, gridCount_round _ _ (roomCount_pos _ _)⟩, ?_⟩
  · intro h
    unfold targetRoomArea
    rw [if_pos h]
  · intro h1 h2
    unfold targetRoomArea
    rw [if_neg h1, if_pos h2]
  · intro h1 h2
    unfold targetRoomArea
    rw [if_neg h1, if_neg h2]
  · intro h
    unfold roomCount
    exact max_eq_right h
  · intro h
    exact (degenerate_grid radius gap purpose crewSize i y h).2

theorem addWall_of_long (wallHeight wallThickness x1 z1 x2 z2 y : ℝ) (floorIdx : Int)
    (h : 0.01 ≤ Real.sqrt ((x2 - x1) * (x2 - x1) + (z2 - z1) * (z2 - z1))) :
    addWall wallHeight wallThickness x1 z1 x2 z2 y floorIdx =
      [{ floorIndex := floorIdx, x1 := x1, z1 := z1, x2 := x2, z2 := z2, floorY := y,
         height := wallHeight, thickness := wallThickness, visible := true }] := by
  unfold addWall
  simp only
  rw [if_neg (not_lt.2 h)]

theorem addWall_mem (wallHeight wallThickness x1 z1 x2 z2 y : ℝ) (floorIdx : Int)
    (wall : Wall ℝ) (h : wall ∈ addWall wallHeight wallThickness x1 z1 x2 z2 y floorIdx) :
    wall = { floorIndex := floorIdx, x1 := x1, z1 := z1, x2 := x2, z2 := z2, floorY := y,
             height := wallHeight, thickness := wallThickness, visible := true } := by
  unfold addWall at h
  simp only at h
  split_ifs at h
  · exact absurd h (List.not_mem_nil _)
  · exact List.mem_singleton.1 h

theorem flatMap_ite_singleton {β γ : Type} (l : List β) (p : β → Prop) [DecidablePred p]
    (f : β → γ) :
    l.flatMap (fun g => if p g then [] else [f g]) =
      (l.filter (fun g => decide (¬ p g))).map f := by
  induction l with
  | nil => rfl
  | cons a l ih =>
    rw [List.flatMap_cons, ih, List.filter_cons]
    by_cases h : p a <;> simp [h]

/-- Length of an axis-parallel segment across the footprint. -/
theorem sqrt_span (a : ℝ) (h : 0.01 ≤ a) :
    (0.01 : ℝ) ≤ Real.sqrt (0 * 0 + a * a) ∧ (0.01 : ℝ) ≤ Real.sqrt (a * a + 0 * 0) := by
  have h0 : 0 ≤ a := le_trans (by norm_num) h
  have e1 : Real.sqrt (0 * 0 + a * a) = a := by
    rw [zero_mul, zero_add, Real.sqrt_mul_self h0]
  have e2 : Real.sqrt (a * a + 0 * 0) = a := by
    rw [zero_mul, add_zero, Real.sqrt_mul_self h0]
  rw [e1, e2]
  exact ⟨h, h⟩

theorem verticalWalls_eq (radius gap : ℝ) (purpose : List String) (crewSize : Int) (i : Nat)
    (y : ℝ) (hfoot : 0.01 ≤ radius * 2.2) :
    verticalWalls radius gap purpose crewSize i y =
      ((List.range' 1 ((gridCount (roomCount (radius * 2.2) purpose) crewSize).toNat - 1)).filter
        (fun g => decide (¬ InCorridor purpose
          (gridLine (radius * 2.2) (gridCount (roomCount (radius * 2.2) purpose) crewSize)
            g)))).map
        (fun g => wallOn radius gap i y
          (gridLine (radius * 2.2) (gridCount (roomCount (radius * 2.2) purpose) crewSize) g)
          (-(radius * 2.2) / 2)
          (gridLine (radius * 2.2) (gridCount (roomCount (radius * 2.2) purpose) crewSize) g)
          (radius * 2.2 / 2)) := by
  rw [← flatMap_ite_singleton]
  unfold verticalWalls
  simp only
  congr 1
  funext g
  have hx : -(radius * 2.2) / 2 + (g : ℝ) * (radius * 2.2 /
      ((gridCount (roomCount (radius * 2.2) purpose) crewSize : Int) : ℝ)) =
      gridLine (radius * 2.2) (gridCount (roomCount (radius * 2.2) purpose) crewSize) g := by
    unfold gridLine
    ring
  rw [hx]
  have hc : (gridLine (radius * 2.2) (gridCount (roomCount (radius * 2.2) purpose) crewSize) g >
        0 - corridorWidth purpose / 2 ∧
      gridLine (radius * 2.2) (gridCount (roomCount (radius * 2.2) purpose) crewSize) g <
        0 + corridorWidth purpose / 2) ↔
      InCorridor purpose
        (gridLine (radius * 2.2) (gridCount (roomCount (radius * 2.2) purpose) crewSize) g) := by
    unfold InCorridor
    rw [zero_sub, zero_add]
  by_cases hin : InCorridor purpose
      (gridLine (radius * 2.2) (gridCount (roomCount (radius * 2.2) purpose) crewSize) g)
  · rw [if_pos (hc.2 hin), if_pos hin]
  · rw [if_neg (fun h => hin (hc.1 h)), if_neg hin]
    rw [addWall_of_long]
    · unfold wallOn
      congr 1
      rw [neg_div, neg_neg]
    · have e : -(-(radius * 2.2) / 2) - -(radius * 2.2) / 2 = radius * 2.2 := by ring
      rw [sub_self, e]
      exact (sqrt_span _ hfoot).1

theorem horizontalWalls_eq (radius gap : ℝ) (purpose : List String) (crewSize : Int) (i : Nat)
    (y : ℝ) (hfoot : 0.01 ≤ radius * 2.2) :
    horizontalWalls radius gap purpose crewSize i y =
      ((List.range' 1 ((gridCount (roomCount (radius * 2.2) purpose) crewSize).toNat - 1)).filter
        (fun g => decide (¬ InCorridor purpose
          (gridLine (radius * 2.2) (gridCount (roomCount (radius * 2.2) purpose) crewSize)
            g)))).map
        (fun g => wallOn radius gap i y (-(radius * 2.2) / 2)
          (gridLine (radius * 2.2) (gridCount (roomCount (radius * 2.2) purpose) crewSize) g)
          (radius * 2.2 / 2)
          (gridLine (radius * 2.2) (gridCount (roomCount (radius * 2.2) purpose) crewSize)
            g)) := by
  rw [← flatMap_ite_singleton]
  unfold horizontalWalls
  simp only
  congr 1
  funext g
  have hx : -(radius * 2.2) / 2 + (g : ℝ) * (radius * 2.2 /
      ((gridCount (roomCount (radius * 2.2) purpose) crewSize : Int) : ℝ)) =
      gridLine (radius * 2.2) (gridCount (roomCount (radius * 2.2) purpose) crewSize) g := by
    unfold gridLine
    ring
  rw [hx]
  have hc : (gridLine (radius * 2.2) (gridCount (roomCount (radius * 2.2) purpose) crewSize) g >
        0 - corridorWidth purpose / 2 ∧
      gridLine (radius * 2.2) (gridCount (roomCount (radius * 2.2) purpose) crewSize) g <
        0 + corridorWidth purpose / 2) ↔
      InCorridor purpose
        (gridLine (radius * 2.2) (gridCount (roomCount (radius * 2.2) purpose) crewSize) g) := by
    unfold InCorridor
    rw [zero_sub, zero_add]
  by_cases hin : InCorridor purpose
      (gridLine (radius * 2.2) (gridCount (roomCount (radius * 2.2) purpose) crewSize) g)
  · rw [if_pos (hc.2 hin), if_pos hin]
  · rw [if_neg (fun h => hin (hc.1 h)), if_neg hin]
    rw [addWall_of_long]
    · unfold wallOn
      congr 1
      rw [neg_div, neg_neg]
    · have e : -(-(radius * 2.2) / 2) - -(radius * 2.2) / 2 = radius * 2.2 := by ring
      rw [sub_self, e]
      exact (sqrt_span _ hfoot).2

theorem boundaryWalls_eq (radius gap : ℝ) (i : Nat) (y : ℝ) (hfoot : 0.01 ≤ radius * 2.2) :
    boundaryWalls radius gap i y =
      [wallOn radius gap i y (-(radius * 2.2) / 2) (-(radius * 2.2) / 2) (radius * 2.2 / 2)
          (-(radius * 2.2) / 2),
        wallOn radius gap i y (-(radius * 2.2) / 2) (radius * 2.2 / 2) (radius * 2.2 / 2)
          (radius * 2.2 / 2),
        wallOn radius gap i y (-(radius * 2.2) / 2) (-(radius * 2.2) / 2) (-(radius * 2.2) / 2)
          (radius * 2.2 / 2),
        wallOn radius gap i y (radius * 2.2 / 2) (-(radius * 2.2) / 2) (radius * 2.2 / 2)
          (radius * 2.2 / 2)] := by
  have e : -(-(radius * 2.2) / 2) - -(radius * 2.2) / 2 = radius * 2.2 := by ring
  have en : -(-(radius * 2.2) / 2) = radius * 2.2 / 2 := by rw [neg_div, neg_neg]
  unfold boundaryWalls
  simp only
  rw [addWall_of_long, addWall_of_long, addWall_of_long, addWall_of_long]
  · unfold wallOn
    simp only [en, List.cons_append, List.nil_append]
  · rw [sub_self, e]; exact (sqrt_span _ hfoot).1
  · rw [sub_self, e]; exact (sqrt_span _ hfoot).1
  · rw [sub_self, e]; exact (sqrt_span _ hfoot).2
  · rw [sub_self, e]; exact (sqrt_span _ hfoot).2

theorem floorWalls_eq_spec (radius gap : ℝ) (purpose : List String) (crewSize : Int) (i : Nat)
    (y : ℝ) (hfoot : 0.01 ≤ radius * 2.2) :
    floorWalls radius gap purpose crewSize i y =
      specFloorWalls radius gap purpose crewSize i y := by
  rw [floorWalls_eq, verticalWalls_eq _ _ _ _ _ _ hfoot, horizontalWalls_eq _ _ _ _ _ _ hfoot,
    boundaryWalls_eq _ _ _ _ hfoot]
  rfl

/-- The partitions left by `buildFloors` for a floor count of at least 1: the walls of the
floors in order, each at the elevation of its slab. -/
theorem buildFloors_partitions (w : Workspace ℝ) (N : Nat) (hN : 1 ≤ N)
    (hw : w.numFloors = (N : Int)) :
    (buildFloors w).partitions =
      (List.range N).flatMap (fun i =>
        floorWalls w.designer.currentRadius (w.currentHeight / ((N : ℝ) + 1)) w.purpose
          w.crewSize i
          (-w.currentHeight / 2 + ((i : ℝ) + 1) * (w.currentHeight / ((N : ℝ) + 1)))) := by
  have h1 : ¬ w.numFloors < 1 := by
    rw [hw]
    exact_mod_cast not_lt.2 hN
  unfold buildFloors
  rw [if_neg h1]
  simp only
  unfold buildFloorPartitions
  have h1' : ¬ ((N : Int) < 1) := by rw [← hw]; exact h1
  simp only [hw, Int.toNat_ofNat, if_neg h1', Int.cast_natCast]
  apply List.flatMap_congr
  intro i hi
  rw [List.mem_range] at hi
  rw [buildFloorSlabs_getElem? N w.currentHeight i hi]

/-- C22 (as amended): for a footprint at least 0.01 wide (`2.2 * radius ≥ 0.01`) and a floor
count `N ≥ 1`, the partition walls left by `buildFloors` are, floor by floor in order, exactly
one full-depth wall on each interior grid line `x = -width / 2 + g * width / gridX`
(`1 ≤ g < gridX`) that is not strictly inside the corridor band, one full-width wall on each
such grid line in `z`, and the four boundary walls of the footprint; every wall of floor `i`
carries the index `i` and the elevation of slab `i`, and the four boundary walls are among the
walls of every floor. -/
theorem buildFloors_walls (w : Workspace ℝ) (N : Nat) (hN : 1 ≤ N)
    (hw : w.numFloors = (N : Int)) (hfoot : 0.01 ≤ w.designer.currentRadius * 2.2) :
    (buildFloors w).partitions =
        (List.range N).flatMap (fun i =>
          specFloorWalls w.designer.currentRadius (w.currentHeight / ((N : ℝ) + 1)) w.purpose
            w.crewSize i
            (-w.currentHeight / 2 + ((i : ℝ) + 1) * (w.currentHeight / ((N : ℝ) + 1)))) ∧
      (∀ (i : Nat) (gap y : ℝ),
        (∀ wall ∈ specFloorWalls w.designer.currentRadius gap w.purpose w.crewSize i y,
          wall.floorIndex = (i : Int) ∧ wall.floorY = y) ∧
        (boundaryWalls w.designer.currentRadius gap i y).length = 4 ∧
        (boundaryWalls w.designer.currentRadius gap i y).Sublist
          (specFloorWalls w.designer.currentRadius gap w.purpose w.crewSize i y)) := by
  constructor
  · rw [buildFloors_partitions w N hN hw]
    apply List.flatMap_congr
    intro i _
    exact floorWalls_eq_spec _ _ _ _ _ _ hfoot
  · intro i gap y
    refine ⟨?_, ?_, ?_⟩
    · intro wall hwall
      unfold specFloorWalls at hwall
      simp only [List.mem_append, List.mem_map, List.mem_cons, List.mem_singleton,
        List.not_mem_nil, or_false] at hwall
      rcases hwall with (⟨g, -, rfl⟩ | ⟨g, -, rfl⟩) | rfl | rfl | rfl | rfl <;> exact ⟨rfl, rfl⟩
    · rw [boundaryWalls_eq _ _ _ _ hfoot]
      rfl
    · rw [boundaryWalls_eq _ _ _ _ hfoot]
      unfold specFloorWalls
      exact List.sublist_append_right _ _

/-- With an empty footprint (`radius = 0`), every `addWall` call drops its segment: no wall is
added, the boundary walls included. -/
theorem floorWalls_empty_footprint (gap : ℝ) (purpose : List String) (crewSize : Int)
    (i : Nat) (y : ℝ) : floorWalls 0 gap purpose crewSize i y = [] := by
  have hfl : ⌊(0 : ℝ) * 2.2 / Real.sqrt (targetRoomArea purpose)⌋ ≤ 0 := by
    rw [zero_mul, zero_div, Int.floor_zero]
  rw [(degenerate_grid 0 gap purpose crewSize i y hfl).2.2.2.2]
  unfold boundaryWalls addWall
  simp only [zero_mul, neg_zero, zero_div, sub_self, mul_zero, add_zero, Real.sqrt_zero]
  norm_num

/-- C22 (counterexample): one floor over an empty footprint (`radius = 0`): the slab is built
and no wall at all is generated, so the four boundary walls are missing. -/
theorem buildFloors_no_boundary_walls :
    (buildFloors (footprintWorkspace (0 : ℝ) 8 1)).designer.floors.length = 1 ∧
      (buildFloors (footprintWorkspace (0 : ℝ) 8 1)).partitions = [] := by
  constructor
  · rw [buildFloors_floors _ (le_refl _)]
    exact buildFloorSlabs_length 1 _
  · rw [buildFloors_partitions (footprintWorkspace (0 : ℝ) 8 1) 1 (le_refl _) rfl]
    have hr : (footprintWorkspace (0 : ℝ) 8 1).designer.currentRadius = 0 := rfl
    simp [hr, floorWalls_empty_footprint]

/-- The grid of a footprint of radius 5 with nothing stored from the questionnaire: 3 rooms and
3 grid lines per axis. -/
theorem gridCount_radius_five : gridCount (roomCount ((5 : ℝ) * 2.2) []) 0 = 3 := by
  have hA : targetRoomArea [] = 12 := by simp [targetRoomArea]
  have hs1 : Real.sqrt 12 ≤ 11 / 3 := by
    rw [Real.sqrt_le_left (by norm_num)]
    norm_num
  have hs2 : (11 : ℝ) / 4 < Real.sqrt 12 := by
    rw [Real.lt_sqrt (by norm_num)]
    norm_num
  have hpos : (0 : ℝ) < Real.sqrt 12 := lt_trans (by norm_num) hs2
  have hfl : ⌊(5 : ℝ) * 2.2 / Real.sqrt 12⌋ = 3 := by
    rw [Int.floor_eq_iff]
    push_cast
    constructor
    · rw [le_div_iff₀ hpos]
      linarith
    · rw [div_lt_iff₀ hpos]
      linarith
  have hr : roomCount ((5 : ℝ) * 2.2) [] = 3 := by
    unfold roomCount
    rw [hA, hfl]
    rfl
  rw [hr]
  unfold gridCount
  have : ⌊((3 : Int) : ℝ) * densityFactor 0 + 0.5⌋ = 3 := by
    rw [Int.floor_eq_iff]
    simp only [densityFactor]
    norm_num
  rw [this]
  rfl

/-- The interior walls in `x` of a footprint of radius 5 with nothing stored from the
questionnaire: the grid lines `x = -11/6` and `x = 11/6`, both outside the corridor band
`(-0.6, 0.6)`, each with a wall across the full depth from `z = -11/2` to `z = 11/2`. -/
theorem verticalWalls_radius_five (gap : ℝ) (i : Nat) (y : ℝ) :
    verticalWalls 5 gap [] 0 i y =
      [wallOn 5 gap i y (-11 / 6) (-11 / 2) (-11 / 6) (11 / 2),
        wallOn 5 gap i y (11 / 6) (-11 / 2) (11 / 6) (11 / 2)] := by
  have hc : corridorWidth [] = 1.2 := by simp [corridorWidth]
  have e1 : gridLine ((5 : ℝ) * 2.2) 3 1 = -11 / 6 := by
    unfold gridLine
    norm_num
  have e2 : gridLine ((5 : ℝ) * 2.2) 3 2 = 11 / 6 := by
    unfold gridLine
    norm_num
  have h1 : ¬ InCorridor [] (-11 / 6) := by
    unfold InCorridor
    rw [hc]
    norm_num
  have h2 : ¬ InCorridor [] (11 / 6) := by
    unfold InCorridor
    rw [hc]
    norm_num
  have ea : -((5 : ℝ) * 2.2) / 2 = -11 / 2 := by norm_num
  have eb : (5 : ℝ) * 2.2 / 2 = 11 / 2 := by norm_num
  rw [verticalWalls_eq 5 gap [] 0 i y (by norm_num), gridCount_radius_five]
  have hr : List.range' 1 ((3 : Int).toNat - 1) = [1, 2] := rfl
  rw [hr]
  simp only [List.filter_cons, List.filter_nil, e1, e2, h1, h2, not_false_eq_true,
    decide_True, if_true, List.map_cons, List.map_nil, ea, eb]

theorem horizontalWalls_radius_five (gap : ℝ) (i : Nat) (y : ℝ) :
    horizontalWalls 5 gap [] 0 i y =
      [wallOn 5 gap i y (-11 / 2) (-11 / 6) (11 / 2) (-11 / 6),
        wallOn 5 gap i y (-11 / 2) (11 / 6) (11 / 2) (11 / 6)] := by
  have hc : corridorWidth [] = 1.2 := by simp [corridorWidth]
  have e1 : gridLine ((5 : ℝ) * 2.2) 3 1 = -11 / 6 := by
    unfold gridLine
    norm_num
  have e2 : gridLine ((5 : ℝ) * 2.2) 3 2 = 11 / 6 := by
    unfold gridLine
    norm_num
  have h1 : ¬ InCorridor [] (-11 / 6) := by
    unfold InCorridor
    rw [hc]
    norm_num
  have h2 : ¬ InCorridor [] (11 / 6) := by
    unfold InCorridor
    rw [hc]
    norm_num
  have ea : -((5 : ℝ) * 2.2) / 2 = -11 / 2 := by norm_num
  have eb : (5 : ℝ) * 2.2 / 2 = 11 / 2 := by norm_num
  rw [horizontalWalls_eq 5 gap [] 0 i y (by norm_num), gridCount_radius_five]
  have hr : List.range' 1 ((3 : Int).toNat - 1) = [1, 2] := rfl
  rw [hr]
  simp only [List.filter_cons, List.filter_nil, e1, e2, h1, h2, not_false_eq_true,
    decide_True, if_true, List.map_cons, List.map_nil, ea, eb]

/-- One floor of height 8 over a footprint of radius 5: the partitions are the walls of floor
0 as the specification words them, eight walls in all (two interior walls per axis and the
four boundary walls). -/
theorem buildFloors_walls_witness :
    (buildFloors (footprintWorkspace (5 : ℝ) 8 1)).partitions =
        (List.range 1).flatMap (fun i =>
          specFloorWalls 5 (8 / (((1 : Nat) : ℝ) + 1)) [] 0 i
            (-8 / 2 + ((i : ℝ) + 1) * (8 / (((1 : Nat) : ℝ) + 1)))) ∧
      (buildFloors (footprintWorkspace (5 : ℝ) 8 1)).partitions.length = 8 := by
  have hfoot : (0.01 : ℝ) ≤ (footprintWorkspace (5 : ℝ) 8 1).designer.currentRadius * 2.2 := by
    have : (footprintWorkspace (5 : ℝ) 8 1).designer.currentRadius = 5 := rfl
    rw [this]
    norm_num
  have h := (buildFloors_walls (footprintWorkspace (5 : ℝ) 8 1) 1 (le_refl 1) rfl hfoot).1
  refine ⟨h, ?_⟩
  rw [buildFloors_partitions (footprintWorkspace (5 : ℝ) 8 1) 1 (le_refl 1) rfl]
  have hr : (footprintWorkspace (5 : ℝ) 8 1).designer.currentRadius = 5 := rfl
  have hp : (footprintWorkspace (5 : ℝ) 8 1).purpose = [] := rfl
  have hcr : (footprintWorkspace (5 : ℝ) 8 1).crewSize = 0 := rfl
  simp only [hr, hp, hcr, floorWalls_eq, verticalWalls_radius_five, horizontalWalls_radius_five,
    boundaryWalls_eq 5 _ _ _ (by norm_num : (0.01 : ℝ) ≤ 5 * 2.2)]
  rfl

/-- What the `continue` of the two grid loops does: a grid line strictly inside the corridor band
gets no wall, so every interior wall along `z` stands on a line `x = const` with
`|x| ≥ corridorWidth / 2` and every interior wall along `x` on a line `z = const` with
`|z| ≥ corridorWidth / 2`.  The walls themselves run across the whole footprint. -/
theorem interior_walls_off_band (radius gap : ℝ) (purpose : List String) (crewSize : Int)
    (i : Nat) (y : ℝ) :
    (∀ wall ∈ verticalWalls radius gap purpose crewSize i y,
      wall.x1 = wall.x2 ∧ ¬ InCorridor purpose wall.x1 ∧
        ∀ x z, OnWall wall x z → corridorWidth purpose / 2 ≤ |x|) ∧
    (∀ wall ∈ horizontalWalls radius gap purpose crewSize i y,
      wall.z1 = wall.z2 ∧ ¬ InCorridor purpose wall.z1 ∧
        ∀ x z, OnWall wall x z → corridorWidth purpose / 2 ≤ |z|) := by
  have hband : ∀ v : ℝ, ¬ (v > 0 - corridorWidth purpose / 2 ∧ v < 0 + corridorWidth purpose / 2) →
      ¬ InCorridor purpose v ∧ corridorWidth purpose / 2 ≤ |v| := by
    intro v hv
    rw [zero_sub, zero_add] at hv
    refine ⟨hv, ?_⟩
    by_contra hlt
    rw [not_le, abs_lt] at hlt
    exact hv ⟨hlt.1, hlt.2⟩
  constructor
  · intro wall hwall
    unfold verticalWalls at hwall
    simp only [List.mem_flatMap] at hwall
    obtain ⟨g, -, hg⟩ := hwall
    split_ifs at hg with hin
    · exact absurd hg (List.not_mem_nil _)
    · have hw := addWall_mem _ _ _ _ _ _ _ _ wall hg
      obtain ⟨h1, h2⟩ := hband _ hin
      rw [hw]
      refine ⟨rfl, h1, ?_⟩
      rintro x z ⟨t, -, -, hx, -⟩
      simp only [sub_self, mul_zero, add_zero] at hx
      rw [hx]
      exact h2
  · intro wall hwall
    unfold horizontalWalls at hwall
    simp only [List.mem_flatMap] at hwall
    obtain ⟨g, -, hg⟩ := hwall
    split_ifs at hg with hin
    · exact absurd hg (List.not_mem_nil _)
    · have hw := addWall_mem _ _ _ _ _ _ _ _ wall hg
      obtain ⟨h1, h2⟩ := hband _ hin
      rw [hw]
      refine ⟨rfl, h1, ?_⟩
      rintro x z ⟨t, -, -, -, hz⟩
      simp only [sub_self, mul_zero, add_zero] at hz
      rw [hz]
      exact h2

/-- C29 (failing input): one floor of height 8 over a footprint of radius 5, nothing stored
from the questionnaire (corridor width 1.2).  Both grid counts are 3 and neither interior grid
line `±11/6` lies in the corridor band, so no line is skipped: the floor gets two interior
walls along `z`, on `x = ±11/6` from `z = -11/2` to `z = 11/2`, and two along `x`, on
`z = ±11/6` from `x = -11/2` to `x = 11/2`, all four among the partitions built.  Every one
of them passes through the corridor: the walls along `z` contain the points `(±11/6, 0)`, the
walls along `x` the points `(0, ±11/6)`, and `0` is less than half the corridor width.  No
central cross is left free of interior walls. -/
theorem interior_wall_crosses_corridor :
    verticalWalls 5 4 [] 0 0 0 =
        [wallOn 5 4 0 0 (-11 / 6) (-11 / 2) (-11 / 6) (11 / 2),
          wallOn 5 4 0 0 (11 / 6) (-11 / 2) (11 / 6) (11 / 2)] ∧
      horizontalWalls 5 4 [] 0 0 0 =
        [wallOn 5 4 0 0 (-11 / 2) (-11 / 6) (11 / 2) (-11 / 6),
          wallOn 5 4 0 0 (-11 / 2) (11 / 6) (11 / 2) (11 / 6)] ∧
      verticalWalls 5 4 [] 0 0 0 ++ horizontalWalls 5 4 [] 0 0 0 ⊆
        (buildFloors (footprintWorkspace (5 : ℝ) 8 1)).partitions ∧
      OnWall (wallOn 5 4 0 0 (-11 / 6) (-11 / 2) (-11 / 6) (11 / 2)) (-11 / 6) 0 ∧
      OnWall (wallOn 5 4 0 0 (11 / 6) (-11 / 2) (11 / 6) (11 / 2)) (11 / 6) 0 ∧
      OnWall (wallOn 5 4 0 0 (-11 / 2) (-11 / 6) (11 / 2) (-11 / 6)) 0 (-11 / 6) ∧
      OnWall (wallOn 5 4 0 0 (-11 / 2) (11 / 6) (11 / 2) (11 / 6)) 0 (11 / 6) ∧
      |(0 : ℝ)| < corridorWidth [] / 2 := by
  refine ⟨verticalWalls_radius_five 4 0 0, horizontalWalls_radius_five 4 0 0, ?_, ?_, ?_, ?_, ?_,
    ?_⟩
  · intro wall hwall
    rw [buildFloors_partitions (footprintWorkspace (5 : ℝ) 8 1) 1 (le_refl 1) rfl]
    rw [List.mem_flatMap]
    refine ⟨0, by simp, ?_⟩
    have hr : (footprintWorkspace (5 : ℝ) 8 1).designer.currentRadius = 5 := rfl
    have hp : (footprintWorkspace (5 : ℝ) 8 1).purpose = [] := rfl
    have hcr : (footprintWorkspace (5 : ℝ) 8 1).crewSize = 0 := rfl
    have hh : (footprintWorkspace (5 : ℝ) 8 1).currentHeight = 8 := rfl
    have hgap : (8 : ℝ) / (((1 : Nat) : ℝ) + 1) = 4 := by norm_num
    have hy : -(8 : ℝ) / 2 + (((0 : Nat) : ℝ) + 1) * 4 = 0 := by norm_num
    rw [hr, hp, hcr, hh, hgap, hy, floorWalls_eq]
    exact List.mem_append_left _ hwall
  · refine ⟨1 / 2, by norm_num, by norm_num, ?_, ?_⟩
    · simp [wallOn]
    · simp only [wallOn]
      norm_num
  · refine ⟨1 / 2, by norm_num, by norm_num, ?_, ?_⟩
    · simp [wallOn]
    · simp only [wallOn]
      norm_num
  · refine ⟨1 / 2, by norm_num, by norm_num, ?_, ?_⟩
    · simp only [wallOn]
      norm_num
    · simp [wallOn]
  · refine ⟨1 / 2, by norm_num, by norm_num, ?_, ?_⟩
    · simp only [wallOn]
      norm_num
    · simp [wallOn]
  · simp [corridorWidth]
    norm_num

/-! ## Release of an object whose floor is missing -/

/-- The object found under reference `sel` after the release of the child `o` whose floor is
missing: `o` made visible, relocked to floor 0, snapped if snapping is on, and put on slab 0
if that exists. -/
theorem endDrag_relocked (s : Designer ℝ) (sel : Nat) (o : Object3D ℝ)
    (hd : s.isDragging = true) (hsel : s.selectedObject = some sel)
    (hin : s.children.find? (fun c => decide (c.id = sel)) = some o)
    (hnone : floorAt s.floors (lockedFloorOr o 0) = none) :
    (endDrag s).isDragging = false ∧ (endDrag s).selectedObject = none ∧
      (endDrag s).activeDrops = s.activeDrops ∧ (endDrag s).floors = s.floors ∧
      findObject (endDrag s) sel =
        some (match floorAt s.floors 0 with
          | none =>
            if s.snapEnabled then snapToGrid (relockToGround (setVisible o))
            else relockToGround (setVisible o)
          | some floor0 =>
            stabilized floor0
              (if s.snapEnabled then snapToGrid (relockToGround (setVisible o))
                else relockToGround (setVisible o))) := by
  have hin1 : ({ s with isDragging := false } : Designer ℝ).children.find?
      (fun c => decide (c.id = sel)) = some o := hin
  have hfind1 := findObject_of_child s sel o hin
  have hE : endDrag s =
      { releaseSelected ({ s with isDragging := false } : Designer ℝ) sel o with
        selectedObject := none } := by
    unfold endDrag
    simp only [hd, Bool.not_true, Bool.false_eq_true, if_false, hsel, hfind1]
  generalize ht : ({ s with isDragging := false } : Designer ℝ) = t at hE hin1
  have htf : t.floors = s.floors := by rw [← ht]
  have htd : t.isDragging = false := by rw [← ht]
  have hta : t.activeDrops = s.activeDrops := by rw [← ht]
  have hts : t.snapEnabled = s.snapEnabled := by rw [← ht]
  have hin3 : (updateObject t sel setVisible).children.find? (fun c => decide (c.id = sel)) =
      some (setVisible o) := by
    rw [updateObject_children_find t sel setVisible (fun _ => rfl), hin1]; rfl
  have hin4 : (removeDuplicatesOf (updateObject t sel setVisible) sel
      o.userData.furnitureKey).children.find? (fun c => decide (c.id = sel)) =
      some (setVisible o) := by
    unfold removeDuplicatesOf
    simp only
    rw [find?_removeDuplicatesOf]
    exact hin3
  have hfix : validateAndFixDragPosition (removeDuplicatesOf (updateObject t sel setVisible) sel
      o.userData.furnitureKey) sel =
      updateObject (removeDuplicatesOf (updateObject t sel setVisible) sel
        o.userData.furnitureKey) sel relockToGround := by
    unfold validateAndFixDragPosition
    rw [findObject_of_child _ sel _ hin4]
    have hfl : floorAt (removeDuplicatesOf (updateObject t sel setVisible) sel
        o.userData.furnitureKey).floors (lockedFloorOr (setVisible o) 0) = none := by
      have : (removeDuplicatesOf (updateObject t sel setVisible) sel
        o.userData.furnitureKey).floors = t.floors := rfl
      rw [this, htf]
      exact hnone
    simp only [hfl]
  generalize hs5 : updateObject (removeDuplicatesOf (updateObject t sel setVisible) sel
      o.userData.furnitureKey) sel relockToGround = s5 at hfix
  have hin5 : s5.children.find? (fun c => decide (c.id = sel)) =
      some (relockToGround (setVisible o)) := by
    rw [← hs5, updateObject_children_find _ sel relockToGround (fun _ => rfl), hin4]
    rfl
  have h5f : s5.floors = s.floors := by rw [← hs5, ← htf]; rfl
  have h5d : s5.isDragging = false := by rw [← hs5, ← htd]; rfl
  have h5a : s5.activeDrops = s.activeDrops := by rw [← hs5, ← hta]; rfl
  have h5s : s5.snapEnabled = s.snapEnabled := by rw [← hs5, ← hts]; rfl
  have hR : releaseSelected t sel o =
      setStableObjectPosition (if s.snapEnabled then updateObject s5 sel snapToGrid else s5)
        sel := by
    unfold releaseSelected
    simp only
    rw [reparentSelected_of_child t sel o o hin1, hfix, h5s]
  generalize hs6 : (if s.snapEnabled then updateObject s5 sel snapToGrid else s5) = s6 at hR
  have hin6 : s6.children.find? (fun c => decide (c.id = sel)) =
      some (if s.snapEnabled then snapToGrid (relockToGround (setVisible o))
        else relockToGround (setVisible o)) := by
    rw [← hs6]
    split_ifs
    · rw [updateObject_children_find _ sel snapToGrid (fun _ => rfl), hin5]
      rfl
    · exact hin5
  have h6f : s6.floors = s.floors := by
    rw [← hs6]
    split_ifs
    · exact h5f
    · exact h5f
  have h6d : s6.isDragging = false := by
    rw [← hs6]
    split_ifs
    · exact h5d
    · exact h5d
  have h6a : s6.activeDrops = s.activeDrops := by
    rw [← hs6]
    split_ifs
    · exact h5a
    · exact h5a
  have hl6 : lockedFloorOr (if s.snapEnabled then snapToGrid (relockToGround (setVisible o))
      else relockToGround (setVisible o)) 0 = 0 := by
    split_ifs <;> rfl
  rw [hE, hR]
  cases h0 : floorAt s.floors 0 with
  | none =>
    have hS : setStableObjectPosition s6 sel = s6 := by
      unfold setStableObjectPosition
      rw [findObject_of_child _ sel _ hin6]
      simp only [hl6, h6f, h0]
    rw [hS]
    exact ⟨h6d, rfl, h6a, h6f, findObject_of_child _ sel _ hin6⟩
  | some floor0 =>
    have hS := setStableObjectPosition_of_child s6 sel _ floor0 hin6
      (by rw [hl6, h6f]; exact h0)
    rw [hS]
    refine ⟨h6d, rfl, h6a, h6f, ?_⟩
    apply findObject_of_child
    show (updateObject s6 sel (stabilized floor0)).children.find?
      (fun c => decide (c.id = sel)) = _
    rw [updateObject_children_find _ sel (stabilized floor0) (fun _ => rfl), hin6]
    rfl

/-- C23: releasing a dragged object whose locked floor has no slab does not abort: the drag
state is idle again afterwards (no drag in progress, nothing selected), the falling entries
are as before, the object's `lockedFloor` and `floorIndex` are 0, and when slab 0 exists the
object stands on the target height of slab 0 and is flagged stable with that slab's
elevation recorded; when there is no slab at all its height is left alone. -/
theorem endDrag_missing_floor (s : Designer ℝ) (sel : Nat) (o : Object3D ℝ)
    (hd : s.isDragging = true) (hsel : s.selectedObject = some sel)
    (hin : s.children.find? (fun c => decide (c.id = sel)) = some o)
    (hnone : floorAt s.floors (lockedFloorOr o 0) = none) :
    (endDrag s).isDragging = false ∧ (endDrag s).selectedObject = none ∧
      (endDrag s).activeDrops = s.activeDrops ∧
      ∃ o', findObject (endDrag s) sel = some o' ∧ o'.id = o.id ∧ o'.height = o.height ∧
        o'.userData.lockedFloor = some 0 ∧ o'.userData.floorIndex = some 0 ∧
        (floorAt s.floors 0 = none → o'.position.y = o.position.y) ∧
        ∀ floor0, floorAt (endDrag s).floors 0 = some floor0 →
          o'.position.y = targetHeight floor0 o' ∧ o'.userData.isStable = true ∧
            o'.userData.lastStableFloorY = some floor0.positionY := by
  obtain ⟨h1, h2, h3, h4, h5⟩ := endDrag_relocked s sel o hd hsel hin hnone
  refine ⟨h1, h2, h3, _, h5, ?_⟩
  rw [h4]
  cases h0 : floorAt s.floors 0 with
  | none =>
    simp only
    cases s.snapEnabled
    · simp only [Bool.false_eq_true, if_false]
      exact ⟨rfl, rfl, rfl, rfl, fun _ => rfl, fun _ h => by cases h⟩
    · simp only [if_true]
      exact ⟨rfl, rfl, rfl, rfl, fun _ => rfl, fun _ h => by cases h⟩
  | some floor0 =>
    simp only
    cases s.snapEnabled
    · simp only [Bool.false_eq_true, if_false]
      refine ⟨rfl, rfl, rfl, rfl, (fun h => by cases h), ?_⟩
      intro f hf
      cases hf
      exact ⟨rfl, rfl, rfl⟩
    · simp only [if_true]
      refine ⟨rfl, rfl, rfl, rfl, (fun h => by cases h), ?_⟩
      intro f hf
      cases hf
      exact ⟨rfl, rfl, rfl⟩

/-- The dragged object of `strandedDesigner` is locked to floor 2 while only slab 0 exists: on
release it is relocked to floor 0 and put on the target height 0.65 of slab 0. -/
theorem endDrag_missing_floor_witness :
    (endDrag (strandedDesigner : Designer ℝ)).isDragging = false ∧
      (endDrag (strandedDesigner : Designer ℝ)).selectedObject = none ∧
      ∃ o', findObject (endDrag (strandedDesigner : Designer ℝ)) 0 = some o' ∧
        o'.userData.lockedFloor = some 0 ∧ o'.userData.floorIndex = some 0 ∧
        o'.position.y = 0.65 ∧ o'.userData.isStable = true := by
  have hfl : floorAt (strandedDesigner : Designer ℝ).floors
      (lockedFloorOr (furnitureAt 0 2 0 (0.65 : ℝ) 0) 0) = none := by
    simp [floorAt, lockedFloorOr, furnitureAt, strandedDesigner, oneObjectDesigner,
      freshDesigner]
  have hin : (strandedDesigner : Designer ℝ).children.find? (fun c => decide (c.id = 0)) =
      some (furnitureAt 0 2 0 (0.65 : ℝ) 0) := by
    simp [strandedDesigner, furnitureAt]
  obtain ⟨h1, h2, -, o', ho', -, hh, hl, hf, -, hy⟩ :=
    endDrag_missing_floor (strandedDesigner : Designer ℝ) 0 (furnitureAt 0 2 0 (0.65 : ℝ) 0)
      rfl rfl hin hfl
  have hfloors : floorAt (endDrag (strandedDesigner : Designer ℝ)).floors 0 =
      some { positionY := 0 } := by
    rw [(endDrag_relocked (strandedDesigner : Designer ℝ) 0 (furnitureAt 0 2 0 (0.65 : ℝ) 0)
      rfl rfl hin hfl).2.2.2.1]
    rfl
  obtain ⟨hy1, hy2, -⟩ := hy _ hfloors
  refine ⟨h1, h2, o', ho', hl, hf, ?_, hy2⟩
  rw [hy1]
  unfold targetHeight
  rw [hh]
  simp [furnitureAt, floorThickness]
  norm_num

/-! ## The bounds correction in isolation -/

/-- C30: for a child `o` of `floorObjectsGroup` whose floor exists and which is the only
object on that floor, and a radius `≥ 0`, `validateAndFixDragPosition` rewrites only the
position of `o`: a horizontal position `p` with `|p| > 0.8 * radius` becomes
`(0.8 * radius / |p|) * p`, at distance exactly `0.8 * radius` from the center, a position
with `|p| ≤ 0.8 * radius` is unchanged, and `position.y`, `lockedFloor` and the rest of
`userData` are never changed. -/
theorem validateAndFixDragPosition_isolated (s : Designer ℝ) (id : Nat) (o : Object3D ℝ)
    (floor : Floor ℝ) (hin : s.children.find? (fun c => decide (c.id = id)) = some o)
    (hfloor : floorAt s.floors (lockedFloorOr o 0) = some floor)
    (halone : (getObjectsOnFloor s (lockedFloorOr o 0)).filter
      (fun otherObj => decide (otherObj.id ≠ id)) = [])
    (hr : 0 ≤ s.currentRadius) :
    ∃ o', findObject (validateAndFixDragPosition s id) id = some o' ∧
      validateAndFixDragPosition s id = updateObject s id (setPosition o'.position) ∧
      o'.position.y = o.position.y ∧ o'.userData = o.userData ∧
      o'.userData.lockedFloor = o.userData.lockedFloor ∧
      (0.8 * s.currentRadius < distanceFromCenter o.position →
        o'.position.x = 0.8 * s.currentRadius / distanceFromCenter o.position * o.position.x ∧
        o'.position.z = 0.8 * s.currentRadius / distanceFromCenter o.position * o.position.z ∧
        distanceFromCenter o'.position = 0.8 * s.currentRadius) ∧
      (distanceFromCenter o.position ≤ 0.8 * s.currentRadius → o'.position = o.position) := by
  have hfix := validateAndFixDragPosition_of_child s id o floor hin hfloor
  rw [halone] at hfix
  simp only [List.foldl_nil] at hfix
  have hfind : findObject (validateAndFixDragPosition s id) id =
      some (setPosition (fixBounds (s.currentRadius * 0.8) o.position) o) := by
    rw [hfix]
    apply findObject_of_child
    rw [updateObject_children_find s id
      (setPosition (fixBounds (s.currentRadius * 0.8) o.position)) (fun _ => rfl), hin]
    rfl
  have hdc : distanceFromCenter o.position =
      Real.sqrt (o.position.x * o.position.x + o.position.z * o.position.z) := by
    unfold distanceFromCenter; rw [sq, sq]
  have hR : 0 ≤ s.currentRadius * 0.8 := mul_nonneg hr (by norm_num)
  refine ⟨_, hfind, hfix, ?_, rfl, rfl, ?_, ?_⟩
  · show (fixBounds (s.currentRadius * 0.8) o.position).y = o.position.y
    unfold fixBounds
    simp only
    split_ifs <;> rfl
  · intro hout
    have hout' : s.currentRadius * 0.8 <
        Real.sqrt (o.position.x * o.position.x + o.position.z * o.position.z) := by
      rw [← hdc, mul_comm]; exact hout
    have hpos : 0 < distanceFromCenter o.position := by
      rw [hdc]; exact lt_of_le_of_lt hR hout'
    have hb := fixBounds_outside _ _ hR hout'
    rw [← hdc] at hb
    show (fixBounds (s.currentRadius * 0.8) o.position).x = _ ∧
      (fixBounds (s.currentRadius * 0.8) o.position).z = _ ∧
      distanceFromCenter (fixBounds (s.currentRadius * 0.8) o.position) = _
    rw [hb]
    refine ⟨?_, ?_, ?_⟩
    · simp only
      field_simp
      ring
    · simp only
      field_simp
      ring
    · change Real.sqrt
        ((o.position.x / distanceFromCenter o.position * (s.currentRadius * 0.8)) ^ 2 +
          (o.position.z / distanceFromCenter o.position * (s.currentRadius * 0.8)) ^ 2) = _
      have hsq : o.position.x ^ 2 + o.position.z ^ 2 = distanceFromCenter o.position ^ 2 := by
        unfold distanceFromCenter
        rw [Real.sq_sqrt (by positivity)]
      have e : (o.position.x / distanceFromCenter o.position * (s.currentRadius * 0.8)) ^ 2 +
          (o.position.z / distanceFromCenter o.position * (s.currentRadius * 0.8)) ^ 2 =
          (0.8 * s.currentRadius) ^ 2 := by
        have hne : distanceFromCenter o.position ≠ 0 := ne_of_gt hpos
        field_simp
        rw [← hsq]
        ring
      rw [e, Real.sqrt_sq (by linarith)]
  · intro hle
    show fixBounds (s.currentRadius * 0.8) o.position = o.position
    apply fixBounds_inside
    rw [← hdc, mul_comm]
    exact hle

/-- The object of `outsideDiscDesigner` at `(6, 0.65, 8)`, 10 from the center with an allowed
radius of 8, is moved to `(4.8, 0.65, 6.4)`. -/
theorem validateAndFixDragPosition_isolated_witness :
    ∃ o', findObject (validateAndFixDragPosition (outsideDiscDesigner : Designer ℝ) 0) 0 =
        some o' ∧
      o'.position.x = 4.8 ∧ o'.position.y = 0.65 ∧ o'.position.z = 6.4 ∧
      o'.userData.lockedFloor = some 0 := by
  have hin : (outsideDiscDesigner : Designer ℝ).children.find? (fun c => decide (c.id = 0)) =
      some (furnitureAt 0 0 6 (0.65 : ℝ) 8) := by
    simp [outsideDiscDesigner, furnitureAt]
  have hfl : floorAt (outsideDiscDesigner : Designer ℝ).floors
      (lockedFloorOr (furnitureAt 0 0 6 (0.65 : ℝ) 8) 0) = some { positionY := 0 } := by
    simp [floorAt, lockedFloorOr, furnitureAt, outsideDiscDesigner, oneObjectDesigner,
      freshDesigner]
  have halone : (getObjectsOnFloor (outsideDiscDesigner : Designer ℝ)
      (lockedFloorOr (furnitureAt 0 0 6 (0.65 : ℝ) 8) 0)).filter
      (fun otherObj => decide (otherObj.id ≠ 0)) = [] := by
    simp [getObjectsOnFloor, outsideDiscDesigner, furnitureAt, lockedFloorOr]
  have hrad : (outsideDiscDesigner : Designer ℝ).currentRadius = 10 := rfl
  obtain ⟨o', ho', -, hy, -, hl, hout, -⟩ :=
    validateAndFixDragPosition_isolated (outsideDiscDesigner : Designer ℝ) 0
      (furnitureAt 0 0 6 (0.65 : ℝ) 8) { positionY := 0 } hin hfl halone
      (by rw [hrad]; norm_num)
  have hd : distanceFromCenter (furnitureAt 0 0 6 (0.65 : ℝ) 8).position = 10 := by
    unfold distanceFromCenter
    have : (furnitureAt 0 0 6 (0.65 : ℝ) 8).position.x ^ 2 +
        (furnitureAt 0 0 6 (0.65 : ℝ) 8).position.z ^ 2 = 10 ^ 2 := by
      simp [furnitureAt]
      norm_num
    rw [this, Real.sqrt_sq (by norm_num)]
  rw [hd, hrad] at hout
  obtain ⟨hx, hz, -⟩ := hout (by norm_num)
  refine ⟨o', ho', ?_, hy, ?_, hl⟩
  · rw [hx]
    simp [furnitureAt]
    norm_num
  · rw [hz]
    simp [furnitureAt]
    norm_num

/-! ## The duplicate sweep within a frame -/

section
variable {α : Type} [LinearOrderedField α]

/-- The keys on the children after a frame are the keys that the sweep keeps. -/
theorem updateGravity_keys (s : Designer α) (delta : α) :
    keysOf (updateGravity s delta).children = keysOf (dedupKeep [] s.children) := by
  unfold updateGravity
  simp only
  split_ifs
  · rfl
  · obtain ⟨g, hg, -, hr⟩ := dropAll_onlyY (frameStep delta) (removeDuplicates s).activeDrops
      (removeDuplicates s)
    rw [hr]
    simp only [mapObjects, List.map_map]
    unfold keysOf
    rw [List.filterMap_map]
    have hch : (removeDuplicates s).children = dedupKeep [] s.children := rfl
    rw [hch]
    congr 1
    funext o
    obtain ⟨y, hy⟩ := hg o
    simp only [Function.comp, stickObject_key, hy]
    rfl

/-- C28 (as amended): in every frame in which the layout is not locked, whatever the
`isDragging` flag is, the duplicate sweep runs first, and after the frame no two children of
`floorObjectsGroup` carry the same furniture key: the keys left are those of the first
occurrences. -/
theorem animate_keys_unique (s : Designer α) (delta : α) (hl : s.layoutLocked = false) :
    KeysUnique (animate s delta) ∧
      keysOf (animate s delta).children = keysOf (keepFirstOccurrences s.children) := by
  have ha : animate s delta = updateGravity s delta := by
    unfold animate
    rw [hl]
    rfl
  have hk : dedupKeep [] s.children = keepFirstOccurrences s.children := by
    rw [keepFirstOccurrences_eq]
    apply dedupKeep_eq_keepFirstFrom
    intro k
    simp [keyOccursIn]
  unfold KeysUnique
  rw [ha, updateGravity_keys, ← hk]
  exact ⟨(dedupKeep_keys [] s.children).1, rfl⟩

end

/-- With the layout unlocked, one frame on the two objects that share a key leaves one key,
also while a drag is in progress. -/
theorem animate_keys_unique_witness :
    ¬ KeysUnique (duplicateKeyDesigner false : Designer ℚ) ∧
      KeysUnique (animate (duplicateKeyDesigner false : Designer ℚ) 0.033) ∧
      KeysUnique (animate
        { (duplicateKeyDesigner false : Designer ℚ) with isDragging := true } 0.033) := by
  refine ⟨?_, (animate_keys_unique (duplicateKeyDesigner false : Designer ℚ) 0.033 rfl).1,
    (animate_keys_unique
      { (duplicateKeyDesigner false : Designer ℚ) with isDragging := true } 0.033 rfl).1⟩
  simp [KeysUnique, keysOf, duplicateKeyDesigner, furnitureAt]

/-- C28 (counterexample): with `layoutLocked` set, `animate` does not call `updateGravity`,
so the sweep does not run: after the frame the two objects that share a key are both still
children of `floorObjectsGroup`. -/
theorem animate_locked_keeps_duplicates :
    animate (duplicateKeyDesigner true : Designer ℚ) 0.033 = duplicateKeyDesigner true ∧
      (animate (duplicateKeyDesigner true : Designer ℚ) 0.033).children.map
        (fun o => o.userData.furnitureKey) =
        [some { counter := 0, floor := 0 }, some { counter := 0, floor := 0 }] ∧
      ¬ KeysUnique (animate (duplicateKeyDesigner true : Designer ℚ) 0.033) := by
  have h : animate (duplicateKeyDesigner true : Designer ℚ) 0.033 = duplicateKeyDesigner true :=
    rfl
  refine ⟨h, ?_, ?_⟩
  · rw [h]
    rfl
  · rw [h]
    simp [KeysUnique, keysOf, duplicateKeyDesigner, furnitureAt]

/-! ## Falling entries -/

section
variable {α : Type}

theorem refsInOrder_of (s s' : Designer α) (h : RefsInOrder s)
    (hnodup : ((s'.children ++ s'.detached).map (fun o => o.id)).Nodup)
    (hmem : ∀ o' ∈ s'.children ++ s'.detached, ∃ o ∈ s.children ++ s.detached, o'.id = o.id)
    (hnext : s'.nextId = s.nextId)
    (hdrops : (s'.activeDrops.map (fun d => d.obj)).Sublist
      (s.activeDrops.map (fun d => d.obj))) : RefsInOrder s' := by
  obtain ⟨-, h2, h3, h4⟩ := h
  refine ⟨hnodup, ?_, h3.sublist hdrops, ?_⟩
  · intro o' ho'
    obtain ⟨o, ho, he⟩ := hmem o' ho'
    rw [he, hnext]
    exact h2 o ho
  · intro d hd
    have : d.obj ∈ s'.activeDrops.map (fun d => d.obj) := List.mem_map_of_mem _ hd
    obtain ⟨d0, hd0, he⟩ := List.mem_map.1 (hdrops.subset this)
    rw [← he, hnext]
    exact h4 d0 hd0

theorem refsInOrder_of_perm (s s' : Designer α) (h : RefsInOrder s)
    (hids : ((s'.children ++ s'.detached).map (fun o => o.id)).Perm
      ((s.children ++ s.detached).map (fun o => o.id)))
    (hnext : s'.nextId = s.nextId)
    (hdrops : (s'.activeDrops.map (fun d => d.obj)).Sublist
      (s.activeDrops.map (fun d => d.obj))) : RefsInOrder s' := by
  refine refsInOrder_of s s' h (hids.nodup_iff.2 h.1) ?_ hnext hdrops
  intro o' ho'
  have : o'.id ∈ (s.children ++ s.detached).map (fun o => o.id) :=
    hids.subset (List.mem_map_of_mem _ ho')
  obtain ⟨o, ho, he⟩ := List.mem_map.1 this
  exact ⟨o, ho, he.symm⟩

theorem refsInOrder_mapObjects (s : Designer α) (g : Object3D α → Object3D α)
    (hg : ∀ o, (g o).id = o.id) (h : RefsInOrder s) : RefsInOrder (mapObjects s g) := by
  refine refsInOrder_of_perm s _ h ?_ rfl (List.Sublist.refl _)
  have : ((mapObjects s g).children ++ (mapObjects s g).detached).map (fun o => o.id) =
      (s.children ++ s.detached).map (fun o => o.id) := by
    simp only [mapObjects, ← List.map_append, List.map_map]
    apply List.map_congr_left
    intro o _
    exact hg o
  rw [this]

theorem refsInOrder_updateObject (s : Designer α) (id : Nat) (f : Object3D α → Object3D α)
    (hf : ∀ o, (f o).id = o.id) (h : RefsInOrder s) : RefsInOrder (updateObject s id f) := by
  rw [updateObject_eq_mapObjects]
  refine refsInOrder_mapObjects s _ ?_ h
  intro o
  split_ifs
  · exact hf o
  · rfl

/-- Mapping the children of `floorObjectsGroup` through a function that keeps references. -/
theorem refsInOrder_mapChildren (s s' : Designer α) (G : Object3D α → Object3D α)
    (hG : ∀ o, (G o).id = o.id) (h : RefsInOrder s) (hc : s'.children = s.children.map G)
    (hd : s'.detached = s.detached) (hnext : s'.nextId = s.nextId)
    (hdrops : s'.activeDrops = s.activeDrops) : RefsInOrder s' := by
  refine refsInOrder_of_perm s s' h ?_ hnext (by rw [hdrops])
  rw [hc, hd, map_children_uniqueIds _ _ G hG]

theorem refsInOrder_deleteObject (s : Designer α) (id : Nat) (h : RefsInOrder s) :
    RefsInOrder (deleteObject s id) := by
  refine refsInOrder_of_perm s _ h ?_ rfl (List.Sublist.refl _)
  apply List.Perm.map
  show (s.children.filter (fun o => decide (o.id ≠ id)) ++
    (s.detached ++ s.children.filter (fun o => decide (o.id = id)))).Perm
    (s.children ++ s.detached)
  have h1 : (s.children.filter (fun o => decide (o.id = id)) ++
      s.children.filter (fun o => decide (o.id ≠ id))).Perm s.children := by
    have := List.filter_append_perm (fun o : Object3D α => decide (o.id = id)) s.children
    simpa using this
  calc s.children.filter (fun o => decide (o.id ≠ id)) ++
        (s.detached ++ s.children.filter (fun o => decide (o.id = id)))
      _ |>.Perm ((s.detached ++ s.children.filter (fun o => decide (o.id = id))) ++
          s.children.filter (fun o => decide (o.id ≠ id))) := List.perm_append_comm
      _ = s.detached ++ (s.children.filter (fun o => decide (o.id = id)) ++
          s.children.filter (fun o => decide (o.id ≠ id))) := List.append_assoc _ _ _
      _ |>.Perm (s.detached ++ s.children) := List.Perm.append_left _ h1
      _ |>.Perm (s.children ++ s.detached) := List.perm_append_comm

theorem refsInOrder_removeDuplicatesOf (s : Designer α) (sel : Nat)
    (objectKey : Option FurnitureKey) (h : RefsInOrder s) :
    RefsInOrder (removeDuplicatesOf s sel objectKey) := by
  refine refsInOrder_of_perm s _ h ?_ rfl (List.Sublist.refl _)
  apply List.Perm.map
  show (s.children.filter (fun obj => !isDuplicateOf sel objectKey obj) ++
    (s.detached ++ s.children.filter (isDuplicateOf sel objectKey))).Perm
    (s.children ++ s.detached)
  have h1 : (s.children.filter (isDuplicateOf sel objectKey) ++
      s.children.filter (fun obj => !isDuplicateOf sel objectKey obj)).Perm s.children :=
    List.filter_append_perm (isDuplicateOf sel objectKey) s.children
  calc s.children.filter (fun obj => !isDuplicateOf sel objectKey obj) ++
        (s.detached ++ s.children.filter (isDuplicateOf sel objectKey))
      _ |>.Perm ((s.detached ++ s.children.filter (isDuplicateOf sel objectKey)) ++
          s.children.filter (fun obj => !isDuplicateOf sel objectKey obj)) :=
        List.perm_append_comm
      _ = s.detached ++ (s.children.filter (isDuplicateOf sel objectKey) ++
          s.children.filter (fun obj => !isDuplicateOf sel objectKey obj)) :=
        List.append_assoc _ _ _
      _ |>.Perm (s.detached ++ s.children) := List.Perm.append_left _ h1
      _ |>.Perm (s.children ++ s.detached) := List.perm_append_comm

theorem refsInOrder_reparentSelected (s : Designer α) (sel : Nat) (selected : Object3D α)
    (hsel : findObject s sel = some selected) (h : RefsInOrder s) :
    RefsInOrder (reparentSelected s sel selected) := by
  unfold reparentSelected
  split_ifs with hany
  · exact h
  · have hid : selected.id = sel := by
      have := List.find?_some hsel
      simpa using this
    have hmemsel := findObject_mem s sel selected hsel
    have hnochild : ∀ c ∈ s.children, c.id ≠ sel := by
      intro c hc he
      apply hany
      rw [List.any_eq_true]
      exact ⟨c, hc, by simpa using he⟩
    have hu : ((s.children ++ s.detached).map (fun o => o.id)).Nodup := h.1
    rw [List.map_append, List.nodup_append] at hu
    obtain ⟨hu1, hu2, hu3⟩ := hu
    refine refsInOrder_of s _ h ?_ ?_ rfl (List.Sublist.refl _)
    · show ((s.children ++ [selected] ++
        s.detached.filter (fun o => decide (o.id ≠ sel))).map (fun o => o.id)).Nodup
      rw [List.map_append, List.map_append, List.nodup_append, List.nodup_append]
      refine ⟨⟨hu1, List.nodup_singleton _, ?_⟩,
        hu2.sublist ((List.filter_sublist _).map _), ?_⟩
      · intro a ha hb
        simp only [List.map_cons, List.map_nil, List.mem_singleton] at hb
        obtain ⟨c, hc, hce⟩ := List.mem_map.1 ha
        exact hnochild c hc (by rw [hce, hb, hid])
      · intro a ha hb
        obtain ⟨d, hd, hde⟩ := List.mem_map.1 hb
        rw [List.mem_filter] at hd
        rw [List.mem_append] at ha
        rcases ha with ha | ha
        · exact hu3 ha (List.mem_map.2 ⟨d, hd.1, hde⟩)
        · simp only [List.map_cons, List.map_nil, List.mem_singleton] at ha
          have : d.id ≠ sel := by simpa using hd.2
          exact this (by rw [hde, ha, hid])
    · intro o' ho'
      simp only [List.mem_append, List.mem_singleton, List.mem_filter] at ho'
      rcases ho' with (ho' | ho') | ho'
      · exact ⟨o', List.mem_append_left _ ho', rfl⟩
      · exact ⟨selected, hmemsel, by rw [ho']⟩
      · exact ⟨o', List.mem_append_right _ ho'.1, rfl⟩

theorem refsInOrder_removeDuplicates (s : Designer α) (h : RefsInOrder s) :
    RefsInOrder (removeDuplicates s) :=
  refsInOrder_of_perm s _ h ((removeDuplicates_perm s).map _) rfl (List.Sublist.refl _)

end

section
variable {α : Type} [LinearOrderedField α]

theorem refsInOrder_append_fresh (s s' : Designer α) (o : Object3D α) (h : RefsInOrder s)
    (hid : o.id = s.nextId) (hc : s'.children = s.children ++ [o])
    (hd : s'.detached = s.detached) (hnext : s'.nextId = s.nextId + 1)
    (hdrops : s'.activeDrops = s.activeDrops ∨
      s'.activeDrops = s.activeDrops ++ [{ obj := o.id, vy := 0 }]) : RefsInOrder s' := by
  obtain ⟨h1, h2, h3, h4⟩ := h
  have hfresh : s.nextId ∉ (s.children ++ s.detached).map (fun o => o.id) := by
    intro hm
    obtain ⟨c, hc', he⟩ := List.mem_map.1 hm
    have := h2 c hc'
    omega
  refine ⟨?_, ?_, ?_, ?_⟩
  · unfold UniqueIds
    rw [hc, hd]
    have hp : ((s.children ++ [o] ++ s.detached).map (fun o => o.id)).Perm
        (o.id :: (s.children ++ s.detached).map (fun o => o.id)) := by
      rw [← List.map_cons (fun o : Object3D α => o.id)]
      apply List.Perm.map
      rw [List.append_assoc, List.singleton_append]
      exact List.perm_middle
    rw [hp.nodup_iff, List.nodup_cons, hid]
    exact ⟨hfresh, h1⟩
  · intro c hcm
    rw [hc, hd] at hcm
    simp only [List.mem_append, List.mem_singleton] at hcm
    rw [hnext]
    rcases hcm with (hcm | hcm) | hcm
    · exact Nat.lt_succ_of_lt (h2 c (List.mem_append_left _ hcm))
    · rw [hcm, hid]
      exact Nat.lt_succ_self _
    · exact Nat.lt_succ_of_lt (h2 c (List.mem_append_right _ hcm))
  · rcases hdrops with hdr | hdr
    · rw [hdr]
      exact h3
    · rw [hdr, List.map_append, List.nodup_append]
      refine ⟨h3, List.nodup_singleton _, ?_⟩
      intro a ha hb
      simp only [List.map_cons, List.map_nil, List.mem_singleton] at hb
      obtain ⟨d, hd', he⟩ := List.mem_map.1 ha
      have := h4 d hd'
      rw [he, hb, hid] at this
      exact lt_irrefl _ this
  · intro d hdm
    rw [hnext]
    rcases hdrops with hdr | hdr
    · rw [hdr] at hdm
      exact Nat.lt_succ_of_lt (h4 d hdm)
    · rw [hdr, List.mem_append, List.mem_singleton] at hdm
      rcases hdm with hdm | hdm
      · exact Nat.lt_succ_of_lt (h4 d hdm)
      · rw [hdm, hid]
        exact Nat.lt_succ_self _

theorem refsInOrder_placeObjectAt (s : Designer α) (now : Int) (box : PrefabBox α)
    (worldPoint : Vector3 α) (floorIdx : Int) (h : RefsInOrder s) :
    RefsInOrder (placeObjectAt s now box worldPoint floorIdx).1 := by
  unfold placeObjectAt
  split_ifs
  · exact h
  · exact h
  · cases hfl : floorAt s.floors floorIdx with
    | none => exact h
    | some floor =>
      exact refsInOrder_append_fresh s _ (newFurniture s box worldPoint floorIdx floor) h
        rfl rfl rfl rfl (Or.inr rfl)

theorem refsInOrder_duplicateObject (s : Designer α) (id : Nat) (h : RefsInOrder s) :
    RefsInOrder (duplicateObject s id) := by
  unfold duplicateObject
  cases hfind : findObject s id with
  | none => exact h
  | some object =>
    exact refsInOrder_append_fresh s _ (cloneOf s.nextId s.furnitureKeyCounter object) h
      rfl rfl rfl rfl (Or.inl rfl)

omit [LinearOrderedField α] in
theorem refsInOrder_startDrag (s : Designer α) (now : Int) (id : Nat) (h : RefsInOrder s) :
    RefsInOrder (startDrag s now id) := by
  unfold startDrag
  split_ifs
  · exact h
  · exact h
  · cases hfind : findObject s id with
    | none => exact h
    | some object =>
      exact refsInOrder_updateObject s id _ (fun _ => rfl) h

theorem refsInOrder_updateDrag (s : Designer α) (h : RefsInOrder s) :
    RefsInOrder (updateDrag s) := by
  unfold updateDrag
  split
  · split
    · exact h
    · exact refsInOrder_updateObject s _ _ (fun _ => rfl) h
  · exact h

theorem refsInOrder_setStableObjectPosition (s : Designer α) (id : Nat)
    (h : RefsInOrder s) : RefsInOrder (setStableObjectPosition s id) := by
  unfold setStableObjectPosition
  split
  · exact h
  · split
    · exact h
    · exact refsInOrder_updateObject s id _ (fun _ => rfl) h

theorem refsInOrder_updateFurniturePositions (s : Designer α) (h : RefsInOrder s) :
    RefsInOrder (updateFurniturePositions s) := by
  refine refsInOrder_mapChildren s _ (anchorToFloor s.floors) ?_ h rfl rfl rfl rfl
  intro o
  unfold anchorToFloor
  split <;> rfl

/-- The entries that survive the drop loop are, in order, entries of the same objects. -/
theorem dropAll_sublist (dt : α) (es : List (Drop α)) (s : Designer α) :
    ((dropAll dt s es).2.map (fun d => d.obj)).Sublist (es.map (fun d => d.obj)) := by
  induction es generalizing s with
  | nil => exact List.Sublist.refl _
  | cons e es ih =>
    simp only [dropAll, List.map_append, List.map_cons]
    cases hk : (dropEntry dt s e).2 with
    | none =>
      simp only [Option.toList, List.map_nil, List.nil_append]
      exact (ih _).cons _
    | some k =>
      simp only [Option.toList, List.map_cons, List.map_nil, List.singleton_append]
      rw [dropEntry_kept_obj dt s e k hk]
      exact (ih _).cons₂ _

theorem refsInOrder_updateGravity (s : Designer α) (delta : α) (h : RefsInOrder s) :
    RefsInOrder (updateGravity s delta) := by
  have h0 := refsInOrder_removeDuplicates s h
  unfold updateGravity
  simp only
  split_ifs
  · exact h0
  · obtain ⟨g, hg, -, hr⟩ := dropAll_mapObjects (frameStep delta)
      (removeDuplicates s).activeDrops (removeDuplicates s)
    have h1 := refsInOrder_mapObjects (removeDuplicates s) g hg h0
    have hsub := dropAll_sublist (frameStep delta) (removeDuplicates s).activeDrops
      (removeDuplicates s)
    rw [hr]
    refine refsInOrder_of_perm (mapObjects (removeDuplicates s) g) _ h1 ?_ rfl hsub
    dsimp only
    rw [List.map_map, map_children_uniqueIds]
    intro o
    exact (stickObject_frame _ _ o).1

theorem refsInOrder_setSelectedFloor (w : Workspace α) (index : Int)
    (h : RefsInOrder w.designer) : RefsInOrder (setSelectedFloor w index).designer := by
  have h1 : RefsInOrder
      ({ w.designer with
        floors := popOutFloors index w.designer.floors
        children := w.designer.children.map (fun obj =>
          { obj with visible := decide (lockedFloorOr obj (-1) = index) }) } : Designer α) :=
    refsInOrder_mapChildren w.designer _
      (fun obj => { obj with visible := decide (lockedFloorOr obj (-1) = index) })
      (fun _ => rfl) h rfl rfl rfl rfl
  unfold setSelectedFloor
  simp only
  split
  · exact h1
  · exact refsInOrder_updateFurniturePositions _ h1

theorem refsInOrder_resetFloorFocus (w : Workspace α) (h : RefsInOrder w.designer) :
    RefsInOrder (resetFloorFocus w).designer := by
  have h1 : RefsInOrder
      ({ w.designer with
        floors := w.designer.floors.map
          (fun f => { f with positionY := f.baseY.getD f.positionY })
        children := w.designer.children.map setVisible } : Designer α) :=
    refsInOrder_mapChildren w.designer _ setVisible (fun _ => rfl) h rfl rfl rfl rfl
  exact refsInOrder_updateFurniturePositions _ h1

end

theorem refsInOrder_validateAndFixDragPosition (s : Designer ℝ) (id : Nat)
    (h : RefsInOrder s) : RefsInOrder (validateAndFixDragPosition s id) := by
  unfold validateAndFixDragPosition
  cases hfind : findObject s id with
  | none => exact h
  | some object =>
    simp only
    cases floorAt s.floors (lockedFloorOr object 0) with
    | none => exact refsInOrder_updateObject s id relockToGround (fun _ => rfl) h
    | some floor => exact refsInOrder_updateObject s id _ (fun _ => rfl) h

theorem refsInOrder_releaseSelected (s1 : Designer ℝ) (sel : Nat) (selected : Object3D ℝ)
    (hsel : findObject s1 sel = some selected) (h : RefsInOrder s1) :
    RefsInOrder (releaseSelected s1 sel selected) := by
  have h2 := refsInOrder_reparentSelected s1 sel selected hsel h
  have h3 := refsInOrder_updateObject (reparentSelected s1 sel selected) sel setVisible
    (fun _ => rfl) h2
  have h4 := refsInOrder_removeDuplicatesOf
    (updateObject (reparentSelected s1 sel selected) sel setVisible) sel
    selected.userData.furnitureKey h3
  have h5 := refsInOrder_validateAndFixDragPosition
    (removeDuplicatesOf (updateObject (reparentSelected s1 sel selected) sel setVisible) sel
      selected.userData.furnitureKey) sel h4
  unfold releaseSelected
  simp only
  apply refsInOrder_setStableObjectPosition
  split_ifs
  · exact refsInOrder_updateObject _ sel snapToGrid (fun _ => rfl) h5
  · exact h5

theorem refsInOrder_endDrag (s : Designer ℝ) (h : RefsInOrder s) :
    RefsInOrder (endDrag s) := by
  unfold endDrag
  split_ifs
  · exact h
  · split
    · exact h
    · split
      · exact h
      · rename_i sel _ _ selected hfind
        exact refsInOrder_releaseSelected { s with isDragging := false } sel selected hfind h

theorem refsInOrder_buildFloors (w : Workspace ℝ) (h : RefsInOrder w.designer) :
    RefsInOrder (buildFloors w).designer := by
  refine refsInOrder_mapChildren w.designer _
    (anchorToFloor (buildFloors w).designer.floors) ?_ h (buildFloors_children w) ?_ ?_ ?_
  · intro o
    unfold anchorToFloor
    split <;> rfl
  · unfold buildFloors
    split_ifs <;> rfl
  · unfold buildFloors
    split_ifs <;> rfl
  · unfold buildFloors
    split_ifs <;> rfl

theorem refsInOrder_stepWorkspace (w : Workspace ℝ) (op : WorkspaceOp)
    (h : RefsInOrder w.designer) : RefsInOrder (stepWorkspace w op).designer := by
  cases op with
  | place now box worldPoint floorIdx => exact refsInOrder_placeObjectAt _ _ _ _ _ h
  | duplicate id => exact refsInOrder_duplicateObject _ _ h
  | delete id => exact refsInOrder_deleteObject _ _ h
  | startDrag now id => exact refsInOrder_startDrag _ _ _ h
  | drag pointer =>
    exact refsInOrder_updateDrag _ (h : RefsInOrder ({ w.designer with pointer := pointer }))
  | release => exact refsInOrder_endDrag _ h
  | tick delta => exact refsInOrder_updateGravity _ _ h
  | selectFloor index => exact refsInOrder_setSelectedFloor _ _ h
  | resetFocus => exact refsInOrder_resetFloorFocus _ h
  | rebuild floors => exact refsInOrder_buildFloors { w with numFloors := floors } h

theorem refsInOrder_runWorkspace (ops : List WorkspaceOp) (w : Workspace ℝ)
    (h : RefsInOrder w.designer) : RefsInOrder (runWorkspace w ops).designer := by
  induction ops generalizing w with
  | nil => exact h
  | cons op ops ih => exact ih _ (refsInOrder_stepWorkspace w op h)

theorem filter_obj_singleton {α : Type} (l : List (Drop α)) (e : Drop α)
    (hn : (l.map (fun d => d.obj)).Nodup) (he : e ∈ l) :
    l.filter (fun d => decide (d.obj = e.obj)) = [e] := by
  induction l with
  | nil => exact absurd he (List.not_mem_nil _)
  | cons a l ih =>
    rw [List.map_cons, List.nodup_cons] at hn
    rw [List.mem_cons] at he
    rcases he with he | he
    · subst he
      rw [List.filter_cons_of_pos (by simp)]
      congr 1
      rw [List.filter_eq_nil_iff]
      intro d hd hde
      apply hn.1
      rw [List.mem_map]
      exact ⟨d, hd, by simpa using hde⟩
    · have hne : a.obj ≠ e.obj := by
        intro h
        apply hn.1
        rw [h]
        exact List.mem_map_of_mem _ he
      rw [List.filter_cons_of_neg (by simpa using hne)]
      exact ih hn.2 he

/-- C27: in every state reached from a workspace without furniture and without falling
entries by placements, duplications, deletions, drag starts, drag moves, releases, settle
ticks (and floor selections and rebuilds), no object has more than one falling entry; and a
tick outside a drag removes the entry of an object in the very tick in which the object
reaches its target height, while an object that keeps its entry is still strictly above its
target height. -/
theorem falling_entries_unique (w0 : Workspace ℝ) (ops : List WorkspaceOp)
    (hc : w0.designer.children = []) (hd : w0.designer.detached = [])
    (ha : w0.designer.activeDrops = []) :
    ((runWorkspace w0 ops).designer.activeDrops.map (fun d => d.obj)).Nodup ∧
      ∀ (delta : ℝ) (e : Drop ℝ) (o : Object3D ℝ) (f : Int) (floor : Floor ℝ),
        (runWorkspace w0 ops).designer.isDragging = false →
        e ∈ (runWorkspace w0 ops).designer.activeDrops →
        findObject (runWorkspace w0 ops).designer e.obj = some o → LockedTo o f →
        floorAt (runWorkspace w0 ops).designer.floors f = some floor →
        ∃ o', findObject (updateGravity (runWorkspace w0 ops).designer delta) e.obj = some o' ∧
          ((o'.position.y = targetHeight floor o' ∧
              dropsOf (updateGravity (runWorkspace w0 ops).designer delta) e.obj = []) ∨
            (targetHeight floor o' < o'.position.y ∧
              dropsOf (updateGravity (runWorkspace w0 ops).designer delta) e.obj =
                [{ obj := e.obj, vy := e.vy + gravity * frameStep delta }])) := by
  have h0 : RefsInOrder w0.designer := by
    unfold RefsInOrder UniqueIds
    rw [hc, hd, ha]
    exact ⟨List.nodup_nil, fun _ h => absurd h (List.not_mem_nil _), List.nodup_nil,
      fun _ h => absurd h (List.not_mem_nil _)⟩
  obtain ⟨hu, -, hn, -⟩ := refsInOrder_runWorkspace ops w0 h0
  refine ⟨hn, ?_⟩
  intro delta e o f floor hdrag he hobj hlock hfloor
  have hes : dropsOf (runWorkspace w0 ops).designer e.obj = [e] :=
    filter_obj_singleton _ e hn he
  obtain ⟨hA, hB⟩ := updateGravity_tracked (runWorkspace w0 ops).designer delta e.obj o e f
    floor hu hdrag hobj hlock hfloor hes
  have hth : ∀ o' : Object3D ℝ, o'.height = o.height →
      targetHeight floor o' = targetHeight floor o := by
    intro o' hh
    unfold targetHeight
    rw [hh]
  rcases le_or_lt (o.position.y + (e.vy + gravity * frameStep delta) * frameStep delta)
    (targetHeight floor o) with hle | hlt
  · obtain ⟨o', h1, h2, h3, -, h5⟩ := hA hle
    exact ⟨o', h1, Or.inl ⟨by rw [h2, hth o' h3], h5⟩⟩
  · obtain ⟨o', h1, h2, h3, -, h5⟩ := hB hlt
    exact ⟨o', h1, Or.inr ⟨by rw [h2, hth o' h3]; exact hlt, h5⟩⟩

theorem growSession_drops :
    (runWorkspace (habitatWorkspace (8 : ℝ) 0) growSession).designer.activeDrops =
      [{ obj := 0, vy := 0 }] := by
  have hrun : (runWorkspace (habitatWorkspace (8 : ℝ) 0) growSession).designer =
      (placeObjectAt (freshDesigner (10 : ℝ) (buildFloorSlabs 3 8)) 1000 bedBox
        { x := 0, y := 0, z := 0 } 2).1 := by
    rw [← applyFloors_fresh]
    rfl
  rw [hrun]
  have hfl : floorAt (freshDesigner (10 : ℝ) (buildFloorSlabs 3 8)).floors 2 =
      some { positionY := -8 / 2 + (((2 : Nat) : ℝ) + 1) * (8 / (((3 : Nat) : ℝ) + 1))
             floorIndex := 2
             baseY := none } := by
    have := buildFloorSlabs_getElem? 3 (8 : ℝ) 2 (by decide)
    unfold floorAt
    rw [if_pos (by decide)]
    exact this
  have hv : validatePlacementPosition (freshDesigner (10 : ℝ) (buildFloorSlabs 3 8)) 1000
      { x := 0, y := 0, z := 0 } 2 = true := by
    rw [validatePlacementPosition_eq_true]
    refine ⟨rfl, by decide, by rw [hfl]; rfl, ?_, by decide, ?_⟩
    · simp only [sqrtGt, freshDesigner]
      norm_num
    · simp [checkMinimumDistance, getObjectsOnFloor, freshDesigner]
  unfold placeObjectAt
  simp only [hv, hfl]
  simp [freshDesigner, newFurniture]

/-- After three floors are built and an object is placed on floor 2, the object has exactly
one falling entry. -/
theorem falling_entries_unique_witness :
    (runWorkspace (habitatWorkspace (8 : ℝ) 0) growSession).designer.activeDrops.map
        (fun d => d.obj) = [0] ∧
      ((runWorkspace (habitatWorkspace (8 : ℝ) 0) growSession).designer.activeDrops.map
        (fun d => d.obj)).Nodup := by
  refine ⟨?_, (falling_entries_unique (habitatWorkspace (8 : ℝ) 0) growSession rfl rfl rfl).1⟩
  rw [growSession_drops]
  rfl

/-! ## Attachment graph and workspace clear -/

section
variable {α : Type} [LinearOrderedField α]

theorem vector3_add_sub (p w : Vector3 α) : Vector3.add w (Vector3.sub p w) = p := by
  cases p
  cases w
  simp [Vector3.add, Vector3.sub]

theorem attachedStudio_eq :
    (attachedStudio : Studio α) =
      createAttachmentConnection twoObjectStudio (furnitureAt 1 0 3 (0.65 : α) 0)
        { owner := 0, name := "right" } { x := 1, y := 0.65, z := 0 } := by
  have hfind : findObject (twoObjectStudio : Studio α).workspace.designer 1 =
      some (furnitureAt 1 0 3 (0.65 : α) 0) := by
    simp [findObject, twoObjectStudio, furnitureAt]
  unfold attachedStudio snapToAttachmentPoint
  rw [hfind]
  simp only [vector3_add_sub]
  have hp : setPosition (furnitureAt 1 0 3 (0.65 : α) 0).position
      (furnitureAt 1 0 3 (0.65 : α) 0) = furnitureAt 1 0 3 (0.65 : α) 0 := rfl
  have hu : updateObject (twoObjectStudio : Studio α).workspace.designer 1
      (setPosition (furnitureAt 1 0 3 (0.65 : α) 0).position) =
      (twoObjectStudio : Studio α).workspace.designer := by
    simp [updateObject, twoObjectStudio, furnitureAt, setPosition, oneObjectDesigner,
      freshDesigner]
  rw [hp, hu]

omit [LinearOrderedField α] in
theorem removeAttachmentConnections_attached (st : Studio α) (object : Nat)
    (point : AttachmentPoint) (h : st.attachedTo object = some point) :
    removeAttachmentConnections st object =
      { st with
        attachedObject := Function.update st.attachedObject point none
        attachedTo := Function.update st.attachedTo object none
        attachmentConnections := st.attachmentConnections.filter
          (fun connection => !decide (connection.connectedObject = some object)) } := by
  unfold removeAttachmentConnections
  simp only [h]

omit [LinearOrderedField α] in
theorem removeAttachmentConnections_free (st : Studio α) (object : Nat)
    (h : st.attachedTo object = none) :
    removeAttachmentConnections st object =
      { st with
        attachmentConnections := st.attachmentConnections.filter
          (fun connection => !decide (connection.connectedObject = some object)) } := by
  unfold removeAttachmentConnections
  simp only [h]

omit [LinearOrderedField α] in
/-- C24 (as amended): `clearWorkspace` empties the registry of furniture, the floor slabs and
the partition walls and resets the floor selection; it leaves the falling entries, the drag
state (`isDragging`, `selectedObject`), the attachment links in both directions and the
connector list exactly as they were. -/
theorem clearWorkspace_effect (st : Studio α) :
    (clearWorkspace st).workspace.designer.children = [] ∧
      (clearWorkspace st).workspace.designer.floors = [] ∧
      (clearWorkspace st).workspace.partitions = [] ∧
      (clearWorkspace st).workspace.selectedFloorIndex = none ∧
      (clearWorkspace st).workspace.designer.activeDrops = st.workspace.designer.activeDrops ∧
      (clearWorkspace st).workspace.designer.isDragging = st.workspace.designer.isDragging ∧
      (clearWorkspace st).workspace.designer.selectedObject =
        st.workspace.designer.selectedObject ∧
      (clearWorkspace st).attachedTo = st.attachedTo ∧
      (clearWorkspace st).attachedObject = st.attachedObject ∧
      (clearWorkspace st).attachmentConnections = st.attachmentConnections :=
  ⟨rfl, rfl, rfl, rfl, rfl, rfl, rfl, rfl, rfl, rfl⟩

end

/-- C24 (counterexample): object 1 is falling, object 0 is being dragged and object 1 is
attached to a point of object 0; after `clearWorkspace` the falling entry is still there, the
drag is still in progress with object 0 selected, and the link and its connector remain. -/
theorem clearWorkspace_keeps_transient_state :
    (clearWorkspace (busyStudio : Studio ℚ)).workspace.designer.activeDrops =
        [{ obj := 1, vy := -1 }] ∧
      (clearWorkspace (busyStudio : Studio ℚ)).workspace.designer.isDragging = true ∧
      (clearWorkspace (busyStudio : Studio ℚ)).workspace.designer.selectedObject = some 0 ∧
      (clearWorkspace (busyStudio : Studio ℚ)).attachedTo 1 =
        some { owner := 0, name := "right" } ∧
      (clearWorkspace (busyStudio : Studio ℚ)).attachedObject { owner := 0, name := "right" } =
        some 1 ∧
      (clearWorkspace (busyStudio : Studio ℚ)).attachmentConnections.length = 1 := by
  have h : (busyStudio : Studio ℚ) =
      { (createAttachmentConnection twoObjectStudio (furnitureAt 1 0 3 (0.65 : ℚ) 0)
          { owner := 0, name := "right" } { x := 1, y := 0.65, z := 0 }) with
        workspace :=
          { (attachedStudio : Studio ℚ).workspace with
            designer :=
              { (attachedStudio : Studio ℚ).workspace.designer with
                activeDrops := [{ obj := 1, vy := -1 }]
                isDragging := true
                selectedObject := some 0 } } } := by
    unfold busyStudio
    rw [← attachedStudio_eq]
  rw [h]
  refine ⟨rfl, rfl, rfl, ?_, ?_, rfl⟩
  · simp [clearWorkspace, createAttachmentConnection, furnitureAt]
  · simp [clearWorkspace, createAttachmentConnection, furnitureAt]

/-- C26 (failing input): snapping object 1 to the point `right` of object 0 keeps the position of
object 1, records the link in both directions and adds one connector; the following
`removeAttachmentConnections` clears both directions of the link but removes no connector,
because the line was created without `userData.connectedObject`: the connector list, empty
before the connect, still holds the connector. -/
theorem connect_disconnect_keeps_connector :
    (twoObjectStudio : Studio ℚ).attachmentConnections = [] ∧
      findObject (attachedStudio : Studio ℚ).workspace.designer 1 =
        some (furnitureAt 1 0 3 0.65 0) ∧
      (attachedStudio : Studio ℚ).attachedTo 1 = some { owner := 0, name := "right" } ∧
      (attachedStudio : Studio ℚ).attachedObject { owner := 0, name := "right" } = some 1 ∧
      (attachedStudio : Studio ℚ).attachmentConnections =
        [{ start := { x := 3, y := 0.65, z := 0 }, finish := { x := 1, y := 0.65, z := 0 },
           connectedObject := none }] ∧
      (removeAttachmentConnections (attachedStudio : Studio ℚ) 1).attachedTo 1 = none ∧
      (removeAttachmentConnections (attachedStudio : Studio ℚ) 1).attachedObject
        { owner := 0, name := "right" } = none ∧
      (removeAttachmentConnections (attachedStudio : Studio ℚ) 1).attachmentConnections =
        [{ start := { x := 3, y := 0.65, z := 0 }, finish := { x := 1, y := 0.65, z := 0 },
           connectedObject := none }] := by
  rw [attachedStudio_eq]
  have hto : (createAttachmentConnection (twoObjectStudio : Studio ℚ)
      (furnitureAt 1 0 3 (0.65 : ℚ) 0) { owner := 0, name := "right" }
      { x := 1, y := 0.65, z := 0 }).attachedTo 1 = some { owner := 0, name := "right" } := by
    simp [createAttachmentConnection, furnitureAt]
  rw [removeAttachmentConnections_attached _ 1 _ hto]
  refine ⟨rfl, ?_, hto, ?_, rfl, ?_, ?_, ?_⟩
  · simp [findObject, createAttachmentConnection, twoObjectStudio, furnitureAt]
  · simp [createAttachmentConnection, furnitureAt]
  · simp
  · simp
  · simp [createAttachmentConnection, furnitureAt, twoObjectStudio]

/-- C25 (failing input): object 1 is attached to the point `right` of object 0.  Deleting
object 0 removes it from the registry, but object 1 is still attached to the point owned by
object 0 and the connector remains; deleting object 1 instead clears the link in both
directions, but the connector created for object 1 remains in the connector list. -/
theorem deleteObject_leaves_links :
    ((Studio.deleteObject (attachedStudio : Studio ℚ) 0).workspace.designer.children.map
        (fun o => o.id) = [1] ∧
      (Studio.deleteObject (attachedStudio : Studio ℚ) 0).attachedTo 1 =
        some { owner := 0, name := "right" } ∧
      (Studio.deleteObject (attachedStudio : Studio ℚ) 0).attachmentConnections.length = 1) ∧
    ((Studio.deleteObject (attachedStudio : Studio ℚ) 1).workspace.designer.children.map
        (fun o => o.id) = [0] ∧
      (Studio.deleteObject (attachedStudio : Studio ℚ) 1).attachedTo 1 = none ∧
      (Studio.deleteObject (attachedStudio : Studio ℚ) 1).attachedObject
        { owner := 0, name := "right" } = none ∧
      (Studio.deleteObject (attachedStudio : Studio ℚ) 1).attachmentConnections.length = 1) := by
  rw [attachedStudio_eq]
  have hto1 : (createAttachmentConnection (twoObjectStudio : Studio ℚ)
      (furnitureAt 1 0 3 (0.65 : ℚ) 0) { owner := 0, name := "right" }
      { x := 1, y := 0.65, z := 0 }).attachedTo 1 = some { owner := 0, name := "right" } := by
    simp [createAttachmentConnection, furnitureAt]
  have hto0 : (createAttachmentConnection (twoObjectStudio : Studio ℚ)
      (furnitureAt 1 0 3 (0.65 : ℚ) 0) { owner := 0, name := "right" }
      { x := 1, y := 0.65, z := 0 }).attachedTo 0 = none := by
    simp [createAttachmentConnection, furnitureAt, twoObjectStudio]
  unfold Studio.deleteObject
  rw [removeAttachmentConnections_attached _ 1 _ hto1, removeAttachmentConnections_free _ 0 hto0]
  refine ⟨⟨?_, ?_, ?_⟩, ?_, ?_, ?_, ?_⟩
  · simp [deleteObject, createAttachmentConnection, twoObjectStudio, furnitureAt]
  · exact hto1
  · simp [createAttachmentConnection, twoObjectStudio]
  · simp [deleteObject, createAttachmentConnection, twoObjectStudio, furnitureAt]
  · simp
  · simp
  · simp [createAttachmentConnection, twoObjectStudio]

end Space
